import Mathlib

/-!
# LanceDB C/C++ bindings: field data, flattening and the batch inserter

A shallow embedding of `include/lancedb.h`, `include/lancedb.hpp`,
`include/table_schema.hpp` and `include/table_schema_adapter.hpp`.

Modelling conventions.

* `std::vector<X>` is `List X`; `size()` is `List.length`.  Container sizes are natural
  numbers.  A `size_t` stored into an `int` (`Field::dimension`, the `dimension`
  parameter of `lancedb_search`) is narrowed to 32 bits (`sizeTToInt`), and an `int`
  stored into a `size_t` wraps when negative (`intToSizeT`).
* A class template is a structure with type parameters; each `enable_if` overload of a
  member function is one definition, named after the overload it embeds.
* A borrowed pointer (`const char*` from `c_str()`, `const uint8_t*` from `data()`) is
  modelled by the buffer it points to; none of the embedded code writes through such a
  pointer or changes the buffer after taking the pointer.
* A member function that changes its object returns the changed object.
* The storage engine behind the C interface is a parameter (`Engine`); every call that
  crosses the interface is recorded in a trace.
* A record type is a type parameter `B`; a bound data member is a getter and a setter
  on `B` (`Member`).  Code that indexes without a bounds check returns an `Option`,
  `none` standing for an access out of range.
-/

set_option autoImplicit false

namespace lancedb

/-! ## Enumerations -/

/-- The enum `LanceDBError` of `lancedb.hpp`. -/
inductive LanceDBError
  | kLanceDBSuccess
  | kLanceDBNotConnected
  | kLanceDBInvalidArgument
  | kLanceDBInvalidOperation
  | kLanceDBInternalError
  | kLanceDBUnsupportedDataType
  | kLanceDBFieldNotFound
  | kLanceDBInsertFailed
  | kLanceDBInvalidData
  deriving DecidableEq, Repr

/-- The enum `lancedb_field_data_type_t` of `lancedb.h` (`LanceDB::DataType`). -/
inductive DataType
  | kLanceDBFieldTypeInt8
  | kLanceDBFieldTypeInt16
  | kLanceDBFieldTypeInt32
  | kLanceDBFieldTypeInt64
  | kLanceDBFieldTypeUInt8
  | kLanceDBFieldTypeUInt16
  | kLanceDBFieldTypeUInt32
  | kLanceDBFieldTypeUInt64
  | kLanceDBFieldTypeFloat16
  | kLanceDBFieldTypeFloat32
  | kLanceDBFieldTypeFloat64
  | kLanceDBFieldTypeString
  | kLanceDBFieldTypeBlob
  | kLanceDBFieldTypeTimestamp
  deriving DecidableEq, Repr

/-- The enum `lancedb_field_type_t` of `lancedb.h` (`LanceDB::FieldType`). -/
inductive FieldType
  | kLanceDBFieldTypeScalar
  | kLanceDBFieldTypeVector
  deriving DecidableEq, Repr

open LanceDBError DataType FieldType

/-- The value a never-assigned `DataType` member is given in the model (enumerator 0).
Every constructor embedded below assigns `data_type` before anything reads it. -/
instance : Inhabited DataType := ⟨kLanceDBFieldTypeInt8⟩

/-! ## Native element types and the type-tag resolver -/

/-- The native C++ types named by the `if constexpr` chain of
`BaseFieldData::GetDataTypeByNativeType`.  These are the types for which the chain does
not end in its `static_assert`, so they are the element types a column can have. -/
inductive NativeType
  | int8_t
  | char
  | unsigned_char
  | int16_t
  | int32_t
  | int64_t
  | uint16_t
  | uint32_t
  | uint64_t
  | float
  | double
  | std_string
  | const_char_ptr
  | char_ptr
  | BinaryData
  deriving DecidableEq, Repr

/-- The typedef `uint8_t` of `<cstdint>`: an alias of `unsigned char`, not a type of its
own, so `std::is_same_v<uint8_t, unsigned char>` holds. -/
abbrev NativeType.uint8_t : NativeType := NativeType.unsigned_char

/-- The member template `BaseFieldData::GetDataTypeByNativeType<U>()`: the branches of the
`if constexpr` chain in source order.  `none` is the final `static_assert` branch. -/
def GetDataTypeByNativeType (U : NativeType) : Option DataType :=
  if U = NativeType.int8_t ∨ U = NativeType.char ∨ U = NativeType.unsigned_char then
    some kLanceDBFieldTypeInt8
  else if U = NativeType.int16_t then
    some kLanceDBFieldTypeInt16
  else if U = NativeType.int32_t then
    some kLanceDBFieldTypeInt32
  else if U = NativeType.int64_t then
    some kLanceDBFieldTypeInt64
  else if U = NativeType.uint8_t then
    some kLanceDBFieldTypeUInt8
  else if U = NativeType.uint16_t then
    some kLanceDBFieldTypeUInt16
  else if U = NativeType.uint32_t then
    some kLanceDBFieldTypeUInt32
  else if U = NativeType.uint64_t then
    some kLanceDBFieldTypeUInt64
  else if U = NativeType.float then
    some kLanceDBFieldTypeFloat32
  else if U = NativeType.double then
    some kLanceDBFieldTypeFloat64
  else if U = NativeType.std_string ∨ U = NativeType.const_char_ptr ∨
      U = NativeType.char_ptr then
    some kLanceDBFieldTypeString
  else if U = NativeType.BinaryData then
    some kLanceDBFieldTypeBlob
  else
    none

/-- The data type a column of element type `U` is tagged with: the value
`GetDataTypeByNativeType<U>()` returns.  The chain never ends in its `static_assert` on a
type of `NativeType` (`GetDataTypeByNativeType_isSome`), so the default is never taken. -/
def dataTypeOf (U : NativeType) : DataType :=
  (GetDataTypeByNativeType U).getD default

/-! ## Cells and field descriptions -/

/-- A byte, `uint8_t`. -/
abbrev Byte := Fin 256

/-- The struct `BinaryData` of `lancedb.hpp`. -/
structure BinaryData where
  data : List Byte
  deriving DecidableEq, Repr

/-- A `const char*` cell, modelled by the character buffer it points to (the characters
of the `std::string` it was taken from, which a NUL follows). -/
structure CharPtr where
  pointee : String
  deriving DecidableEq, Repr

/-- The C string read through a `const char*`: the characters before the first NUL.  This
is what `std::string::operator=(const char*)` copies. -/
def CharPtr.text (p : CharPtr) : String :=
  String.mk (p.pointee.data.takeWhile (fun c => c != Char.ofNat 0))

/-- A `const uint8_t*` cell: the byte buffer it points to. -/
structure BytePtr where
  pointee : List Byte
  deriving DecidableEq, Repr

/-- Reading `n` bytes through a `const uint8_t*`. -/
def BytePtr.read (p : BytePtr) (n : Nat) : List Byte :=
  p.pointee.take n

/-- The struct `LanceDB::Field` with its default member initialisers. -/
structure Field where
  name : String := ""
  data_type : DataType := default
  field_type : FieldType := kLanceDBFieldTypeScalar
  create_index : Bool := false
  dimension : Int := 1
  nullable : Bool := false
  deriving DecidableEq, Repr

/-- Conversion of a `size_t` to `int` (32 bits, two's complement): the value modulo
`2^32`, read as a signed number.  This is the conversion at `field_info.dimension =
data[0].size()` and at the `int dimension` argument of `lancedb_search`. -/
def sizeTToInt (n : Nat) : Int :=
  if n % 2 ^ 32 < 2 ^ 31 then ((n % 2 ^ 32 : Nat) : Int)
  else ((n % 2 ^ 32 : Nat) : Int) - 2 ^ 32

/-! ## `BaseFieldData` and `FieldData` -/

/-- The class template `LanceDB::BaseFieldData<T, Container>`: its three data members. -/
structure BaseFieldData (T : Type) where
  data : List T := []
  field_info : Field := {}
  data_valid : Bool := false

namespace BaseFieldData

variable {T : Type}

def GetDimension (self : BaseFieldData T) : Int := self.field_info.dimension
def GetName (self : BaseFieldData T) : String := self.field_info.name
def GetData (self : BaseFieldData T) : List T := self.data
def GetFieldType (self : BaseFieldData T) : FieldType := self.field_info.field_type
def GetDataType (self : BaseFieldData T) : DataType := self.field_info.data_type
def IsDataValid (self : BaseFieldData T) : Bool := self.data_valid
def GetFieldInfo (self : BaseFieldData T) : Field := self.field_info
def GetDataCount (self : BaseFieldData T) : Nat := self.data.length

end BaseFieldData

/-- The class template `LanceDB::FieldData<T, Container>`.  `InnerType` is
`InnerValueType<T>::type`: the element type for a vector row, `const char*` for
`std::string`, `const uint8_t*` for `BinaryData`, and `T` itself otherwise. -/
structure FieldData (T InnerType : Type) extends BaseFieldData T where
  flatten_data : List InnerType := []
  data_size_holder : List Nat := []

namespace FieldData

variable {T InnerType E : Type}

def GetFlattenData (self : FieldData T InnerType) : List InnerType := self.flatten_data
def GetBinaryDataSize (self : FieldData T InnerType) : List Nat := self.data_size_holder

/-- The statements of the constructor `FieldData(name, data, nullable, create_index)`
that precede its call of `SetFieldType()`. -/
def construct (name : String) (data : List T) (nullable create_index : Bool) :
    FieldData T InnerType :=
  { data := data
    field_info := { name := name, nullable := nullable, create_index := create_index } }

/-- The overload of `SetFieldType()` chosen when `T` is a container of scalars other than
`std::string` (lines 183-206): `U` is `T::value_type`. -/
def SetFieldType_vector (U : NativeType) (self : FieldData (List E) E) :
    FieldData (List E) E :=
  let self : FieldData (List E) E :=
    { self with
      field_info := { self.field_info with
        field_type := kLanceDBFieldTypeVector, data_type := dataTypeOf U } }
  match self.data with
  | [] => { self with data_valid := false }
  | row0 :: _ =>
    if self.data.any (fun v => v.length != row0.length) then
      { self with data_valid := false }
    else
      let self : FieldData (List E) E :=
        { self with
          field_info := { self.field_info with dimension := sizeTToInt row0.length }
          data_valid := true }
      { self with
        flatten_data := self.data.foldl (fun acc v => acc ++ v) self.flatten_data }

/-- The constructor of `FieldData<std::vector<U>, std::vector>`. -/
def ofVectors (U : NativeType) (name : String) (data : List (List E))
    (nullable create_index : Bool) : FieldData (List E) E :=
  SetFieldType_vector U (construct name data nullable create_index)

/-- The overload of `SetFlattenData()` for an inner type that is neither `std::string`
nor `BinaryData` (lines 230-234). -/
def SetFlattenData_plain (self : FieldData T T) : FieldData T T :=
  { self with flatten_data := self.data }

/-- The overload of `SetFlattenData()` for `std::string` (lines 236-242): one
`c_str()` pointer is pushed per row; nothing is pushed to `data_size_holder`. -/
def SetFlattenData_string (self : FieldData String CharPtr) : FieldData String CharPtr :=
  self.data.foldl
    (fun s str => { s with flatten_data := s.flatten_data ++ [CharPtr.mk str] }) self

/-- The overload of `SetFlattenData()` for `BinaryData` (lines 244-251): per row, the
pointer `bin.data.data()` and the size `bin.data.size()` are pushed. -/
def SetFlattenData_blob (self : FieldData BinaryData BytePtr) :
    FieldData BinaryData BytePtr :=
  self.data.foldl
    (fun s bin => { s with
      flatten_data := s.flatten_data ++ [BytePtr.mk bin.data]
      data_size_holder := s.data_size_holder ++ [bin.data.length] }) self

/-- The overload of `SetFieldType()` chosen when `T` itself is a scalar type
(lines 214-223).  `SetFlattenData` is the overload its last statement resolves to. -/
def SetFieldType_scalar (U : NativeType)
    (SetFlattenData : FieldData T InnerType → FieldData T InnerType)
    (self : FieldData T InnerType) : FieldData T InnerType :=
  let self : FieldData T InnerType :=
    { self with
      field_info := { self.field_info with
        field_type := kLanceDBFieldTypeScalar, data_type := dataTypeOf U, dimension := 1 }
      data_valid := decide (self.data.length > 0) }
  SetFlattenData self

/-- The constructor of `FieldData<U, std::vector>` for a plain scalar `U` (a number, or a
`const char*` taken as a value). -/
def ofScalars (U : NativeType) (name : String) (data : List T)
    (nullable create_index : Bool) : FieldData T T :=
  SetFieldType_scalar U SetFlattenData_plain (construct name data nullable create_index)

/-- The constructor of `FieldData<std::string, std::vector>`. -/
def ofStrings (name : String) (data : List String) (nullable create_index : Bool) :
    FieldData String CharPtr :=
  SetFieldType_scalar NativeType.std_string SetFlattenData_string
    (construct name data nullable create_index)

/-- The constructor of `FieldData<BinaryData, std::vector>`. -/
def ofBlobs (name : String) (data : List BinaryData) (nullable create_index : Bool) :
    FieldData BinaryData BytePtr :=
  SetFieldType_scalar NativeType.BinaryData SetFlattenData_blob
    (construct name data nullable create_index)

end FieldData

/-! ## `FlatFieldData` -/

/-- The class template `LanceDB::FlatFieldData<T>`; `InnerType` as for `FieldData`. -/
structure FlatFieldData (T InnerType : Type) extends BaseFieldData T where
  data_holder : List InnerType := []
  data_size_holder : List Nat := []

namespace FlatFieldData

variable {T InnerType : Type}

/-- The private member `CheckDataValid()` (lines 324-346).  `sz / dim * dim` is computed
in `size_t`; `dim` is positive on that path. -/
def CheckDataValid (self : FlatFieldData T InnerType) : Bool :=
  let dim : Int := self.field_info.dimension
  if dim ≤ 0 then
    false
  else if self.field_info.field_type = kLanceDBFieldTypeScalar then
    if self.data.isEmpty then false else true
  else
    if self.data.isEmpty then
      false
    else
      let sz : Nat := self.data.length
      if sz / dim.toNat * dim.toNat != sz then false else true

/-- The constructor `FlatFieldData(name, data, field_type, dimension, nullable,
create_index)` (lines 269-281); `U` is the native type `T`. -/
def construct (U : NativeType) (name : String) (data : List T) (field_type : FieldType)
    (dimension : Int) (nullable create_index : Bool) : FlatFieldData T InnerType :=
  let self : FlatFieldData T InnerType :=
    { data := data
      field_info :=
        { name := name, field_type := field_type, dimension := dimension,
          data_type := dataTypeOf U, create_index := create_index, nullable := nullable } }
  { self with data_valid := CheckDataValid self }

/-- The overload of `GetFlattenData()` for a plain inner type (lines 288-292). -/
def GetFlattenData_plain (self : FlatFieldData T T) : FlatFieldData T T × List T :=
  (self, self.data)

/-- The overload of `GetFlattenData()` for `BinaryData` (lines 294-305): the holders are
filled through `const_cast` unless `data_holder` already has entries. -/
def GetFlattenData_blob (self : FlatFieldData BinaryData BytePtr) :
    FlatFieldData BinaryData BytePtr × List BytePtr :=
  if !self.data_holder.isEmpty then
    (self, self.data_holder)
  else
    let self := self.data.foldl
      (fun s bin => { s with
        data_holder := s.data_holder ++ [BytePtr.mk bin.data]
        data_size_holder := s.data_size_holder ++ [bin.data.length] }) self
    (self, self.data_holder)

/-- The overload of `GetFlattenData()` for `std::string` (lines 307-317). -/
def GetFlattenData_string (self : FlatFieldData String CharPtr) :
    FlatFieldData String CharPtr × List CharPtr :=
  if !self.data_holder.isEmpty then
    (self, self.data_holder)
  else
    let self := self.data.foldl
      (fun s str => { s with data_holder := s.data_holder ++ [CharPtr.mk str] }) self
    (self, self.data_holder)

def GetBinaryDataSize (self : FlatFieldData T InnerType) : List Nat := self.data_size_holder

/-- The object after `k` successive calls of the `BinaryData` overload of
`GetFlattenData()` on it. -/
def afterGetFlattenData_blob (k : Nat) (self : FlatFieldData BinaryData BytePtr) :
    FlatFieldData BinaryData BytePtr :=
  (fun t => (GetFlattenData_blob t).1)^[k] self

/-- The constructor of `FlatFieldData<BinaryData>`. -/
def ofBlobs (name : String) (data : List BinaryData) (field_type : FieldType)
    (dimension : Int) (nullable create_index : Bool) : FlatFieldData BinaryData BytePtr :=
  construct NativeType.BinaryData name data field_type dimension nullable create_index

/-- The constructor of `FlatFieldData<std::string>`. -/
def ofStrings (name : String) (data : List String) (field_type : FieldType)
    (dimension : Int) (nullable create_index : Bool) : FlatFieldData String CharPtr :=
  construct NativeType.std_string name data field_type dimension nullable create_index

end FlatFieldData

/-! ## The C interface of `lancedb.h` -/

/-- The struct `lancedb_table_field_t` (`LanceDB::CField`). -/
structure lancedb_table_field_t where
  name : String
  data_type : DataType
  field_type : FieldType
  create_index : Int
  dimension : Int
  nullable : Int
  deriving DecidableEq, Repr

/-- The struct `lancedb_schema_t`: `num_fields` is the length of `fields`. -/
structure lancedb_schema_t where
  fields : List lancedb_table_field_t
  deriving DecidableEq, Repr

/-- One cell of the array behind the `void* data` of a column: a native value, a
`const char*`, or a `const uint8_t*`. -/
inductive Cell (α : Type)
  | value (v : α)
  | c_str (p : CharPtr)
  | bytes (p : BytePtr)
  deriving DecidableEq, Repr

/-- The struct `lancedb_field_data_t` (`LanceDB::CFieldData`).  `data` is the array the
`void*` points to; `binary_size` is `none` for `nullptr`. -/
structure lancedb_field_data_t (α : Type) where
  name : String
  data_type : DataType
  field_type : FieldType
  data_count : Nat
  dimension : Nat
  data : List (Cell α)
  binary_size : Option (List Nat)
  deriving DecidableEq, Repr

/-- The struct `lancedb_data_t`: `num_fields` is the length of `fields`. -/
structure lancedb_data_t (α : Type) where
  fields : List (lancedb_field_data_t α)
  deriving DecidableEq, Repr

/-- The typedef `lancedb_handle_t` (`void*`): `none` is `nullptr`. -/
abbrev lancedb_handle_t := Option Nat

abbrev CField := lancedb_table_field_t
abbrev CFieldData := lancedb_field_data_t

/-- Conversion of a `bool` to `int`. -/
def boolToInt (b : Bool) : Int := if b then 1 else 0

/-- Conversion of an `int` to `size_t` (64 bits): a negative value wraps, any other
value is kept. -/
def intToSizeT (d : Int) : Nat := if d < 0 then (2 ^ 64 + d).toNat else d.toNat

/-- The static member `LanceDB::GetCField` (lines 373-383). -/
def GetCField (field : Field) : CField :=
  { name := field.name
    data_type := field.data_type
    field_type := field.field_type
    create_index := boolToInt field.create_index
    dimension := field.dimension
    nullable := boolToInt field.nullable }

/-- A call that crosses the C interface, with its arguments. -/
inductive BoundaryCall (α : Type)
  | create_table_with_schema (handle : lancedb_handle_t) (table_name : String)
      (schema : lancedb_schema_t)
  | insert (handle : lancedb_handle_t) (table_name : String) (field_data : lancedb_data_t α)
  | search (handle : lancedb_handle_t) (table_name : String) (column_name : String)
      (data : List α) (dimension : Int)
  | free_search_results (search_results : lancedb_data_t α)
  deriving DecidableEq, Repr

/-- The storage engine behind the C interface.  Each function gets the calls made so far
(the engine may answer from its state) and the arguments of the call, and gives the
`bool` the C function returns.  `lancedb_search` also has an output argument: by the
interface table of the specification it reports success together with an output batch,
or reports failure and leaves the batch unset, so it answers `some batch` for `true`
with `*search_results = batch`, and `none` for `false`. -/
structure Engine (α : Type) where
  lancedb_create_table_with_schema :
    List (BoundaryCall α) → lancedb_handle_t → String → lancedb_schema_t → Bool
  lancedb_insert :
    List (BoundaryCall α) → lancedb_handle_t → String → lancedb_data_t α → Bool
  lancedb_search :
    List (BoundaryCall α) → lancedb_handle_t → String → String → List α → Int →
      Option (lancedb_data_t α)

/-! ## Columns of any supported instantiation, `GetCFieldData` -/

/-- An argument of the parameter pack `FieldDataTypes...`: a `FieldData` or
`FlatFieldData` instantiation.  `α` is the type of the native scalar values; a column of
`const char*` elements is a column of such values (`std::is_scalar_v<const char*>`), the
pointers being the values. -/
inductive AnyFieldData (α : Type)
  | vector (fd : FieldData (List α) α)
  | scalar (fd : FieldData α α)
  | string (fd : FieldData String CharPtr)
  | blob (fd : FieldData BinaryData BytePtr)
  | flat (fd : FlatFieldData α α)
  | flat_string (fd : FlatFieldData String CharPtr)
  | flat_blob (fd : FlatFieldData BinaryData BytePtr)

namespace AnyFieldData

variable {α : Type}

def GetFieldInfo : AnyFieldData α → Field
  | vector fd => fd.GetFieldInfo
  | scalar fd => fd.GetFieldInfo
  | string fd => fd.GetFieldInfo
  | blob fd => fd.GetFieldInfo
  | flat fd => fd.GetFieldInfo
  | flat_string fd => fd.GetFieldInfo
  | flat_blob fd => fd.GetFieldInfo

def IsDataValid : AnyFieldData α → Bool
  | vector fd => fd.IsDataValid
  | scalar fd => fd.IsDataValid
  | string fd => fd.IsDataValid
  | blob fd => fd.IsDataValid
  | flat fd => fd.IsDataValid
  | flat_string fd => fd.IsDataValid
  | flat_blob fd => fd.IsDataValid

def GetDataCount : AnyFieldData α → Nat
  | vector fd => fd.GetDataCount
  | scalar fd => fd.GetDataCount
  | string fd => fd.GetDataCount
  | blob fd => fd.GetDataCount
  | flat fd => fd.GetDataCount
  | flat_string fd => fd.GetDataCount
  | flat_blob fd => fd.GetDataCount

end AnyFieldData

/-- The statements of `GetCFieldData` (lines 354-371) once the member calls on `fd` are
made: `flatten` is what `fd.GetFlattenData()` returned, and `sizes` is
`fd.GetBinaryDataSize().data()` in the `BinaryData` branch of the `if constexpr` and
`none` (`nullptr`) in the other branch. -/
def GetCFieldData.fill {α : Type} (field_info : Field) (data_count : Nat)
    (flatten : List (Cell α)) (sizes : Option (List Nat)) : CFieldData α :=
  { name := field_info.name
    data_type := field_info.data_type
    field_type := field_info.field_type
    data_count := data_count
    dimension := intToSizeT field_info.dimension
    data := flatten
    binary_size := sizes }

/-- The pointer `v.data()` of a `std::vector<size_t>`, as stored into `binary_size`: the
array of the elements, and `nullptr` for a vector that never held an element. -/
def vectorData (v : List Nat) : Option (List Nat) :=
  if v.isEmpty then none else some v

/-- The static member template `LanceDB::GetCFieldData<FieldDataType>`, per
instantiation.  For the `FlatFieldData` string and blob columns `GetFlattenData()` fills
the holders first, and `GetBinaryDataSize()` is read after it. -/
def GetCFieldData {α : Type} : AnyFieldData α → CFieldData α
  | AnyFieldData.vector fd =>
    GetCFieldData.fill fd.GetFieldInfo fd.GetDataCount (fd.GetFlattenData.map Cell.value) none
  | AnyFieldData.scalar fd =>
    GetCFieldData.fill fd.GetFieldInfo fd.GetDataCount (fd.GetFlattenData.map Cell.value) none
  | AnyFieldData.string fd =>
    GetCFieldData.fill fd.GetFieldInfo fd.GetDataCount (fd.GetFlattenData.map Cell.c_str) none
  | AnyFieldData.blob fd =>
    GetCFieldData.fill fd.GetFieldInfo fd.GetDataCount (fd.GetFlattenData.map Cell.bytes)
      (vectorData fd.GetBinaryDataSize)
  | AnyFieldData.flat fd =>
    GetCFieldData.fill fd.GetFieldInfo fd.GetDataCount
      (fd.GetFlattenData_plain.2.map Cell.value) none
  | AnyFieldData.flat_string fd =>
    GetCFieldData.fill fd.GetFieldInfo fd.GetDataCount
      (fd.GetFlattenData_string.2.map Cell.c_str) none
  | AnyFieldData.flat_blob fd =>
    let r := fd.GetFlattenData_blob
    GetCFieldData.fill fd.GetFieldInfo fd.GetDataCount (r.2.map Cell.bytes)
      (vectorData r.1.GetBinaryDataSize)

/-! ## `BatchInserter` -/

/-- The class template `LanceDB::BatchInserter<FieldDataTypes...>`: its data members. -/
structure BatchInserter (α : Type) where
  fields_ : List CField := []
  cfd_ : List (CFieldData α) := []
  hnd_ : lancedb_handle_t := none
  is_valid_ : Bool := false

namespace BatchInserter

variable {α : Type}

/-- The constructor `BatchInserter(hnd, field_data...)` (lines 388-400).  The vector
`valid` holds each `IsDataValid()` as an `int`; the loop leaves at the first `0`. -/
def construct (hnd : lancedb_handle_t) (field_data : List (AnyFieldData α)) :
    BatchInserter α :=
  let fields_ := field_data.map (fun fd => GetCField fd.GetFieldInfo)
  let cfd_ := field_data.map GetCFieldData
  let valid : List Int := field_data.map (fun fd => boolToInt fd.IsDataValid)
  if valid.any (fun v => v == 0) then
    { fields_ := fields_, cfd_ := cfd_, hnd_ := hnd, is_valid_ := false }
  else
    { fields_ := fields_, cfd_ := cfd_, hnd_ := hnd, is_valid_ := true }

/-- The member `CreateTable(table_name)` (lines 402-414).  The result is the error code
and the trace of boundary calls, extended when the C function is called. -/
def CreateTable (eng : Engine α) (self : BatchInserter α) (table_name : String)
    (trace : List (BoundaryCall α)) : LanceDBError × List (BoundaryCall α) :=
  if self.hnd_ = none then
    (kLanceDBNotConnected, trace)
  else if !self.is_valid_ then
    (kLanceDBInvalidData, trace)
  else
    let schema : lancedb_schema_t := { fields := self.fields_ }
    let result := eng.lancedb_create_table_with_schema trace self.hnd_ table_name schema
    (if result then kLanceDBSuccess else kLanceDBInternalError,
      trace ++ [BoundaryCall.create_table_with_schema self.hnd_ table_name schema])

/-- The member `Insert(table_name)` (lines 416-429). -/
def Insert (eng : Engine α) (self : BatchInserter α) (table_name : String)
    (trace : List (BoundaryCall α)) : LanceDBError × List (BoundaryCall α) :=
  if self.hnd_ = none then
    (kLanceDBNotConnected, trace)
  else if !self.is_valid_ then
    (kLanceDBInvalidData, trace)
  else
    let ld : lancedb_data_t α := { fields := self.cfd_ }
    let result := eng.lancedb_insert trace self.hnd_ table_name ld
    (if result then kLanceDBSuccess else kLanceDBInsertFailed,
      trace ++ [BoundaryCall.insert self.hnd_ table_name ld])

end BatchInserter

/-- The class `LanceDB`: its data members. -/
structure LanceDB where
  is_inited_ : Bool := false
  hnd_ : lancedb_handle_t := none

/-- The member template `LanceDB::CreateBatchInserter` (lines 440-443). -/
def LanceDB.CreateBatchInserter {α : Type} (self : LanceDB)
    (field_data : List (AnyFieldData α)) : BatchInserter α :=
  BatchInserter.construct self.hnd_ field_data

/-! ## `SearchResults` and `LanceDB::Query` -/

/-- The struct `LanceDB::SearchResults`.  `data_` has no initialiser in the source and is
not read before a search has succeeded; the model starts it as the batch of no fields. -/
structure SearchResults (α : Type) where
  data_ : lancedb_data_t α := { fields := [] }
  is_valid_ : Bool := false

namespace SearchResults

variable {α : Type}

def Get (self : SearchResults α) : lancedb_data_t α := self.data_
def IsValid (self : SearchResults α) : Bool := self.is_valid_

/-- The destructor `~SearchResults()` (lines 448-453): the trace after it has run. -/
def destroy (self : SearchResults α) (trace : List (BoundaryCall α)) :
    List (BoundaryCall α) :=
  if !self.is_valid_ then
    trace
  else
    trace ++ [BoundaryCall.free_search_results self.data_]

end SearchResults

def LanceDB.IsInited (self : LanceDB) : Bool := self.is_inited_

/-- The member template `LanceDB::Query` (lines 465-480).  The result is the error code,
the `SearchResults` argument as the call leaves it, and the trace. -/
def LanceDB.Query {α : Type} (eng : Engine α) (self : LanceDB) (table_name : String)
    (column_name : String) (embeddings : List α) (sr : SearchResults α)
    (trace : List (BoundaryCall α)) :
    LanceDBError × SearchResults α × List (BoundaryCall α) :=
  if self.hnd_ = none then
    (kLanceDBNotConnected, sr, trace)
  else if embeddings.isEmpty then
    (kLanceDBInvalidData, sr, trace)
  else
    let result :=
      eng.lancedb_search trace self.hnd_ table_name column_name embeddings
        (sizeTToInt embeddings.length)
    let trace := trace ++ [BoundaryCall.search self.hnd_ table_name column_name embeddings
      (sizeTToInt embeddings.length)]
    match result with
    | some result_data =>
      (kLanceDBSuccess, { data_ := result_data, is_valid_ := true }, trace)
    | none =>
      (kLanceDBInternalError, { sr with is_valid_ := false }, trace)

/-- Whether a boundary call is a call of `lancedb_free_search_results`. -/
def BoundaryCall.isFree {α : Type} : BoundaryCall α → Bool
  | BoundaryCall.free_search_results _ => true
  | _ => false

/-- A block that declares one `SearchResults sr;`, passes `sr` to one `LanceDB::Query`
call per entry of `calls` (table name, column name, query vector), in order, and ends,
which runs the destructor of `sr`.  The result is the codes the calls returned and the
trace after the destructor. -/
def SearchResults.scope {α : Type} (eng : Engine α) (db : LanceDB)
    (calls : List (String × String × List α)) (trace : List (BoundaryCall α)) :
    List LanceDBError × List (BoundaryCall α) :=
  let sr : SearchResults α := {}
  let st := calls.foldl
    (fun st c =>
      let r := db.Query eng c.1 c.2.1 c.2.2 st.2.1 st.2.2
      (st.1 ++ [r.1], r.2.1, r.2.2))
    (([] : List LanceDBError), sr, trace)
  (st.1, st.2.1.destroy st.2.2)

/-! ## The record adapter of `table_schema_adapter.hpp` -/

/-- What `AdapterType::FieldValue<I>` gives access to: a data member `bean->name` of the
record type `B`, read through the `const` overload and written through the reference
the other overload returns.  Reading a member after writing it gives what was written. -/
structure Member (B V : Type) where
  get : B → V
  set : B → V → B
  get_set : ∀ (b : B) (v : V), get (set b v) = v

/-- One use of `LANCE_DB_INTERNAL_DEFINE_TABLE_FIELD(index, name)`: the column name
`FieldName<I>()` and the member `FieldValue<I>`, by the type of the member: a plain
scalar of native type `U`, a `std::vector` of such scalars, a `std::string`, or a
`BinaryData`. -/
inductive FieldBinding (B α : Type)
  | scalar (name : String) (U : NativeType) (m : Member B α)
  | vector (name : String) (U : NativeType) (m : Member B (List α))
  | string (name : String) (m : Member B String)
  | blob (name : String) (m : Member B BinaryData)

/-- The static member `FieldName<I>()`. -/
def FieldBinding.name {B α : Type} : FieldBinding B α → String
  | FieldBinding.scalar name _ _ => name
  | FieldBinding.vector name _ _ => name
  | FieldBinding.string name _ => name
  | FieldBinding.blob name _ => name

/-- The struct a `BEGIN_DEFINE_LANCEDB_SCHEMA_ADAPTER` ... `END_...` block defines:
`table_name` and the bound fields in index order; `N` is the number of fields. -/
structure Adapter (B α : Type) where
  table_name : String
  fields : List (FieldBinding B α)

/-- The member `N` of an adapter. -/
def Adapter.N {B α : Type} (self : Adapter B α) : Nat := self.fields.length

/-- The struct `bean_name##Result` of `END_DEFINE_LANCEDB_SCHEMA_ADAPTER`. -/
structure BeanSearchResult (B α : Type) where
  results : List B := []
  distances : List α := []

/-! ## `TableSchema`: records to columns -/

/-- The class template `TableSchema<AdapterType, ContainerTy>`: the adapter it is
instantiated with and its data members.  `lancedb_conn_` is the connection pointed to. -/
structure TableSchema (B α : Type) where
  adapter : Adapter B α
  lancedb_conn_ : LanceDB
  create_table_ : Bool := false
  create_data_ : Bool := true

/-- Element `I` of the tuple `data` of `RunInternal`, kept with the binding it belongs
to: the container of the values of field `I`. -/
inductive BoundContainer (B α : Type)
  | scalar (name : String) (U : NativeType) (m : Member B α) (data : List α)
  | vector (name : String) (U : NativeType) (m : Member B (List α)) (data : List (List α))
  | string (name : String) (m : Member B String) (data : List String)
  | blob (name : String) (m : Member B BinaryData) (data : List BinaryData)

namespace BoundContainer

variable {B α : Type}

/-- The default-constructed element `I` of `DataTuple data` (line 160). -/
def empty : FieldBinding B α → BoundContainer B α
  | FieldBinding.scalar name U m => scalar name U m []
  | FieldBinding.vector name U m => vector name U m []
  | FieldBinding.string name m => string name m []
  | FieldBinding.blob name m => blob name m []

/-- The call `std::get<I>(data).emplace_back(AdapterType::FieldValue<I>(&bean))`. -/
def emplace_back (bean : B) : BoundContainer B α → BoundContainer B α
  | scalar name U m data => scalar name U m (data ++ [m.get bean])
  | vector name U m data => vector name U m (data ++ [m.get bean])
  | string name m data => string name m (data ++ [m.get bean])
  | blob name m data => blob name m (data ++ [m.get bean])

/-- The call `LanceDB::FieldData(field_names[I], std::get<I>(data))` (line 174), with the
defaults `nullable = false` and `create_index = false`. -/
def toFieldData : BoundContainer B α → AnyFieldData α
  | scalar name U _ data => AnyFieldData.scalar (FieldData.ofScalars U name data false false)
  | vector name U _ data => AnyFieldData.vector (FieldData.ofVectors U name data false false)
  | string name _ data => AnyFieldData.string (FieldData.ofStrings name data false false)
  | blob name _ data => AnyFieldData.blob (FieldData.ofBlobs name data false false)

end BoundContainer

namespace TableSchema

variable {B α : Type}

def IsInited (self : TableSchema B α) : Bool := self.lancedb_conn_.IsInited

def SetCreateTable (self : TableSchema B α) (create_table : Bool) : TableSchema B α :=
  { self with create_table_ := create_table }

def SetCreateData (self : TableSchema B α) (create_data : Bool) : TableSchema B α :=
  { self with create_data_ := create_data }

/-- The loop of `RunInternal` (lines 163-165): for every bean in order, the value of
every field is appended to that field's container. -/
def RunInternal.gather (fields : List (FieldBinding B α)) (beans : List B) :
    List (BoundContainer B α) :=
  beans.foldl (fun data bean => data.map (BoundContainer.emplace_back bean))
    (fields.map BoundContainer.empty)

/-- The tuple `data_tuple` of `RunInternal` (line 174): the columns handed to
`CreateBatchInserter`. -/
def RunInternal.data_tuple (fields : List (FieldBinding B α)) (beans : List B) :
    List (AnyFieldData α) :=
  (RunInternal.gather fields beans).map BoundContainer.toFieldData

/-- The private member `RunInternal` (lines 154-189). -/
def RunInternal (eng : Engine α) (self : TableSchema B α) (beans : List B)
    (trace : List (BoundaryCall α)) : LanceDBError × List (BoundaryCall α) :=
  let inserter :=
    self.lancedb_conn_.CreateBatchInserter (RunInternal.data_tuple self.adapter.fields beans)
  if self.create_table_ then
    let r := inserter.CreateTable eng self.adapter.table_name trace
    if r.1 ≠ kLanceDBSuccess then
      r
    else if self.create_data_ then
      inserter.Insert eng self.adapter.table_name r.2
    else
      r
  else if self.create_data_ then
    inserter.Insert eng self.adapter.table_name trace
  else
    (kLanceDBSuccess, trace)

/-- The member `Run` (lines 107-112). -/
def Run (eng : Engine α) (self : TableSchema B α) (beans : List B)
    (trace : List (BoundaryCall α)) : LanceDBError × List (BoundaryCall α) :=
  if !self.IsInited then
    (kLanceDBNotConnected, trace)
  else
    RunInternal eng self beans trace

end TableSchema

/-! ## `TableSchema`: columns to records

Hydration indexes `beans[i]`, `distance[i]` and the cell array without a bounds check.
The functions below return `none` where the source reads or writes out of range, reads
through a null pointer, or reads a cell as a type the cell does not hold. -/

/-- A loop `for (int i = 0; i < n; i++) body`, `body` being `step i`. -/
def forRange {σ : Type} (n : Nat) (step : Nat → σ → Option σ) (init : σ) : Option σ :=
  (List.range n).foldlM (fun s i => step i s) init

namespace Cell

variable {α : Type}

/-- Cell read through a pointer to a native scalar. -/
def asValue : Cell α → Option α
  | value v => some v
  | _ => none

/-- Cell read through a `const char**`. -/
def asCStr : Cell α → Option CharPtr
  | c_str p => some p
  | _ => none

/-- Cell read through a `const uint8_t**`. -/
def asBytes : Cell α → Option BytePtr
  | bytes p => some p
  | _ => none

end Cell

/-- The `count` native values at `data_ptr + start`, as `memcpy` reads them. -/
def readValues {α : Type} (data : List (Cell α)) (start count : Nat) : Option (List α) :=
  if start + count ≤ data.length then
    ((data.drop start).take count).mapM Cell.asValue
  else
    none

namespace TableSchema

variable {B α : Type}

/-- The member template `Query` with a `SearchResults&` argument (lines 124-131). -/
def Query_results (eng : Engine α) (self : TableSchema B α) (field_name : String)
    (embedding : List α) (results : SearchResults α) (trace : List (BoundaryCall α)) :
    LanceDBError × SearchResults α × List (BoundaryCall α) :=
  if !self.IsInited then
    (kLanceDBNotConnected, results, trace)
  else
    self.lancedb_conn_.Query eng self.adapter.table_name field_name embedding results trace

/-- The loop that looks a column up by name (lines 193-199 and 224-230): the first field
of the batch whose name compares equal. -/
def findField (data : lancedb_data_t α) (field_name : String) :
    Option (lancedb_field_data_t α) :=
  data.fields.find? (fun f => f.name == field_name)

/-- The private member `FillDistanceField` (lines 191-211).  `resize` fills with
value-initialised elements (`default`). -/
def FillDistanceField [Inhabited α] (distance : List α) (results : SearchResults α) :
    Option (LanceDBError × List α) :=
  let data := results.Get
  match findField data "_distance" with
  | none => some (kLanceDBFieldNotFound, distance)
  | some data_field =>
    let distance :=
      if distance.isEmpty then List.replicate data_field.data_count default else distance
    (forRange data_field.data_count
      (fun i d => do
        let cell ← data_field.data[i]?
        let v ← cell.asValue
        if i < d.length then some (d.set i v) else none)
      distance).map (fun d => (kLanceDBSuccess, d))

/-- The rows of the `BinaryData` branch of `FillBeanField` (lines 261-281), over the
indices still to visit.  The branch returns at line 268 when `binary_size` is not null;
when it is null, line 270 reads `binary_size[i]` through it. -/
def FillBeanField.blobRows (m : Member B BinaryData) (data_field : lancedb_field_data_t α) :
    List Nat → List B → Option (LanceDBError × List B)
  | [], beans => some (kLanceDBSuccess, beans)
  | i :: rest, beans =>
    match beans[i]? with
    | none => none
    | some bean =>
      if data_field.binary_size.isSome then
        some (kLanceDBInvalidData, beans)
      else do
        let sizes ← data_field.binary_size
        let bin_size ← sizes[i]?
        let cell ← data_field.data[i]?
        let src ← cell.asBytes
        if bin_size ≤ src.pointee.length then
          FillBeanField.blobRows m data_field rest
            (beans.set i (m.set bean (BinaryData.mk (src.read bin_size))))
        else
          none

/-- The private member template `FillBeanField<I>` (lines 213-284); `f` is binding `I`,
whose member type selects the branch of the `if constexpr`: a scalar or `std::string`
member the first branch, a `std::vector` member the second.  For a `BinaryData` member the
definition keeps the statements written for it (lines 261-281); as declared,
`NativeFieldTypeHelper<BinaryData>::is_scalar_type` is `true`, which sends such a member
to the first branch (`FillBeanField.branch` below), where the assignment of a
`const uint8_t*` to it does not compile, so that no program runs this arm. -/
def FillBeanField [Inhabited B] (f : FieldBinding B α) (beans : List B)
    (field_name : String) (results : SearchResults α) : Option (LanceDBError × List B) :=
  let data := results.Get
  match findField data field_name with
  | none => some (kLanceDBSuccess, beans)
  | some data_field =>
    let beans :=
      if beans.isEmpty then List.replicate data_field.data_count default else beans
    match f with
    | FieldBinding.scalar _ _ m =>
      (forRange data_field.data_count
        (fun i bs => do
          let bean ← bs[i]?
          let cell ← data_field.data[i]?
          let v ← cell.asValue
          some (bs.set i (m.set bean v)))
        beans).map (fun bs => (kLanceDBSuccess, bs))
    | FieldBinding.string _ m =>
      (forRange data_field.data_count
        (fun i bs => do
          let bean ← bs[i]?
          let cell ← data_field.data[i]?
          let p ← cell.asCStr
          some (bs.set i (m.set bean p.text)))
        beans).map (fun bs => (kLanceDBSuccess, bs))
    | FieldBinding.vector _ _ m =>
      (forRange data_field.data_count
        (fun i bs => do
          let bean ← bs[i]?
          let vec ← readValues data_field.data (i * data_field.dimension)
            data_field.dimension
          some (bs.set i (m.set bean vec)))
        beans).map (fun bs => (kLanceDBSuccess, bs))
    | FieldBinding.blob _ m =>
      FillBeanField.blobRows m data_field (List.range data_field.data_count) beans

/-- The private member template `QueryInternal` (lines 286-292): the fold expression
calls `FillBeanField<I>` for every index in order and drops what each call returns. -/
def QueryInternal [Inhabited B] (self : TableSchema B α) (beans : List B)
    (results : SearchResults α) : Option (LanceDBError × List B) :=
  (self.adapter.fields.foldlM
    (fun bs f => (FillBeanField f bs f.name results).map (fun r => r.2)) beans).map
    (fun bs => (kLanceDBSuccess, bs))

set_option linter.unusedVariables false in
/-- The member template `Query` with a `BeanSearchResult&` argument (lines 133-147); the
source does not use its parameter `field_name`.  The local `sr` is destroyed on every
return.  The result is the error code, the `result` argument as the call leaves it, and
the trace. -/
def Query_beans [Inhabited B] [Inhabited α] (eng : Engine α) (self : TableSchema B α)
    (field_name : String) (embedding : List α) (result : BeanSearchResult B α)
    (trace : List (BoundaryCall α)) :
    Option (LanceDBError × BeanSearchResult B α × List (BoundaryCall α)) :=
  let sr : SearchResults α := {}
  let q := self.Query_results eng "embedding" embedding sr trace
  let sr := q.2.1
  let trace := q.2.2
  if q.1 ≠ kLanceDBSuccess then
    some (q.1, result, sr.destroy trace)
  else do
    let h ← self.QueryInternal result.results sr
    let result := { result with results := h.2 }
    if h.1 ≠ kLanceDBSuccess then
      some (h.1, result, sr.destroy trace)
    else
      let d ← FillDistanceField result.distances sr
      some (d.1, { result with distances := d.2 }, sr.destroy trace)

end TableSchema

/-! ## Bound members of a record type

`FieldValue<I>` returns a reference to the data member `bean->name`.  The two
definitions below say, for two bindings, what it means that they refer to different
data members: a write through one leaves what the other reads unchanged. -/

namespace FieldBinding

variable {B α : Type}

/-- The binding is to a `BinaryData` member. -/
def isBlob : FieldBinding B α → Bool
  | blob _ _ => true
  | _ => false

/-- What `FieldValue<I>` reads from `b'` is what it reads from `b`. -/
def SameValue (f : FieldBinding B α) (b' b : B) : Prop :=
  match f with
  | scalar _ _ m => m.get b' = m.get b
  | vector _ _ m => m.get b' = m.get b
  | string _ m => m.get b' = m.get b
  | blob _ m => m.get b' = m.get b

/-- A write through the member of `f` leaves the member of `g` unchanged. -/
def Apart (f g : FieldBinding B α) : Prop :=
  match f with
  | scalar _ _ m => ∀ (b : B) (v : α), g.SameValue (m.set b v) b
  | vector _ _ m => ∀ (b : B) (v : List α), g.SameValue (m.set b v) b
  | string _ m => ∀ (b : B) (v : String), g.SameValue (m.set b v) b
  | blob _ m => ∀ (b : B) (v : BinaryData), g.SameValue (m.set b v) b

/-- The column `col` holds every cell the row loop of `FillBeanField` reads from it for
the binding `f`: a native value at each index below `data_count` for a scalar member, a
`const char*` at each such index for a `std::string` member, a native value at each
index below `data_count * dimension` for a vector member.  For a `BinaryData` member the
loop reads no cell when the column has no row or carries `binary_size`. -/
def CellsReadable : FieldBinding B α → lancedb_field_data_t α → Bool
  | scalar _ _ _, col =>
    (List.range col.data_count).all (fun i => ((col.data[i]?).bind Cell.asValue).isSome)
  | string _ _, col =>
    (List.range col.data_count).all (fun i => ((col.data[i]?).bind Cell.asCStr).isSome)
  | vector _ _ _, col =>
    (List.range (col.data_count * col.dimension)).all
      (fun k => ((col.data[k]?).bind Cell.asValue).isSome)
  | blob _ _, col => col.data_count == 0 || col.binary_size.isSome

end FieldBinding

/-- The column `RunInternal` builds for the binding `f` from the records `beans`: the
`FieldData` of the values of `f`'s member, in record order. -/
def TableSchema.RunInternal.column {B α : Type} (f : FieldBinding B α) (beans : List B) :
    AnyFieldData α :=
  match f with
  | FieldBinding.scalar name U m =>
    AnyFieldData.scalar (FieldData.ofScalars U name (beans.map m.get) false false)
  | FieldBinding.vector name U m =>
    AnyFieldData.vector (FieldData.ofVectors U name (beans.map m.get) false false)
  | FieldBinding.string name m =>
    AnyFieldData.string (FieldData.ofStrings name (beans.map m.get) false false)
  | FieldBinding.blob name m =>
    AnyFieldData.blob (FieldData.ofBlobs name (beans.map m.get) false false)

/-- The record list between two `FillBeanField` calls when the batch hydrated is the one
`RunInternal` built from `beans`: either nothing has been hydrated, or the list has one
record per record of `beans` and every member bound in `done`, blobs apart, reads as in
the original record. -/
def TableSchema.RoundTripInvariant {B α : Type} (beans : List B)
    (done : List (FieldBinding B α)) (bs : List B) : Prop :=
  (bs = [] ∧ done = []) ∨
  (bs.length = beans.length ∧
    ∀ g ∈ done, g.isBlob = false →
      ∀ (i : Nat) (h1 : i < bs.length) (h2 : i < beans.length), g.SameValue bs[i] beans[i])

/-! ## The record type and adapter of the unit test -/

/-- The struct `TestTable` of `test_schema_adapter.cpp` (lines 236-243); the `int` and
`float` values are given by integers. -/
structure TestTable where
  id : Int
  embedding : List Int
  content : String
  page : Int
  chapter : Int
  chapter_title : String
  deriving DecidableEq, Repr

/-- A value-initialised `TestTable`, as `beans.resize` creates it. -/
instance : Inhabited TestTable :=
  ⟨{ id := 0, embedding := [], content := "", page := 0, chapter := 0, chapter_title := "" }⟩

/-- A value-initialised `BinaryData`: no bytes. -/
instance : Inhabited BinaryData := ⟨BinaryData.mk []⟩

/-- The adapter `TestTableAdapter` (lines 245-252 of the test). -/
def TestTableAdapter : Adapter TestTable Int :=
  { table_name := "TestTable"
    fields :=
      [ FieldBinding.scalar "id" NativeType.int32_t
          (Member.mk (fun b => b.id) (fun b v => { b with id := v }) (fun _ _ => rfl)),
        FieldBinding.vector "embedding" NativeType.float
          (Member.mk (fun b => b.embedding) (fun b v => { b with embedding := v })
            (fun _ _ => rfl)),
        FieldBinding.string "content"
          (Member.mk (fun b => b.content) (fun b v => { b with content := v })
            (fun _ _ => rfl)),
        FieldBinding.scalar "page" NativeType.int32_t
          (Member.mk (fun b => b.page) (fun b v => { b with page := v }) (fun _ _ => rfl)),
        FieldBinding.scalar "chapter" NativeType.int32_t
          (Member.mk (fun b => b.chapter) (fun b v => { b with chapter := v })
            (fun _ _ => rfl)),
        FieldBinding.string "chapter_title"
          (Member.mk (fun b => b.chapter_title) (fun b v => { b with chapter_title := v })
            (fun _ _ => rfl)) ] }

/-! ## Lemmas on the type-tag resolver -/

theorem GetDataTypeByNativeType_isSome (U : NativeType) :
    (GetDataTypeByNativeType U).isSome = true := by
  cases U <;> rfl

/-! ## Lemmas on the narrowing of sizes -/

theorem sizeTToInt_of_lt (n : Nat) (h : n < 2 ^ 31) : sizeTToInt n = (n : Int) := by
  have hmod : n % 2 ^ 32 = n := Nat.mod_eq_of_lt (by omega)
  unfold sizeTToInt
  rw [hmod, if_pos h]

theorem sizeTToInt_two_pow_31 : sizeTToInt (2 ^ 31) = -2147483648 := by
  decide

/-! ## Lemmas on row-major flattening -/

variable {E : Type}

theorem foldl_append_eq_flatten (rows : List (List E)) (init : List E) :
    rows.foldl (fun acc v => acc ++ v) init = init ++ rows.flatten := by
  induction rows generalizing init with
  | nil => simp
  | cons r rs ih => simp [List.foldl_cons, ih, List.flatten_cons, List.append_assoc]

theorem flatten_length_of_uniform (rows : List (List E)) (d : Nat)
    (h : ∀ r ∈ rows, r.length = d) : rows.flatten.length = rows.length * d := by
  induction rows with
  | nil => simp
  | cons r rs ih =>
    have hr : r.length = d := h r (List.mem_cons_self _ _)
    have hrs : ∀ x ∈ rs, x.length = d := fun x hx => h x (List.mem_cons_of_mem _ hx)
    simp [List.flatten_cons, ih hrs, hr, Nat.succ_mul, Nat.add_comm]

theorem flatten_getElem_of_uniform (rows : List (List E)) (d : Nat)
    (h : ∀ r ∈ rows, r.length = d) (i j : Nat) (hi : i < rows.length) (hj : j < d) :
    ∃ x, (rows[i]?).bind (fun r => r[j]?) = some x ∧ rows.flatten[i * d + j]? = some x := by
  induction rows generalizing i with
  | nil => simp at hi
  | cons r rs ih =>
    have hr : r.length = d := h r (List.mem_cons_self _ _)
    have hrs : ∀ x ∈ rs, x.length = d := fun x hx => h x (List.mem_cons_of_mem _ hx)
    cases i with
    | zero =>
      have hjr : j < r.length := by omega
      refine ⟨r[j], ?_, ?_⟩
      · simp [List.getElem?_eq_getElem hjr]
      · simp [List.flatten_cons, List.getElem?_append_left hjr, List.getElem?_eq_getElem hjr]
    | succ k =>
      have hk : k < rs.length := by simpa using hi
      obtain ⟨x, hx1, hx2⟩ := ih hrs k hk
      refine ⟨x, ?_, ?_⟩
      · simpa using hx1
      · have hge : r.length ≤ (k + 1) * d + j := by rw [hr, Nat.succ_mul]; omega
        have hsub : (k + 1) * d + j - r.length = k * d + j := by rw [hr, Nat.succ_mul]; omega
        rw [List.flatten_cons, List.getElem?_append_right hge, hsub]
        exact hx2

/-! ## Lemmas on the `FieldData` constructors -/

theorem any_length_ne_eq_false_iff (rows : List (List E)) (d : Nat) :
    rows.any (fun v => v.length != d) = false ↔ ∀ r ∈ rows, r.length = d := by
  simp [List.any_eq_false]

theorem ofVectors_nil (U : NativeType) (name : String) (nullable create_index : Bool) :
    (FieldData.ofVectors U name ([] : List (List E)) nullable create_index).data_valid = false
    ∧ (FieldData.ofVectors U name ([] : List (List E)) nullable create_index).field_info.dimension = 1 := by
  constructor <;> rfl

theorem ofVectors_cons_uniform (U : NativeType) (name : String) (row0 : List E)
    (rest : List (List E)) (nullable create_index : Bool)
    (h : ∀ r ∈ row0 :: rest, r.length = row0.length) :
    FieldData.ofVectors U name (row0 :: rest) nullable create_index =
      { data := row0 :: rest
        field_info :=
          { name := name, nullable := nullable, create_index := create_index,
            field_type := kLanceDBFieldTypeVector, data_type := dataTypeOf U,
            dimension := sizeTToInt row0.length }
        data_valid := true
        flatten_data := (row0 :: rest).flatten
        data_size_holder := [] } := by
  have hany := (any_length_ne_eq_false_iff (row0 :: rest) row0.length).2 h
  simp only [FieldData.ofVectors, FieldData.SetFieldType_vector, FieldData.construct]
  rw [if_neg (by rw [hany]; simp)]
  simp [foldl_append_eq_flatten]

theorem ofVectors_cons_mismatch (U : NativeType) (name : String) (row0 : List E)
    (rest : List (List E)) (nullable create_index : Bool)
    (h : ¬ ∀ r ∈ row0 :: rest, r.length = row0.length) :
    FieldData.ofVectors U name (row0 :: rest) nullable create_index =
      { data := row0 :: rest
        field_info :=
          { name := name, nullable := nullable, create_index := create_index,
            field_type := kLanceDBFieldTypeVector, data_type := dataTypeOf U }
        data_valid := false
        flatten_data := []
        data_size_holder := [] } := by
  have hany : (row0 :: rest).any (fun v => v.length != row0.length) = true := by
    cases hb : (row0 :: rest).any (fun v => v.length != row0.length) with
    | true => rfl
    | false => exact absurd ((any_length_ne_eq_false_iff _ _).1 hb) h
  simp only [FieldData.ofVectors, FieldData.SetFieldType_vector, FieldData.construct]
  rw [if_pos hany]

theorem SetFlattenData_string_eq (self : FieldData String CharPtr) :
    FieldData.SetFlattenData_string self =
      { self with flatten_data := self.flatten_data ++ self.data.map CharPtr.mk } := by
  unfold FieldData.SetFlattenData_string
  generalize self.data = l
  induction l generalizing self with
  | nil => simp
  | cons a l ih => simp [List.foldl_cons, ih, List.append_assoc]

theorem SetFlattenData_blob_eq (self : FieldData BinaryData BytePtr) :
    FieldData.SetFlattenData_blob self =
      { self with
        flatten_data := self.flatten_data ++ self.data.map (fun bin => BytePtr.mk bin.data)
        data_size_holder :=
          self.data_size_holder ++ self.data.map (fun bin => bin.data.length) } := by
  unfold FieldData.SetFlattenData_blob
  generalize self.data = l
  induction l generalizing self with
  | nil => simp
  | cons a l ih => simp [List.foldl_cons, ih, List.append_assoc]

theorem ofScalars_eq {T : Type} (U : NativeType) (name : String) (data : List T)
    (nullable create_index : Bool) :
    FieldData.ofScalars U name data nullable create_index =
      { data := data
        field_info :=
          { name := name, nullable := nullable, create_index := create_index,
            field_type := kLanceDBFieldTypeScalar, data_type := dataTypeOf U, dimension := 1 }
        data_valid := decide (data.length > 0)
        flatten_data := data
        data_size_holder := [] } := rfl

theorem ofStrings_eq (name : String) (data : List String) (nullable create_index : Bool) :
    FieldData.ofStrings name data nullable create_index =
      { data := data
        field_info :=
          { name := name, nullable := nullable, create_index := create_index,
            field_type := kLanceDBFieldTypeScalar, data_type := kLanceDBFieldTypeString,
            dimension := 1 }
        data_valid := decide (data.length > 0)
        flatten_data := data.map CharPtr.mk
        data_size_holder := [] } := by
  simp [FieldData.ofStrings, FieldData.SetFieldType_scalar, SetFlattenData_string_eq,
    FieldData.construct]
  rfl

theorem ofBlobs_eq (name : String) (data : List BinaryData) (nullable create_index : Bool) :
    FieldData.ofBlobs name data nullable create_index =
      { data := data
        field_info :=
          { name := name, nullable := nullable, create_index := create_index,
            field_type := kLanceDBFieldTypeScalar, data_type := kLanceDBFieldTypeBlob,
            dimension := 1 }
        data_valid := decide (data.length > 0)
        flatten_data := data.map (fun bin => BytePtr.mk bin.data)
        data_size_holder := data.map (fun bin => bin.data.length) } := by
  simp [FieldData.ofBlobs, FieldData.SetFieldType_scalar, SetFlattenData_blob_eq,
    FieldData.construct]
  rfl

theorem FlatFieldData.blob_fold_eq (l : List BinaryData)
    (s : FlatFieldData BinaryData BytePtr) :
    l.foldl
      (fun s bin => { s with
        data_holder := s.data_holder ++ [BytePtr.mk bin.data]
        data_size_holder := s.data_size_holder ++ [bin.data.length] }) s =
      { s with
        data_holder := s.data_holder ++ l.map (fun bin => BytePtr.mk bin.data)
        data_size_holder := s.data_size_holder ++ l.map (fun bin => bin.data.length) } := by
  induction l generalizing s with
  | nil => simp
  | cons a l ih => simp [List.foldl_cons, ih, List.append_assoc]

theorem FlatFieldData.GetFlattenData_blob_first (s : FlatFieldData BinaryData BytePtr)
    (h : s.data_holder = []) :
    FlatFieldData.GetFlattenData_blob s =
      ({ s with
          data_holder := s.data.map (fun bin => BytePtr.mk bin.data)
          data_size_holder :=
            s.data_size_holder ++ s.data.map (fun bin => bin.data.length) },
        s.data.map (fun bin => BytePtr.mk bin.data)) := by
  unfold FlatFieldData.GetFlattenData_blob
  rw [if_neg (by simp [h]), FlatFieldData.blob_fold_eq]
  simp [h]

theorem FlatFieldData.GetFlattenData_blob_again (s : FlatFieldData BinaryData BytePtr)
    (h : s.data_holder = s.data.map (fun bin => BytePtr.mk bin.data)) :
    FlatFieldData.GetFlattenData_blob s = (s, s.data_holder) := by
  unfold FlatFieldData.GetFlattenData_blob
  by_cases he : s.data_holder.isEmpty = true
  · have hnil : s.data_holder = [] := List.isEmpty_iff.1 he
    have hdata : s.data = [] := by
      rw [hnil] at h
      exact List.map_eq_nil_iff.1 h.symm
    rw [if_neg (by simp [he])]
    simp [hdata]
  · rw [if_pos (by simpa using he)]

theorem FlatFieldData.afterGetFlattenData_blob_succ (s : FlatFieldData BinaryData BytePtr)
    (h : s.data_holder = []) (k : Nat) :
    FlatFieldData.afterGetFlattenData_blob (k + 1) s =
      { s with
          data_holder := s.data.map (fun bin => BytePtr.mk bin.data)
          data_size_holder :=
            s.data_size_holder ++ s.data.map (fun bin => bin.data.length) } := by
  unfold FlatFieldData.afterGetFlattenData_blob
  induction k with
  | zero => simp [FlatFieldData.GetFlattenData_blob_first s h]
  | succ k ih =>
    rw [Function.iterate_succ_apply', ih, FlatFieldData.GetFlattenData_blob_again _ rfl]

theorem FlatFieldData.GetFlattenData_blob_after (s : FlatFieldData BinaryData BytePtr)
    (h : s.data_holder = []) (k : Nat) :
    FlatFieldData.GetFlattenData_blob (FlatFieldData.afterGetFlattenData_blob k s) =
      ({ s with
          data_holder := s.data.map (fun bin => BytePtr.mk bin.data)
          data_size_holder :=
            s.data_size_holder ++ s.data.map (fun bin => bin.data.length) },
        s.data.map (fun bin => BytePtr.mk bin.data)) := by
  cases k with
  | zero => exact FlatFieldData.GetFlattenData_blob_first s h
  | succ k =>
    rw [FlatFieldData.afterGetFlattenData_blob_succ s h k]
    exact FlatFieldData.GetFlattenData_blob_again _ rfl

theorem FlatFieldData.string_fold_eq (l : List String) (s : FlatFieldData String CharPtr) :
    l.foldl (fun s str => { s with data_holder := s.data_holder ++ [CharPtr.mk str] }) s =
      { s with data_holder := s.data_holder ++ l.map CharPtr.mk } := by
  induction l generalizing s with
  | nil => simp
  | cons a l ih => simp [List.foldl_cons, ih, List.append_assoc]

theorem FlatFieldData.GetFlattenData_string_first (s : FlatFieldData String CharPtr)
    (h : s.data_holder = []) :
    FlatFieldData.GetFlattenData_string s =
      ({ s with data_holder := s.data.map CharPtr.mk }, s.data.map CharPtr.mk) := by
  unfold FlatFieldData.GetFlattenData_string
  rw [if_neg (by simp [h]), FlatFieldData.string_fold_eq]
  simp [h]

variable {α : Type}

theorem any_boolToInt_eq_zero (field_data : List (AnyFieldData α)) :
    (field_data.map (fun fd => boolToInt fd.IsDataValid)).any (fun v => v == 0) =
      field_data.any (fun fd => !fd.IsDataValid) := by
  induction field_data with
  | nil => rfl
  | cons fd l ih =>
    rw [List.map_cons, List.any_cons, List.any_cons, ih]
    cases h : fd.IsDataValid <;> simp [boolToInt]

theorem BatchInserter.construct_eq (hnd : lancedb_handle_t)
    (field_data : List (AnyFieldData α)) :
    BatchInserter.construct hnd field_data =
      { fields_ := field_data.map (fun fd => GetCField fd.GetFieldInfo)
        cfd_ := field_data.map GetCFieldData
        hnd_ := hnd
        is_valid_ := !(field_data.any (fun fd => !fd.IsDataValid)) } := by
  unfold BatchInserter.construct
  simp only [any_boolToInt_eq_zero]
  cases field_data.any (fun fd => !fd.IsDataValid) <;> simp

theorem BatchInserter.construct_invalid_iff (hnd : lancedb_handle_t)
    (field_data : List (AnyFieldData α)) :
    (BatchInserter.construct hnd field_data).is_valid_ = false ↔
      ∃ fd ∈ field_data, fd.IsDataValid = false := by
  rw [BatchInserter.construct_eq]
  simp [List.any_eq_true]

/-! ## The claims -/

theorem ofVectors_single_row (U : NativeType) (name : String) (row : List E)
    (nullable create_index : Bool) :
    (FieldData.ofVectors U name [row] nullable create_index).IsDataValid = true ∧
    (FieldData.ofVectors U name [row] nullable create_index).GetDimension =
      sizeTToInt row.length := by
  have hu : ∀ r ∈ [row], r.length = row.length := by
    intro r hr
    rw [List.mem_singleton] at hr
    rw [hr]
  rw [ofVectors_cons_uniform U name row [] nullable create_index hu]
  exact ⟨rfl, rfl⟩

theorem sizeTToInt_length_replicate_two_pow_31 (x : E) :
    sizeTToInt (List.replicate (2 ^ 31) x).length = -2147483648 := by
  rw [List.length_replicate]
  exact sizeTToInt_two_pow_31

/-- C1, as stated, fails for a column of one row of `2^31` cells: the column is valid, and
`GetDimension()` is `-2147483648`, the row length narrowed to the `int` member
`Field::dimension`, not the row length. -/
theorem C1_counterexample :
    (FieldData.ofVectors NativeType.float "test" [List.replicate (2 ^ 31) (0 : Nat)] false
        false).IsDataValid = true ∧
    (FieldData.ofVectors NativeType.float "test" [List.replicate (2 ^ 31) (0 : Nat)] false
        false).GetDimension = -2147483648 ∧
    ¬ ((FieldData.ofVectors NativeType.float "test" [List.replicate (2 ^ 31) (0 : Nat)] false
        false).GetDimension =
      ((([List.replicate (2 ^ 31) (0 : Nat)] : List (List Nat)).headD []).length : Int)) := by
  have hcol := ofVectors_single_row NativeType.float "test"
    (List.replicate (2 ^ 31) (0 : Nat)) false false
  have hdim := hcol.2.trans (sizeTToInt_length_replicate_two_pow_31 (0 : Nat))
  refine ⟨hcol.1, hdim, ?_⟩
  intro h
  rw [hdim, List.headD_cons, List.length_replicate] at h
  norm_num at h

/-- C1, amended: a vector column built by `FieldData` is valid exactly when its row list
is non-empty and every row has the length of row 0; when it is valid, `GetDimension()` is
that common row length narrowed to `int`, which is the row length itself when the rows
have fewer than `2^31` cells. -/
theorem C1_vector_column_validity (U : NativeType) (name : String) (rows : List (List E))
    (nullable create_index : Bool) :
    ((FieldData.ofVectors U name rows nullable create_index).IsDataValid = true ↔
      rows ≠ [] ∧ ∀ r ∈ rows, r.length = (rows.headD []).length) ∧
    ((FieldData.ofVectors U name rows nullable create_index).IsDataValid = true →
      (FieldData.ofVectors U name rows nullable create_index).GetDimension =
          sizeTToInt (rows.headD []).length ∧
        ((rows.headD []).length < 2 ^ 31 →
          (FieldData.ofVectors U name rows nullable create_index).GetDimension =
            ((rows.headD []).length : Int))) := by
  cases rows with
  | nil =>
    have h := (ofVectors_nil (E := E) U name nullable create_index).1
    simp [BaseFieldData.IsDataValid, h]
  | cons row0 rest =>
    by_cases hu : ∀ r ∈ row0 :: rest, r.length = row0.length
    · rw [ofVectors_cons_uniform U name row0 rest nullable create_index hu]
      refine ⟨?_, fun _ => ⟨rfl, fun hlt => ?_⟩⟩
      · simpa [BaseFieldData.IsDataValid] using hu
      · simp only [BaseFieldData.GetDimension, List.headD_cons]
        exact sizeTToInt_of_lt _ hlt
    · rw [ofVectors_cons_mismatch U name row0 rest nullable create_index hu]
      simpa [BaseFieldData.IsDataValid, BaseFieldData.GetDimension] using hu

/-- C1, amended, at the column of the unit test: two rows of length 3. -/
theorem C1_vector_column_validity_witness :
    (FieldData.ofVectors NativeType.float "test" [[1, 2, 3], [4, 5, 6]] false false :
        FieldData (List Nat) Nat).IsDataValid = true ∧
    (FieldData.ofVectors NativeType.float "test" [[1, 2, 3], [4, 5, 6]] false false :
        FieldData (List Nat) Nat).GetDimension = 3 :=
  ⟨by decide,
   ((C1_vector_column_validity NativeType.float "test" [[1, 2, 3], [4, 5, 6]] false false).2
     (by decide)).2 (by decide)⟩

/-- C2: a scalar column built by `FieldData` from numeric, string or blob rows is valid
exactly when its row count is greater than 0, and its `GetDimension()` is 1. -/
theorem C2_scalar_column_validity {T : Type} (U : NativeType) (name : String)
    (nums : List T) (strs : List String) (blobs : List BinaryData)
    (nullable create_index : Bool) :
    (((FieldData.ofScalars U name nums nullable create_index).IsDataValid = true ↔
        0 < (FieldData.ofScalars U name nums nullable create_index).GetDataCount) ∧
      (FieldData.ofScalars U name nums nullable create_index).GetDataCount = nums.length ∧
      (FieldData.ofScalars U name nums nullable create_index).GetDimension = 1) ∧
    (((FieldData.ofStrings name strs nullable create_index).IsDataValid = true ↔
        0 < (FieldData.ofStrings name strs nullable create_index).GetDataCount) ∧
      (FieldData.ofStrings name strs nullable create_index).GetDataCount = strs.length ∧
      (FieldData.ofStrings name strs nullable create_index).GetDimension = 1) ∧
    (((FieldData.ofBlobs name blobs nullable create_index).IsDataValid = true ↔
        0 < (FieldData.ofBlobs name blobs nullable create_index).GetDataCount) ∧
      (FieldData.ofBlobs name blobs nullable create_index).GetDataCount = blobs.length ∧
      (FieldData.ofBlobs name blobs nullable create_index).GetDimension = 1) := by
  rw [ofScalars_eq, ofStrings_eq, ofBlobs_eq]
  simp [BaseFieldData.IsDataValid, BaseFieldData.GetDataCount, BaseFieldData.GetDimension]

/-- C3: for a valid vector `FieldData` column whose `n` rows have the common length `d`,
`GetFlattenData()` has length `n * d` and is the row-major concatenation of the rows:
for `i < n` and `j < d` the cell `rows[i][j]` exists and is `flattened[i * d + j]`. -/
theorem C3_vector_flatten_row_major (U : NativeType) (name : String)
    (rows : List (List E)) (nullable create_index : Bool) (d : Nat)
    (hvalid : (FieldData.ofVectors U name rows nullable create_index).IsDataValid = true)
    (hd : ∀ r ∈ rows, r.length = d) :
    (FieldData.ofVectors U name rows nullable create_index).GetFlattenData.length =
      rows.length * d ∧
    ∀ i j : Nat, i < rows.length → j < d →
      ∃ x, (rows[i]?).bind (fun r => r[j]?) = some x ∧
        (FieldData.ofVectors U name rows nullable create_index).GetFlattenData[i * d + j]? =
          some x := by
  cases rows with
  | nil =>
    have h := (ofVectors_nil (E := E) U name nullable create_index).1
    simp [BaseFieldData.IsDataValid, h] at hvalid
  | cons row0 rest =>
    have hu : ∀ r ∈ row0 :: rest, r.length = row0.length := fun r hr =>
      (hd r hr).trans (hd row0 (List.mem_cons_self _ _)).symm
    rw [ofVectors_cons_uniform U name row0 rest nullable create_index hu]
    exact ⟨flatten_length_of_uniform _ d hd, fun i j hi hj =>
      flatten_getElem_of_uniform _ d hd i j hi hj⟩

/-- C3 at the column of the unit test: two rows of length 3 make a valid column that
flattens to 6 cells, and `rows[1][2]` is cell `1 * 3 + 2`. -/
theorem C3_vector_flatten_row_major_witness :
    (FieldData.ofVectors NativeType.float "test" [[1, 2, 3], [4, 5, 6]] false false :
        FieldData (List Nat) Nat).IsDataValid = true ∧
    (∀ r ∈ ([[1, 2, 3], [4, 5, 6]] : List (List Nat)), r.length = 3) ∧
    (FieldData.ofVectors NativeType.float "test" [[1, 2, 3], [4, 5, 6]] false false :
        FieldData (List Nat) Nat).GetFlattenData.length = 2 * 3 ∧
    ∃ x, ([[1, 2, 3], [4, 5, 6]][1]?).bind (fun r => r[2]?) = some x ∧
      (FieldData.ofVectors NativeType.float "test" [[1, 2, 3], [4, 5, 6]] false false :
        FieldData (List Nat) Nat).GetFlattenData[1 * 3 + 2]? = some x :=
  ⟨by decide, by decide,
   (C3_vector_flatten_row_major NativeType.float "test" [[1, 2, 3], [4, 5, 6]] false false 3
      (by decide) (by decide)).1,
   (C3_vector_flatten_row_major NativeType.float "test" [[1, 2, 3], [4, 5, 6]] false false 3
      (by decide) (by decide)).2 1 2 (by decide) (by decide)⟩

/-- C4, as stated, fails on rows of length 3 and 1: the
column is invalid, but `GetDimension()` is 1 and not 3. -/
theorem C4_counterexample :
    ¬ ((FieldData.ofVectors NativeType.float "test3" [[1, 2, 3], [3]] false false :
          FieldData (List Nat) Nat).IsDataValid = false ∧
        (FieldData.ofVectors NativeType.float "test3" [[1, 2, 3], [3]] false false :
          FieldData (List Nat) Nat).GetDimension = 3) := by
  decide

/-- C4, amended: a vector `FieldData` column in which some row differs in length from
row 0 is invalid and its `GetDimension()` is 1, the default of `Field::dimension`; the
dimension is assigned from row 0 only after every row has passed the length check. -/
theorem C4_invalid_vector_keeps_default_dimension (U : NativeType) (name : String)
    (rows : List (List E)) (nullable create_index : Bool)
    (hdiff : ∃ r ∈ rows, r.length ≠ (rows.headD []).length) :
    (FieldData.ofVectors U name rows nullable create_index).IsDataValid = false ∧
    (FieldData.ofVectors U name rows nullable create_index).GetDimension = 1 := by
  cases rows with
  | nil => simp at hdiff
  | cons row0 rest =>
    have hu : ¬ ∀ r ∈ row0 :: rest, r.length = row0.length := by
      intro h
      obtain ⟨r, hr, hne⟩ := hdiff
      exact hne (h r hr)
    rw [ofVectors_cons_mismatch U name row0 rest nullable create_index hu]
    exact ⟨rfl, rfl⟩

/-- C4, amended, at rows of length 3 and 1. -/
theorem C4_invalid_vector_keeps_default_dimension_witness :
    (∃ r ∈ [[1, 2, 3], [3]], r.length ≠ (([[1, 2, 3], [3]] : List (List Nat)).headD []).length) ∧
    (FieldData.ofVectors NativeType.float "test3" [[1, 2, 3], [3]] false false :
        FieldData (List Nat) Nat).IsDataValid = false ∧
    (FieldData.ofVectors NativeType.float "test3" [[1, 2, 3], [3]] false false :
        FieldData (List Nat) Nat).GetDimension = 1 :=
  ⟨⟨[3], by decide, by decide⟩,
   C4_invalid_vector_keeps_default_dimension NativeType.float "test3" [[1, 2, 3], [3]]
     false false ⟨[3], by decide, by decide⟩⟩

/-- C5: for a blob column with `n` rows, `GetFlattenData()` and `GetBinaryDataSize()` have
`n` entries each; entry `i` of the sizes is the byte length of row `i`, entry `i` of the
flattened data points to row `i`'s bytes, and reading that many bytes through it gives
row `i`.  This holds for `FieldData`, and for `FlatFieldData` at every call of
`GetFlattenData()` (after any number `k` of earlier calls) with the sizes read after it.
For rows of byte length 5 and 8 the sizes are `[5, 8]`. -/
theorem C5_blob_flatten_pointers_and_sizes (name : String) (rows : List BinaryData)
    (field_type : FieldType) (dimension : Int) (nullable create_index : Bool) (k : Nat) :
    ((FieldData.ofBlobs name rows nullable create_index).GetFlattenData.length = rows.length ∧
      (FieldData.ofBlobs name rows nullable create_index).GetBinaryDataSize.length =
        rows.length ∧
      ∀ (i : Nat) (hi : i < rows.length),
        (FieldData.ofBlobs name rows nullable create_index).GetBinaryDataSize[i]? =
          some rows[i].data.length ∧
        (FieldData.ofBlobs name rows nullable create_index).GetFlattenData[i]? =
          some (BytePtr.mk rows[i].data) ∧
        (BytePtr.mk rows[i].data).read rows[i].data.length = rows[i].data) ∧
    ((FlatFieldData.GetFlattenData_blob (FlatFieldData.afterGetFlattenData_blob k
        (FlatFieldData.ofBlobs name rows field_type dimension nullable create_index))).2.length
        = rows.length ∧
      ((FlatFieldData.GetFlattenData_blob (FlatFieldData.afterGetFlattenData_blob k
        (FlatFieldData.ofBlobs name rows field_type dimension nullable
          create_index))).1).GetBinaryDataSize.length = rows.length ∧
      ∀ (i : Nat) (hi : i < rows.length),
        ((FlatFieldData.GetFlattenData_blob (FlatFieldData.afterGetFlattenData_blob k
          (FlatFieldData.ofBlobs name rows field_type dimension nullable
            create_index))).1).GetBinaryDataSize[i]? = some rows[i].data.length ∧
        (FlatFieldData.GetFlattenData_blob (FlatFieldData.afterGetFlattenData_blob k
          (FlatFieldData.ofBlobs name rows field_type dimension nullable
            create_index))).2[i]? = some (BytePtr.mk rows[i].data) ∧
        (BytePtr.mk rows[i].data).read rows[i].data.length = rows[i].data) ∧
    (FieldData.ofBlobs "test7"
        [BinaryData.mk [1, 2, 3, 4, 5], BinaryData.mk [2, 4, 5, 6, 7, 8, 9, 0]]
        false false).GetBinaryDataSize = [5, 8] ∧
    ((FlatFieldData.GetFlattenData_blob
        (FlatFieldData.ofBlobs "test7"
          [BinaryData.mk [1, 2, 3, 4, 5], BinaryData.mk [2, 4, 5, 6, 7, 8, 9, 0]]
          kLanceDBFieldTypeScalar 1 false false)).1).GetBinaryDataSize = [5, 8] := by
  have hread : ∀ b : BinaryData, (BytePtr.mk b.data).read b.data.length = b.data := by
    intro b
    simp [BytePtr.read]
  refine ⟨?_, ?_, by decide, by decide⟩
  · rw [ofBlobs_eq]
    refine ⟨by simp [FieldData.GetFlattenData], by simp [FieldData.GetBinaryDataSize], ?_⟩
    intro i hi
    refine ⟨?_, ?_, hread _⟩
    · simp [FieldData.GetBinaryDataSize, List.getElem?_eq_getElem hi]
    · simp [FieldData.GetFlattenData, List.getElem?_eq_getElem hi]
  · rw [FlatFieldData.GetFlattenData_blob_after _ rfl k]
    refine ⟨by simp [FlatFieldData.ofBlobs, FlatFieldData.construct], ?_, ?_⟩
    · simp [FlatFieldData.GetBinaryDataSize, FlatFieldData.ofBlobs, FlatFieldData.construct]
    · intro i hi
      refine ⟨?_, ?_, hread _⟩
      · simp [FlatFieldData.GetBinaryDataSize, FlatFieldData.ofBlobs,
          FlatFieldData.construct, List.getElem?_eq_getElem hi]
      · simp [FlatFieldData.ofBlobs, FlatFieldData.construct, List.getElem?_eq_getElem hi]

/-- C6, as stated, fails on the one-row string column `["hello"]`: the column has no
byte-length sequence (`GetBinaryDataSize()` is empty, not of length 1), and the record
handed to the boundary has a null `binary_size`, not the lengths `[5]`. -/
theorem C6_counterexample :
    ¬ ((FieldData.ofStrings "comment" ["hello"] false false).GetBinaryDataSize.length = 1) ∧
    ¬ ((GetCFieldData (AnyFieldData.string
          (FieldData.ofStrings "comment" ["hello"] false false)) :
            CFieldData Nat).binary_size = some [5]) := by
  decide

/-- C6, amended: for a string column with `n` rows, flattening produces the `n` cell
references, cell `i` pointing to row `i`'s text, and no byte lengths: `GetBinaryDataSize()`
is empty and the record `GetCFieldData` hands to the boundary has those `n` cells and a
null `binary_size`, for `FieldData` and for `FlatFieldData` alike. -/
theorem C6_string_column_has_no_byte_lengths (α : Type) (name : String)
    (rows : List String) (field_type : FieldType) (dimension : Int)
    (nullable create_index : Bool) :
    ((FieldData.ofStrings name rows nullable create_index).GetFlattenData =
        rows.map CharPtr.mk ∧
      (FieldData.ofStrings name rows nullable create_index).GetBinaryDataSize = [] ∧
      (GetCFieldData (AnyFieldData.string
        (FieldData.ofStrings name rows nullable create_index)) : CFieldData α).data =
          rows.map (fun str => Cell.c_str (CharPtr.mk str)) ∧
      (GetCFieldData (AnyFieldData.string
        (FieldData.ofStrings name rows nullable create_index)) : CFieldData α).binary_size =
          none) ∧
    ((FlatFieldData.GetFlattenData_string
        (FlatFieldData.ofStrings name rows field_type dimension nullable create_index)).2 =
        rows.map CharPtr.mk ∧
      ((FlatFieldData.GetFlattenData_string
        (FlatFieldData.ofStrings name rows field_type dimension nullable
          create_index)).1).GetBinaryDataSize = [] ∧
      (GetCFieldData (AnyFieldData.flat_string
        (FlatFieldData.ofStrings name rows field_type dimension nullable create_index)) :
          CFieldData α).data = rows.map (fun str => Cell.c_str (CharPtr.mk str)) ∧
      (GetCFieldData (AnyFieldData.flat_string
        (FlatFieldData.ofStrings name rows field_type dimension nullable create_index)) :
          CFieldData α).binary_size = none) := by
  constructor
  · rw [ofStrings_eq]
    simp [FieldData.GetFlattenData, FieldData.GetBinaryDataSize, GetCFieldData,
      GetCFieldData.fill]
  · simp [GetCFieldData, GetCFieldData.fill, FlatFieldData.GetFlattenData_string_first,
      FlatFieldData.ofStrings, FlatFieldData.construct, FlatFieldData.GetBinaryDataSize]

/-- C7: what `GetDataTypeByNativeType` returns for each native element type.  Every type
but one resolves as the claim says; `uint8_t`, being `unsigned char`, is taken by the
first branch of the chain and resolves to `kLanceDBFieldTypeInt8`, so that no element
type at all resolves to `kLanceDBFieldTypeUInt8`. -/
theorem C7_uint8_t_resolves_to_Int8 :
    GetDataTypeByNativeType NativeType.uint8_t = some kLanceDBFieldTypeInt8 ∧
    GetDataTypeByNativeType NativeType.uint8_t ≠ some kLanceDBFieldTypeUInt8 ∧
    (∀ U : NativeType, GetDataTypeByNativeType U ≠ some kLanceDBFieldTypeUInt8) ∧
    GetDataTypeByNativeType NativeType.int8_t = some kLanceDBFieldTypeInt8 ∧
    GetDataTypeByNativeType NativeType.int16_t = some kLanceDBFieldTypeInt16 ∧
    GetDataTypeByNativeType NativeType.int32_t = some kLanceDBFieldTypeInt32 ∧
    GetDataTypeByNativeType NativeType.int64_t = some kLanceDBFieldTypeInt64 ∧
    GetDataTypeByNativeType NativeType.uint16_t = some kLanceDBFieldTypeUInt16 ∧
    GetDataTypeByNativeType NativeType.uint32_t = some kLanceDBFieldTypeUInt32 ∧
    GetDataTypeByNativeType NativeType.uint64_t = some kLanceDBFieldTypeUInt64 ∧
    GetDataTypeByNativeType NativeType.float = some kLanceDBFieldTypeFloat32 ∧
    GetDataTypeByNativeType NativeType.double = some kLanceDBFieldTypeFloat64 ∧
    GetDataTypeByNativeType NativeType.std_string = some kLanceDBFieldTypeString ∧
    GetDataTypeByNativeType NativeType.const_char_ptr = some kLanceDBFieldTypeString ∧
    GetDataTypeByNativeType NativeType.char_ptr = some kLanceDBFieldTypeString ∧
    GetDataTypeByNativeType NativeType.BinaryData = some kLanceDBFieldTypeBlob := by
  refine ⟨rfl, by decide, ?_, rfl, rfl, rfl, rfl, rfl, rfl, rfl, rfl, rfl, rfl, rfl, rfl, rfl⟩
  intro U
  cases U <;> decide

/-- C8: the validity flag of the inserter `CreateBatchInserter` builds from a list of
columns is false exactly when at least one of the columns reports `IsDataValid()` false;
so it is true when every column is valid. -/
theorem C8_inserter_invalid_iff_some_column_invalid (db : LanceDB)
    (field_data : List (AnyFieldData α)) :
    ((db.CreateBatchInserter field_data).is_valid_ = false ↔
      ∃ fd ∈ field_data, fd.IsDataValid = false) ∧
    ((db.CreateBatchInserter field_data).is_valid_ = true ↔
      ∀ fd ∈ field_data, fd.IsDataValid = true) := by
  have h := BatchInserter.construct_invalid_iff db.hnd_ field_data
  refine ⟨h, ?_⟩
  unfold LanceDB.CreateBatchInserter
  rw [BatchInserter.construct_eq]
  simp [List.any_eq_true]

/-- C9, as stated, fails for a null handle: an inserter holding an invalid (empty) column
returns `kLanceDBNotConnected`, not `kLanceDBInvalidData`, from `CreateTable` and from
`Insert`. -/
theorem C9_counterexample :
    ¬ (((LanceDB.mk false none).CreateBatchInserter
          [AnyFieldData.scalar
            (FieldData.ofScalars NativeType.int32_t "idx" ([] : List Nat) false false)]
        |>.CreateTable (Engine.mk (fun _ _ _ _ => true) (fun _ _ _ _ => true) (fun _ _ _ _ _ _ => none)) "test_table"
          []).1 = kLanceDBInvalidData) ∧
    ¬ (((LanceDB.mk false none).CreateBatchInserter
          [AnyFieldData.scalar
            (FieldData.ofScalars NativeType.int32_t "idx" ([] : List Nat) false false)]
        |>.Insert (Engine.mk (fun _ _ _ _ => true) (fun _ _ _ _ => true) (fun _ _ _ _ _ _ => none)) "test_table"
          []).1 = kLanceDBInvalidData) := by
  decide

/-- C9, amended: for an inserter built from columns of which at least one is invalid, and
for every engine, table name and trace of earlier boundary calls, `CreateTable` and
`Insert` make no boundary call (the trace is returned as it was) and return
`kLanceDBInvalidData` when the handle is not null, `kLanceDBNotConnected` when it is. -/
theorem C9_invalid_inserter_fails_before_boundary (eng : Engine α) (db : LanceDB)
    (field_data : List (AnyFieldData α)) (table_name : String)
    (trace : List (BoundaryCall α))
    (hinvalid : ∃ fd ∈ field_data, fd.IsDataValid = false) :
    (db.hnd_ ≠ none →
      (db.CreateBatchInserter field_data).CreateTable eng table_name trace =
        (kLanceDBInvalidData, trace) ∧
      (db.CreateBatchInserter field_data).Insert eng table_name trace =
        (kLanceDBInvalidData, trace)) ∧
    (db.hnd_ = none →
      (db.CreateBatchInserter field_data).CreateTable eng table_name trace =
        (kLanceDBNotConnected, trace) ∧
      (db.CreateBatchInserter field_data).Insert eng table_name trace =
        (kLanceDBNotConnected, trace)) := by
  have hany : field_data.any (fun fd => !fd.IsDataValid) = true := by
    simpa [List.any_eq_true] using hinvalid
  unfold LanceDB.CreateBatchInserter
  rw [BatchInserter.construct_eq]
  constructor
  · intro hne
    simp [BatchInserter.CreateTable, BatchInserter.Insert, hany, hne]
  · intro hnone
    simp [BatchInserter.CreateTable, BatchInserter.Insert, hnone]

/-- C9, amended, at an inserter holding one empty column, with a connected handle. -/
theorem C9_invalid_inserter_fails_before_boundary_witness :
    (∃ fd ∈ [(AnyFieldData.scalar
        (FieldData.ofScalars NativeType.int32_t "idx" ([] : List Nat) false false) :
          AnyFieldData Nat)], fd.IsDataValid = false) ∧
    ((LanceDB.mk true (some 1)).CreateBatchInserter
        [AnyFieldData.scalar
          (FieldData.ofScalars NativeType.int32_t "idx" ([] : List Nat) false false)]
      |>.CreateTable (Engine.mk (fun _ _ _ _ => true) (fun _ _ _ _ => true) (fun _ _ _ _ _ _ => none)) "test_table"
        []) = (kLanceDBInvalidData, []) ∧
    ((LanceDB.mk true (some 1)).CreateBatchInserter
        [AnyFieldData.scalar
          (FieldData.ofScalars NativeType.int32_t "idx" ([] : List Nat) false false)]
      |>.Insert (Engine.mk (fun _ _ _ _ => true) (fun _ _ _ _ => true) (fun _ _ _ _ _ _ => none)) "test_table"
        []) = (kLanceDBInvalidData, []) :=
  ⟨⟨_, List.mem_singleton.2 rfl, rfl⟩,
   (C9_invalid_inserter_fails_before_boundary
    (Engine.mk (fun _ _ _ _ => true) (fun _ _ _ _ => true) (fun _ _ _ _ _ _ => none)) (LanceDB.mk true (some 1))
    [AnyFieldData.scalar
      (FieldData.ofScalars NativeType.int32_t "idx" ([] : List Nat) false false)]
    "test_table" [] ⟨_, List.mem_singleton.2 rfl, rfl⟩).1 (by decide)⟩

/-- C10, as stated, fails on two valid scalar columns of 3 rows and 1 row: the inserter
is valid, and with a connected handle `Insert` calls the boundary `insert` and returns
`kLanceDBSuccess`. -/
theorem C10_counterexample :
    ((LanceDB.mk true (some 1)).CreateBatchInserter
        [AnyFieldData.scalar
          (FieldData.ofScalars NativeType.int32_t "idx" [1, 2, 3] false false),
         AnyFieldData.scalar
          (FieldData.ofScalars NativeType.int32_t "page" [7] false false)]).is_valid_ = true ∧
    ¬ (((LanceDB.mk true (some 1)).CreateBatchInserter
        [AnyFieldData.scalar
          (FieldData.ofScalars NativeType.int32_t "idx" [1, 2, 3] false false),
         AnyFieldData.scalar
          (FieldData.ofScalars NativeType.int32_t "page" [7] false false)]
      |>.Insert (Engine.mk (fun _ _ _ _ => true) (fun _ _ _ _ => true) (fun _ _ _ _ _ _ => none)) "test_table"
        []).1 = kLanceDBInvalidData) ∧
    ¬ (((LanceDB.mk true (some 1)).CreateBatchInserter
        [AnyFieldData.scalar
          (FieldData.ofScalars NativeType.int32_t "idx" [1, 2, 3] false false),
         AnyFieldData.scalar
          (FieldData.ofScalars NativeType.int32_t "page" [7] false false)]
      |>.Insert (Engine.mk (fun _ _ _ _ => true) (fun _ _ _ _ => true) (fun _ _ _ _ _ _ => none)) "test_table"
        []).2 = ([] : List (BoundaryCall Nat))) := by
  decide

/-- C10, amended: a `BatchInserter` does not compare the row counts of its columns.  For
every list of individually valid columns, whatever their row counts, the inserter is
valid, and with a handle that is not null `Insert` makes one boundary `insert` call
carrying the record of every column, and returns `kLanceDBSuccess` if that call reports
true and `kLanceDBInsertFailed` otherwise. -/
theorem C10_row_counts_not_compared (eng : Engine α) (db : LanceDB)
    (field_data : List (AnyFieldData α)) (table_name : String)
    (trace : List (BoundaryCall α))
    (hvalid : ∀ fd ∈ field_data, fd.IsDataValid = true) (hconn : db.hnd_ ≠ none) :
    (db.CreateBatchInserter field_data).is_valid_ = true ∧
    (db.CreateBatchInserter field_data).Insert eng table_name trace =
      (if eng.lancedb_insert trace db.hnd_ table_name
            (lancedb_data_t.mk (field_data.map GetCFieldData)) = true
        then kLanceDBSuccess else kLanceDBInsertFailed,
       trace ++ [BoundaryCall.insert db.hnd_ table_name
          (lancedb_data_t.mk (field_data.map GetCFieldData))]) := by
  have hany : field_data.any (fun fd => !fd.IsDataValid) = false := by
    simpa [List.any_eq_false] using hvalid
  unfold LanceDB.CreateBatchInserter
  rw [BatchInserter.construct_eq]
  simp [BatchInserter.Insert, hany, hconn]

/-- C10, amended, at two valid columns of 3 rows and 1 row. -/
theorem C10_row_counts_not_compared_witness :
    (AnyFieldData.scalar
        (FieldData.ofScalars NativeType.int32_t "idx" [1, 2, 3] false false) :
          AnyFieldData Nat).GetDataCount ≠
      (AnyFieldData.scalar
        (FieldData.ofScalars NativeType.int32_t "page" [7] false false) :
          AnyFieldData Nat).GetDataCount ∧
    ((LanceDB.mk true (some 1)).CreateBatchInserter
        [AnyFieldData.scalar
          (FieldData.ofScalars NativeType.int32_t "idx" [1, 2, 3] false false),
         AnyFieldData.scalar
          (FieldData.ofScalars NativeType.int32_t "page" [7] false false)]
      |>.Insert (Engine.mk (fun _ _ _ _ => true) (fun _ _ _ _ => true) (fun _ _ _ _ _ _ => none)) "test_table"
        ([] : List (BoundaryCall Nat))).1 = kLanceDBSuccess :=
  ⟨by decide,
   (congrArg Prod.fst
    (C10_row_counts_not_compared (Engine.mk (fun _ _ _ _ => true) (fun _ _ _ _ => true) (fun _ _ _ _ _ _ => none))
      (LanceDB.mk true (some 1))
      [AnyFieldData.scalar
        (FieldData.ofScalars NativeType.int32_t "idx" [1, 2, 3] false false),
       AnyFieldData.scalar
        (FieldData.ofScalars NativeType.int32_t "page" [7] false false)]
      "test_table" [] (by decide) (by decide)).2).trans rfl⟩

theorem intToSizeT_natCast (n : Nat) : intToSizeT (n : Int) = n := by
  unfold intToSizeT
  have h : ¬ ((n : Int) < 0) := by omega
  rw [if_neg h]
  exact Int.toNat_natCast n

theorem GetCFieldData_flat_counts (U : NativeType) (name : String) (data : List α)
    (field_type : FieldType) (dimension : Int) (nullable create_index : Bool) :
    (GetCFieldData (AnyFieldData.flat
      (FlatFieldData.construct U name data field_type dimension nullable create_index))).data_count
        = data.length ∧
    (GetCFieldData (AnyFieldData.flat
      (FlatFieldData.construct U name data field_type dimension nullable create_index))).data.length
        = data.length := by
  simp [GetCFieldData, GetCFieldData.fill, FlatFieldData.construct,
    FlatFieldData.GetFlattenData_plain, BaseFieldData.GetDataCount]

theorem GetCFieldData_vector_counts (U : NativeType) (name : String) (rows : List (List α))
    (nullable create_index : Bool)
    (hvalid : (FieldData.ofVectors U name rows nullable create_index).IsDataValid = true) :
    (GetCFieldData (AnyFieldData.vector
      (FieldData.ofVectors U name rows nullable create_index))).data_count = rows.length ∧
    ((rows.headD []).length < 2 ^ 31 →
      (GetCFieldData (AnyFieldData.vector
        (FieldData.ofVectors U name rows nullable create_index))).data_count *
        (GetCFieldData (AnyFieldData.vector
          (FieldData.ofVectors U name rows nullable create_index))).dimension =
        (GetCFieldData (AnyFieldData.vector
          (FieldData.ofVectors U name rows nullable create_index))).data.length) := by
  cases rows with
  | nil =>
    have h := (ofVectors_nil (E := α) U name nullable create_index).1
    simp [BaseFieldData.IsDataValid, h] at hvalid
  | cons row0 rest =>
    by_cases hu : ∀ r ∈ row0 :: rest, r.length = row0.length
    · rw [ofVectors_cons_uniform U name row0 rest nullable create_index hu]
      have hlen := flatten_length_of_uniform (row0 :: rest) row0.length hu
      refine ⟨?_, fun hlt => ?_⟩
      · simp only [GetCFieldData, GetCFieldData.fill, BaseFieldData.GetDataCount]
      · simp only [List.headD_cons] at hlt
        simp only [GetCFieldData, GetCFieldData.fill, BaseFieldData.GetDataCount,
          BaseFieldData.GetFieldInfo, FieldData.GetFlattenData, sizeTToInt_of_lt _ hlt,
          intToSizeT_natCast, List.length_map, hlen]
    · rw [ofVectors_cons_mismatch U name row0 rest nullable create_index hu] at hvalid
      simp [BaseFieldData.IsDataValid] at hvalid

/-- C11 on the code.  For a `FieldData` column `data_count` is the number of rows, and
`data_count * dimension` is the number of cells when a vector column is valid and its
rows have fewer than `2^31` cells (the dimension is stored in an `int`).  For a
`FlatFieldData` column `GetCFieldData` sets `data_count` to the number
of cells, whatever the shape and dimension: for the valid vector column of 4 cells with
dimension 2 (2 rows) the record has `data_count = 4`, so that `data_count * dimension` is
8 and not 4, while the `FieldData` column of the same two rows has `data_count = 2`. -/
theorem C11_flat_vector_data_count_is_cell_count :
    (∀ (U : NativeType) (name : String) (rows : List (List Int))
        (nullable create_index : Bool),
      (FieldData.ofVectors U name rows nullable create_index).IsDataValid = true →
      (GetCFieldData (AnyFieldData.vector
        (FieldData.ofVectors U name rows nullable create_index))).data_count = rows.length ∧
      ((rows.headD []).length < 2 ^ 31 →
        (GetCFieldData (AnyFieldData.vector
          (FieldData.ofVectors U name rows nullable create_index))).data_count *
          (GetCFieldData (AnyFieldData.vector
            (FieldData.ofVectors U name rows nullable create_index))).dimension =
          (GetCFieldData (AnyFieldData.vector
            (FieldData.ofVectors U name rows nullable create_index))).data.length)) ∧
    (∀ (U : NativeType) (name : String) (data : List Int) (field_type : FieldType)
        (dimension : Int) (nullable create_index : Bool),
      (GetCFieldData (AnyFieldData.flat (FlatFieldData.construct U name data field_type
        dimension nullable create_index))).data_count = data.length ∧
      (GetCFieldData (AnyFieldData.flat (FlatFieldData.construct U name data field_type
        dimension nullable create_index))).data.length = data.length) ∧
    (FlatFieldData.construct NativeType.float "test5" [1, 2, 3, 4] kLanceDBFieldTypeVector 2
        false false : FlatFieldData Int Int).IsDataValid = true ∧
    (GetCFieldData (AnyFieldData.flat (FlatFieldData.construct NativeType.float "test5"
        [1, 2, 3, 4] kLanceDBFieldTypeVector 2 false false)) : CFieldData Int).data_count = 4 ∧
    (GetCFieldData (AnyFieldData.flat (FlatFieldData.construct NativeType.float "test5"
        [1, 2, 3, 4] kLanceDBFieldTypeVector 2 false false)) : CFieldData Int).dimension = 2 ∧
    (GetCFieldData (AnyFieldData.flat (FlatFieldData.construct NativeType.float "test5"
        [1, 2, 3, 4] kLanceDBFieldTypeVector 2 false false)) : CFieldData Int).data.length = 4 ∧
    (GetCFieldData (AnyFieldData.vector (FieldData.ofVectors NativeType.float "test5"
        [[1, 2], [3, 4]] false false)) : CFieldData Int).data_count = 2 := by
  refine ⟨fun U name rows nullable create_index hvalid =>
      GetCFieldData_vector_counts U name rows nullable create_index hvalid,
    fun U name data field_type dimension nullable create_index =>
      GetCFieldData_flat_counts U name data field_type dimension nullable create_index, ?_⟩
  decide
/-- C12 on the code: the search of the record-hydrating `Query` is made on the column
`"embedding"` whatever `field_name` is.  Called with the column name `"vec"` on a
connected schema, it issues the boundary search for `"embedding"`, while the passthrough
`Query` called with `"vec"` issues it for `"vec"`. -/
theorem C12_hydrating_query_searches_embedding_column :
    (∀ (eng : Engine Int) (self : TableSchema TestTable Int) (field_name : String)
        (embedding : List Int) (result : BeanSearchResult TestTable Int)
        (trace : List (BoundaryCall Int)),
      self.Query_beans eng field_name embedding result trace =
        self.Query_beans eng "embedding" embedding result trace) ∧
    ((TableSchema.mk TestTableAdapter (LanceDB.mk true (some 1)) false true).Query_results
        (Engine.mk (fun _ _ _ _ => true) (fun _ _ _ _ => true)
          (fun _ _ _ _ _ _ => some (lancedb_data_t.mk [])))
        "vec" [1, 2] (SearchResults.mk (lancedb_data_t.mk []) false) []).2.2 =
      [BoundaryCall.search (some 1) "TestTable" "vec" [1, 2] 2] ∧
    ((TableSchema.mk TestTableAdapter (LanceDB.mk true (some 1)) false true).Query_beans
        (Engine.mk (fun _ _ _ _ => true) (fun _ _ _ _ => true)
          (fun _ _ _ _ _ _ => some (lancedb_data_t.mk [])))
        "vec" [1, 2] (BeanSearchResult.mk [] []) []).map (fun r => r.2.2) =
      some [BoundaryCall.search (some 1) "TestTable" "embedding" [1, 2] 2,
        BoundaryCall.free_search_results (lancedb_data_t.mk [])] := by
  refine ⟨fun _ _ _ _ _ _ => rfl, ?_, ?_⟩
  · decide
  · decide
theorem forRange_zero {σ : Type} (step : Nat → σ → Option σ) (init : σ) :
    forRange 0 step init = some init := rfl

theorem forRange_succ {σ : Type} (n : Nat) (step : Nat → σ → Option σ) (init : σ) :
    forRange (n + 1) step init = (forRange n step init).bind (step n) := by
  unfold forRange
  rw [List.range_succ, List.foldlM_append]
  cases h : List.foldlM (fun s i => step i s) init (List.range n) with
  | none => rfl
  | some s => simp [List.foldlM]

/-- A loop that, at index `i`, overwrites element `i` of a list by `g i` of it: the loop
is defined when the list has at least `n` elements, and changes exactly the first `n`. -/
theorem forRange_pointwise {X : Type} (n : Nat) (step : Nat → List X → Option (List X))
    (g : Nat → X → X)
    (hstep : ∀ i, i < n → ∀ (xs : List X) (h : i < xs.length),
      step i xs = some (xs.set i (g i xs[i])))
    (init : List X) (hn : n ≤ init.length) :
    ∃ out, forRange n step init = some out ∧ out.length = init.length ∧
      ∀ (i : Nat) (h : i < init.length),
        out[i]? = some (if i < n then g i init[i] else init[i]) := by
  induction n with
  | zero =>
    refine ⟨init, rfl, rfl, ?_⟩
    intro i h
    simp [List.getElem?_eq_getElem h]
  | succ n ih =>
    obtain ⟨out, hout, hlen, hget⟩ :=
      ih (fun i hi xs h => hstep i (Nat.lt_succ_of_lt hi) xs h) (Nat.le_of_succ_le hn)
    have hn' : n < init.length := hn
    have hno : n < out.length := by omega
    have hoi : out[n] = init[n] := by
      have := hget n hn'
      rw [List.getElem?_eq_getElem hno] at this
      simpa using this
    refine ⟨out.set n (g n init[n]), ?_, ?_, ?_⟩
    · rw [forRange_succ, hout]
      show step n out = _
      rw [hstep n (Nat.lt_succ_self n) out hno, hoi]
    · simp [hlen]
    · intro i h
      by_cases hin : i = n
      · subst hin
        simp [List.getElem?_set, hno]
      · have h1 : (out.set n (g n init[n]))[i]? = out[i]? := by
          rw [List.getElem?_set]
          simp [Ne.symm hin]
        rw [h1, hget i h]
        by_cases hlt : i < n
        · simp [hlt, Nat.lt_succ_of_lt hlt]
        · have : ¬ i < n + 1 := by omega
          simp [hlt, this]

theorem FillDistanceField_found [Inhabited α] (distance : List α) (results : SearchResults α)
    (col : lancedb_field_data_t α) (cell : Nat → α)
    (hfind : TableSchema.findField results.Get "_distance" = some col)
    (hcells : ∀ i, i < col.data_count → col.data[i]? = some (Cell.value (cell i)))
    (init : List α)
    (hinit : init =
      if distance.isEmpty then List.replicate col.data_count default else distance)
    (hn : col.data_count ≤ init.length) :
    ∃ out, TableSchema.FillDistanceField distance results = some (kLanceDBSuccess, out) ∧
      out.length = init.length ∧
      ∀ (i : Nat) (h : i < init.length),
        out[i]? = some (if i < col.data_count then cell i else init[i]) := by
  obtain ⟨out, hout, hlen, hget⟩ :=
    forRange_pointwise col.data_count
      (fun i d => do
        let c ← col.data[i]?
        let v ← c.asValue
        if i < d.length then some (d.set i v) else none)
      (fun i _ => cell i)
      (by
        intro i hi xs h
        simp [hcells i hi, Cell.asValue, h])
      init hn
  refine ⟨out, ?_, hlen, hget⟩
  unfold TableSchema.FillDistanceField
  simp only [hfind, ← hinit, hout, Option.map_some']

/-- C14, as stated, fails for a distances sequence that is not empty: with the initial
content `[9, 9, 9]` and a `_distance` column of one row holding 5, distance extraction
leaves `[5, 9, 9]`, three elements and not one. -/
theorem C14_counterexample :
    TableSchema.FillDistanceField [9, 9, 9]
        (SearchResults.mk (lancedb_data_t.mk
          [lancedb_field_data_t.mk "_distance" kLanceDBFieldTypeFloat32
            kLanceDBFieldTypeScalar 1 1 [Cell.value (5 : Int)] none]) true) =
      some (kLanceDBSuccess, [5, 9, 9]) ∧
    ¬ (([5, 9, 9] : List Int).length = 1) := by
  decide

/-- C14, amended: let the result batch contain a column named `_distance` (the first
such) with `n` rows holding the values `cell 0 .. cell (n-1)`.  If the caller's distances
sequence is empty, then after distance extraction it has exactly `n` elements and element
`i` is `cell i`.  If it is not empty it is not resized: when it has at least `n` elements,
its length is unchanged, its first `n` elements become `cell i`, and the elements from
index `n` on are kept.  In both cases the extraction reports success. -/
theorem C14_distance_extraction [Inhabited α] (distance : List α)
    (results : SearchResults α) (col : lancedb_field_data_t α) (cell : Nat → α)
    (hfind : TableSchema.findField results.Get "_distance" = some col)
    (hcells : ∀ i, i < col.data_count → col.data[i]? = some (Cell.value (cell i))) :
    (distance = [] →
      ∃ out, TableSchema.FillDistanceField distance results = some (kLanceDBSuccess, out) ∧
        out.length = col.data_count ∧
        ∀ i, i < col.data_count → out[i]? = some (cell i)) ∧
    (distance ≠ [] → col.data_count ≤ distance.length →
      ∃ out, TableSchema.FillDistanceField distance results = some (kLanceDBSuccess, out) ∧
        out.length = distance.length ∧
        (∀ i, i < col.data_count → out[i]? = some (cell i)) ∧
        ∀ i, col.data_count ≤ i → out[i]? = distance[i]?) := by
  constructor
  · intro hnil
    subst hnil
    obtain ⟨out, hout, hlen, hget⟩ :=
      FillDistanceField_found [] results col cell hfind hcells
        (List.replicate col.data_count default) (by simp) (by simp)
    refine ⟨out, hout, by simpa using hlen, ?_⟩
    intro i hi
    have := hget i (by simpa using hi)
    simpa [hi] using this
  · intro hne hlen0
    have hemp : distance.isEmpty = false := by
      cases distance with
      | nil => exact absurd rfl hne
      | cons a l => rfl
    obtain ⟨out, hout, hlen, hget⟩ :=
      FillDistanceField_found distance results col cell hfind hcells distance
        (by simp [hemp]) hlen0
    refine ⟨out, hout, hlen, ?_, ?_⟩
    · intro i hi
      have := hget i (by omega)
      simpa [hi] using this
    · intro i hi
      by_cases h : i < distance.length
      · have := hget i h
        have hnot : ¬ i < col.data_count := by omega
        simpa [hnot, List.getElem?_eq_getElem h] using this
      · have h1 : distance[i]? = none := List.getElem?_eq_none (by omega)
        have h2 : out[i]? = none := List.getElem?_eq_none (by omega)
        rw [h1, h2]

/-- C14, amended, at an empty distances sequence and a `_distance` column of two rows. -/
theorem C14_distance_extraction_witness :
    TableSchema.findField
        (SearchResults.mk (lancedb_data_t.mk
          [lancedb_field_data_t.mk "_distance" kLanceDBFieldTypeFloat32
            kLanceDBFieldTypeScalar 2 1 [Cell.value (5 : Int), Cell.value 6] none])
          true).Get "_distance" =
      some (lancedb_field_data_t.mk "_distance" kLanceDBFieldTypeFloat32
        kLanceDBFieldTypeScalar 2 1 [Cell.value (5 : Int), Cell.value 6] none) ∧
    ∃ out, TableSchema.FillDistanceField ([] : List Int)
        (SearchResults.mk (lancedb_data_t.mk
          [lancedb_field_data_t.mk "_distance" kLanceDBFieldTypeFloat32
            kLanceDBFieldTypeScalar 2 1 [Cell.value (5 : Int), Cell.value 6] none])
          true) = some (kLanceDBSuccess, out) ∧
      out.length = 2 ∧ ∀ i, i < 2 → out[i]? = some (([5, 6] : List Int).getD i 0) :=
  ⟨by decide,
   (C14_distance_extraction ([] : List Int)
      (SearchResults.mk (lancedb_data_t.mk
        [lancedb_field_data_t.mk "_distance" kLanceDBFieldTypeFloat32
          kLanceDBFieldTypeScalar 2 1 [Cell.value (5 : Int), Cell.value 6] none]) true)
      (lancedb_field_data_t.mk "_distance" kLanceDBFieldTypeFloat32
        kLanceDBFieldTypeScalar 2 1 [Cell.value (5 : Int), Cell.value 6] none)
      (fun i => ([5, 6] : List Int).getD i 0) (by decide)
      (by
        intro i hi
        have h2 : i < 2 := hi
        interval_cases i <;> rfl)).1 rfl⟩

variable {B : Type}

theorem FillDistanceField_absent [Inhabited α] (distance : List α)
    (results : SearchResults α)
    (habsent : TableSchema.findField results.Get "_distance" = none) :
    TableSchema.FillDistanceField distance results = some (kLanceDBFieldNotFound, distance) := by
  unfold TableSchema.FillDistanceField
  simp only [habsent]

theorem FillDistanceField_present_code [Inhabited α] (distance : List α)
    (results : SearchResults α) (col : lancedb_field_data_t α)
    (hfind : TableSchema.findField results.Get "_distance" = some col)
    (r : LanceDBError × List α)
    (hr : TableSchema.FillDistanceField distance results = some r) :
    r.1 = kLanceDBSuccess := by
  unfold TableSchema.FillDistanceField at hr
  simp only [hfind] at hr
  rw [Option.map_eq_some'] at hr
  obtain ⟨d, _, hd⟩ := hr
  rw [← hd]

theorem QueryInternal_code [Inhabited B] (self : TableSchema B α) (beans : List B)
    (results : SearchResults α) (h : LanceDBError × List B)
    (hh : self.QueryInternal beans results = some h) : h.1 = kLanceDBSuccess := by
  unfold TableSchema.QueryInternal at hh
  rw [Option.map_eq_some'] at hh
  obtain ⟨bs, _, hbs⟩ := hh
  rw [← hbs]

theorem Query_beans_of_search_ok [Inhabited B] [Inhabited α] (eng : Engine α)
    (self : TableSchema B α) (field_name : String) (embedding : List α)
    (result : BeanSearchResult B α) (trace trace1 : List (BoundaryCall α))
    (sr : SearchResults α)
    (hsearch : self.Query_results eng "embedding" embedding {} trace =
      (kLanceDBSuccess, sr, trace1)) :
    self.Query_beans eng field_name embedding result trace =
      (self.QueryInternal result.results sr).bind (fun h =>
        (TableSchema.FillDistanceField result.distances sr).map (fun d =>
          (d.1, { results := h.2, distances := d.2 }, sr.destroy trace1))) := by
  unfold TableSchema.Query_beans
  simp only [hsearch]
  cases hq : self.QueryInternal result.results sr with
  | none => simp
  | some h =>
    have hc := QueryInternal_code self result.results sr h hq
    simp only [ne_eq, not_true_eq_false, if_false, Option.bind_eq_bind, Option.some_bind, hc]
    cases TableSchema.FillDistanceField result.distances sr <;> rfl

/-- C15: whenever the search of the hydrating `Query` succeeds and the result batch has no
column named `_distance`, the call returns `kLanceDBFieldNotFound`, with the records as
hydration left them, whatever the batch holds for the bound columns: the call is
`QueryInternal` followed by that return, and `QueryInternal` drops the codes of the
field hydrations (it is undefined only where hydration indexes out of range).  When a
`_distance` column is present, distance extraction does not return
`kLanceDBFieldNotFound`. -/
theorem C15_missing_distance_column_is_field_not_found [Inhabited B] [Inhabited α]
    (eng : Engine α) (self : TableSchema B α) (field_name : String) (embedding : List α)
    (result : BeanSearchResult B α) (trace trace1 : List (BoundaryCall α))
    (sr : SearchResults α)
    (hsearch : self.Query_results eng "embedding" embedding {} trace =
      (kLanceDBSuccess, sr, trace1)) :
    (TableSchema.findField sr.Get "_distance" = none →
      self.Query_beans eng field_name embedding result trace =
        (self.QueryInternal result.results sr).map (fun h =>
          (kLanceDBFieldNotFound, { results := h.2, distances := result.distances },
            sr.destroy trace1))) ∧
    (∀ col, TableSchema.findField sr.Get "_distance" = some col →
      ∀ r, TableSchema.FillDistanceField result.distances sr = some r →
        r.1 ≠ kLanceDBFieldNotFound) := by
  constructor
  · intro habsent
    rw [Query_beans_of_search_ok eng self field_name embedding result trace trace1 sr hsearch,
      FillDistanceField_absent result.distances sr habsent]
    cases self.QueryInternal result.results sr <;> rfl
  · intro col hfind r hr
    rw [FillDistanceField_present_code result.distances sr col hfind r hr]
    decide
/-- C15 at a batch whose only column is `id`: the search succeeds, no `_distance` column
is there, and the hydrating `Query` returns `kLanceDBFieldNotFound`. -/
theorem C15_missing_distance_column_is_field_not_found_witness :
    ((TableSchema.mk TestTableAdapter (LanceDB.mk true (some 1)) false true).Query_beans
        (Engine.mk (fun _ _ _ _ => true) (fun _ _ _ _ => true)
          (fun _ _ _ _ _ _ => some (lancedb_data_t.mk
            [lancedb_field_data_t.mk "id" kLanceDBFieldTypeInt32 kLanceDBFieldTypeScalar 1 1
              [Cell.value 55] none])))
        "embedding" [1, 2] (BeanSearchResult.mk [] []) []).map (fun r => r.1) =
      some kLanceDBFieldNotFound := by
  rw [(C15_missing_distance_column_is_field_not_found
    (Engine.mk (fun _ _ _ _ => true) (fun _ _ _ _ => true)
      (fun _ _ _ _ _ _ => some (lancedb_data_t.mk
        [lancedb_field_data_t.mk "id" kLanceDBFieldTypeInt32 kLanceDBFieldTypeScalar 1 1
          [Cell.value 55] none])))
    (TableSchema.mk TestTableAdapter (LanceDB.mk true (some 1)) false true)
    "embedding" [1, 2] (BeanSearchResult.mk [] []) []
    [BoundaryCall.search (some 1) "TestTable" "embedding" [1, 2] 2]
    (SearchResults.mk (lancedb_data_t.mk
      [lancedb_field_data_t.mk "id" kLanceDBFieldTypeInt32 kLanceDBFieldTypeScalar 1 1
        [Cell.value 55] none]) true)
    rfl).1 (by decide)]
  decide
/-- C17: if no column of the result batch has the bound column's name, hydrating that
field reports success and returns the record list as it was: same length, every record
unchanged.  This holds for a field of any member type and any record list. -/
theorem C17_missing_bound_column_leaves_records [Inhabited B] (f : FieldBinding B α)
    (beans : List B) (field_name : String) (results : SearchResults α)
    (habsent : ∀ col ∈ results.Get.fields, col.name ≠ field_name) :
    TableSchema.FillBeanField f beans field_name results = some (kLanceDBSuccess, beans) := by
  have hnone : TableSchema.findField results.Get field_name = none := by
    unfold TableSchema.findField
    rw [List.find?_eq_none]
    intro col hcol
    simpa using habsent col hcol
  unfold TableSchema.FillBeanField
  simp only [hnone]

/-- C17 at a batch that has the column `id` but not `page`, and a list of one record. -/
theorem C17_missing_bound_column_leaves_records_witness :
    (∀ col ∈ (SearchResults.mk (lancedb_data_t.mk
        [lancedb_field_data_t.mk "id" kLanceDBFieldTypeInt32 kLanceDBFieldTypeScalar 1 1
          [Cell.value (55 : Int)] none]) true).Get.fields, col.name ≠ "page") ∧
    TableSchema.FillBeanField
        (FieldBinding.scalar "page" NativeType.int32_t
          (Member.mk (fun b => b.page) (fun b v => { b with page := v }) (fun _ _ => rfl)))
        [TestTable.mk 7 [1, 2] "text" 3 4 "title"] "page"
        (SearchResults.mk (lancedb_data_t.mk
          [lancedb_field_data_t.mk "id" kLanceDBFieldTypeInt32 kLanceDBFieldTypeScalar 1 1
            [Cell.value (55 : Int)] none]) true) =
      some (kLanceDBSuccess, [TestTable.mk 7 [1, 2] "text" 3 4 "title"]) :=
  ⟨by decide,
   C17_missing_bound_column_leaves_records
    (FieldBinding.scalar "page" NativeType.int32_t
      (Member.mk (fun b => b.page) (fun b v => { b with page := v }) (fun _ _ => rfl)))
    [TestTable.mk 7 [1, 2] "text" 3 4 "title"] "page"
    (SearchResults.mk (lancedb_data_t.mk
      [lancedb_field_data_t.mk "id" kLanceDBFieldTypeInt32 kLanceDBFieldTypeScalar 1 1
        [Cell.value (55 : Int)] none]) true)
    (by decide)⟩

theorem mapM_asValue_map_value (l : List α) :
    (l.map Cell.value).mapM Cell.asValue = some l := by
  induction l with
  | nil => rfl
  | cons a l ih =>
    rw [List.map_cons, List.mapM_cons, ih]
    rfl

theorem readValues_of_cells (data : List (Cell α)) (cell : Nat → α) (start count total : Nat)
    (hcells : ∀ k, k < total → data[k]? = some (Cell.value (cell k)))
    (hle : start + count ≤ total) :
    readValues data start count = some ((List.range count).map (fun j => cell (start + j))) := by
  have hlen : total ≤ data.length := by
    by_contra hlt
    have hk : data.length < total := by omega
    have h1 := hcells data.length hk
    rw [List.getElem?_eq_none (Nat.le_refl _)] at h1
    exact Option.noConfusion h1
  have hslice : (data.drop start).take count =
      ((List.range count).map (fun j => cell (start + j))).map Cell.value := by
    apply List.ext_getElem?
    intro j
    by_cases hj : j < count
    · rw [List.getElem?_take_of_lt hj, List.getElem?_drop, hcells (start + j) (by omega)]
      simp [List.getElem?_map, List.getElem?_range hj]
    · rw [List.getElem?_eq_none (by simp; omega), List.getElem?_eq_none (by simp; omega)]
  unfold readValues
  rw [if_pos (by omega), hslice, mapM_asValue_map_value]

theorem FillBeanField_scalar_spec [Inhabited B] (name : String) (U : NativeType)
    (m : Member B α) (beans : List B) (field_name : String) (results : SearchResults α)
    (col : lancedb_field_data_t α) (cell : Nat → α)
    (hfind : TableSchema.findField results.Get field_name = some col)
    (hcells : ∀ i, i < col.data_count → col.data[i]? = some (Cell.value (cell i)))
    (init : List B)
    (hinit : init = if beans.isEmpty then List.replicate col.data_count default else beans)
    (hn : col.data_count ≤ init.length) :
    ∃ out, TableSchema.FillBeanField (FieldBinding.scalar name U m) beans field_name results =
        some (kLanceDBSuccess, out) ∧
      out.length = init.length ∧
      ∀ (i : Nat) (h : i < init.length),
        out[i]? = some (if i < col.data_count then m.set init[i] (cell i) else init[i]) := by
  obtain ⟨out, hout, hlen, hget⟩ :=
    forRange_pointwise col.data_count
      (fun i bs => do
        let bean ← bs[i]?
        let c ← col.data[i]?
        let v ← c.asValue
        some (bs.set i (m.set bean v)))
      (fun i b => m.set b (cell i))
      (by
        intro i hi xs h
        simp [hcells i hi, Cell.asValue, List.getElem?_eq_getElem h])
      init hn
  refine ⟨out, ?_, hlen, hget⟩
  unfold TableSchema.FillBeanField
  simp only [hfind, ← hinit, hout, Option.map_some']

theorem FillBeanField_string_spec [Inhabited B] (name : String)
    (m : Member B String) (beans : List B) (field_name : String) (results : SearchResults α)
    (col : lancedb_field_data_t α) (ptr : Nat → CharPtr)
    (hfind : TableSchema.findField results.Get field_name = some col)
    (hcells : ∀ i, i < col.data_count → col.data[i]? = some (Cell.c_str (ptr i)))
    (init : List B)
    (hinit : init = if beans.isEmpty then List.replicate col.data_count default else beans)
    (hn : col.data_count ≤ init.length) :
    ∃ out, TableSchema.FillBeanField (FieldBinding.string name m) beans field_name results =
        some (kLanceDBSuccess, out) ∧
      out.length = init.length ∧
      ∀ (i : Nat) (h : i < init.length),
        out[i]? =
          some (if i < col.data_count then m.set init[i] (ptr i).text else init[i]) := by
  obtain ⟨out, hout, hlen, hget⟩ :=
    forRange_pointwise col.data_count
      (fun i bs => do
        let bean ← bs[i]?
        let c ← col.data[i]?
        let p ← c.asCStr
        some (bs.set i (m.set bean p.text)))
      (fun i b => m.set b (ptr i).text)
      (by
        intro i hi xs h
        simp [hcells i hi, Cell.asCStr, List.getElem?_eq_getElem h])
      init hn
  refine ⟨out, ?_, hlen, hget⟩
  unfold TableSchema.FillBeanField
  simp only [hfind, ← hinit, hout, Option.map_some']

theorem FillBeanField_vector_spec [Inhabited B] (name : String) (U : NativeType)
    (m : Member B (List α)) (beans : List B) (field_name : String)
    (results : SearchResults α) (col : lancedb_field_data_t α) (cell : Nat → α)
    (hfind : TableSchema.findField results.Get field_name = some col)
    (hcells : ∀ k, k < col.data_count * col.dimension →
      col.data[k]? = some (Cell.value (cell k)))
    (init : List B)
    (hinit : init = if beans.isEmpty then List.replicate col.data_count default else beans)
    (hn : col.data_count ≤ init.length) :
    ∃ out, TableSchema.FillBeanField (FieldBinding.vector name U m) beans field_name results =
        some (kLanceDBSuccess, out) ∧
      out.length = init.length ∧
      ∀ (i : Nat) (h : i < init.length),
        out[i]? = some (if i < col.data_count then
          m.set init[i] ((List.range col.dimension).map (fun j => cell (i * col.dimension + j)))
          else init[i]) := by
  obtain ⟨out, hout, hlen, hget⟩ :=
    forRange_pointwise col.data_count
      (fun i bs => do
        let bean ← bs[i]?
        let vec ← readValues col.data (i * col.dimension) col.dimension
        some (bs.set i (m.set bean vec)))
      (fun i b => m.set b ((List.range col.dimension).map (fun j => cell (i * col.dimension + j))))
      (by
        intro i hi xs h
        have hle : i * col.dimension + col.dimension ≤ col.data_count * col.dimension := by
          have : (i + 1) * col.dimension ≤ col.data_count * col.dimension :=
            Nat.mul_le_mul_right _ hi
          rw [Nat.succ_mul] at this
          exact this
        simp [readValues_of_cells col.data cell (i * col.dimension) col.dimension
          (col.data_count * col.dimension) hcells hle, List.getElem?_eq_getElem h])
      init hn
  refine ⟨out, ?_, hlen, hget⟩
  unfold TableSchema.FillBeanField
  simp only [hfind, ← hinit, hout, Option.map_some']

/-- C18: let `col` be the first column of the result batch named like the bound column,
with `n = data_count` rows and dimension `d`.  Hydrating the field into an empty record
list succeeds and gives `n` records, and record `i`'s bound field is row `i` of the
column: for a scalar member the value of cell `i`; for a `std::string` member the C
string cell `i` points to; for a vector member a vector of length `d` whose element `j`
is the value of cell `i * d + j`. -/
theorem C18_hydration_sets_bound_field [Inhabited B] (name : String) (field_name : String)
    (results : SearchResults α) (col : lancedb_field_data_t α)
    (hfind : TableSchema.findField results.Get field_name = some col) :
    (∀ (U : NativeType) (m : Member B α) (cell : Nat → α),
      (∀ i, i < col.data_count → col.data[i]? = some (Cell.value (cell i))) →
      ∃ out, TableSchema.FillBeanField (FieldBinding.scalar name U m) [] field_name results =
          some (kLanceDBSuccess, out) ∧
        out.length = col.data_count ∧
        ∀ i, i < col.data_count → (out[i]?).map m.get = some (cell i)) ∧
    (∀ (m : Member B String) (ptr : Nat → CharPtr),
      (∀ i, i < col.data_count → col.data[i]? = some (Cell.c_str (ptr i))) →
      ∃ out, TableSchema.FillBeanField (FieldBinding.string name m) [] field_name results =
          some (kLanceDBSuccess, out) ∧
        out.length = col.data_count ∧
        ∀ i, i < col.data_count → (out[i]?).map m.get = some (ptr i).text) ∧
    (∀ (U : NativeType) (m : Member B (List α)) (cell : Nat → α),
      (∀ k, k < col.data_count * col.dimension →
        col.data[k]? = some (Cell.value (cell k))) →
      ∃ out, TableSchema.FillBeanField (FieldBinding.vector name U m) [] field_name results =
          some (kLanceDBSuccess, out) ∧
        out.length = col.data_count ∧
        ∀ i, i < col.data_count →
          ∃ vec, (out[i]?).map m.get = some vec ∧ vec.length = col.dimension ∧
            ∀ j, j < col.dimension → vec[j]? = some (cell (i * col.dimension + j))) := by
  have hinit : List.replicate col.data_count (default : B) =
      if ([] : List B).isEmpty then List.replicate col.data_count default else [] := by simp
  have hn : col.data_count ≤ (List.replicate col.data_count (default : B)).length := by simp
  refine ⟨?_, ?_, ?_⟩
  · intro U m cell hcells
    obtain ⟨out, hout, hlen, hget⟩ :=
      FillBeanField_scalar_spec name U m [] field_name results col cell hfind hcells _ hinit hn
    refine ⟨out, hout, by simpa using hlen, ?_⟩
    intro i hi
    rw [hget i (by simpa using hi)]
    simp [hi, m.get_set]
  · intro m ptr hcells
    obtain ⟨out, hout, hlen, hget⟩ :=
      FillBeanField_string_spec name m [] field_name results col ptr hfind hcells _ hinit hn
    refine ⟨out, hout, by simpa using hlen, ?_⟩
    intro i hi
    rw [hget i (by simpa using hi)]
    simp [hi, m.get_set]
  · intro U m cell hcells
    obtain ⟨out, hout, hlen, hget⟩ :=
      FillBeanField_vector_spec name U m [] field_name results col cell hfind hcells _ hinit hn
    refine ⟨out, hout, by simpa using hlen, ?_⟩
    intro i hi
    refine ⟨(List.range col.dimension).map (fun j => cell (i * col.dimension + j)), ?_, ?_, ?_⟩
    · rw [hget i (by simpa using hi)]
      simp [hi, m.get_set]
    · simp
    · intro j hj
      simp [List.getElem?_map, List.getElem?_range hj]

/-- C18 at a batch with the vector column `embedding` of two rows and dimension 3. -/
theorem C18_hydration_sets_bound_field_witness :
    TableSchema.findField
        (SearchResults.mk (lancedb_data_t.mk
          [lancedb_field_data_t.mk "embedding" kLanceDBFieldTypeFloat32
            kLanceDBFieldTypeVector 2 3
            [Cell.value (1 : Int), Cell.value 2, Cell.value 3, Cell.value 4, Cell.value 5,
              Cell.value 6] none]) true).Get "embedding" =
      some (lancedb_field_data_t.mk "embedding" kLanceDBFieldTypeFloat32
        kLanceDBFieldTypeVector 2 3
        [Cell.value (1 : Int), Cell.value 2, Cell.value 3, Cell.value 4, Cell.value 5,
          Cell.value 6] none) ∧
    ∃ out, TableSchema.FillBeanField
        (FieldBinding.vector "embedding" NativeType.float
          (Member.mk (fun b : TestTable => b.embedding) (fun b v => { b with embedding := v })
            (fun _ _ => rfl)))
        [] "embedding"
        (SearchResults.mk (lancedb_data_t.mk
          [lancedb_field_data_t.mk "embedding" kLanceDBFieldTypeFloat32
            kLanceDBFieldTypeVector 2 3
            [Cell.value (1 : Int), Cell.value 2, Cell.value 3, Cell.value 4, Cell.value 5,
              Cell.value 6] none]) true) = some (kLanceDBSuccess, out) ∧
      out.length = 2 ∧
      ∀ i, i < 2 → ∃ vec, (out[i]?).map (fun b => b.embedding) = some vec ∧ vec.length = 3 ∧
        ∀ j, j < 3 → vec[j]? = some (([1, 2, 3, 4, 5, 6] : List Int).getD (i * 3 + j) 0) :=
  ⟨by decide,
   (C18_hydration_sets_bound_field (B := TestTable) "embedding" "embedding"
      (SearchResults.mk (lancedb_data_t.mk
        [lancedb_field_data_t.mk "embedding" kLanceDBFieldTypeFloat32
          kLanceDBFieldTypeVector 2 3
          [Cell.value (1 : Int), Cell.value 2, Cell.value 3, Cell.value 4, Cell.value 5,
            Cell.value 6] none]) true)
      (lancedb_field_data_t.mk "embedding" kLanceDBFieldTypeFloat32
        kLanceDBFieldTypeVector 2 3
        [Cell.value (1 : Int), Cell.value 2, Cell.value 3, Cell.value 4, Cell.value 5,
          Cell.value 6] none)
      (by decide)).2.2 NativeType.float
      (Member.mk (fun b : TestTable => b.embedding) (fun b v => { b with embedding := v })
        (fun _ _ => rfl))
      (fun k => ([1, 2, 3, 4, 5, 6] : List Int).getD k 0)
      (by
        intro k hk
        have h6 : k < 6 := hk
        interval_cases k <;> rfl)⟩

theorem gather_foldl (fields : List (FieldBinding B α)) (pre rest : List B) :
    rest.foldl (fun data bean => data.map (BoundContainer.emplace_back bean))
      (fields.map (fun f => match f with
        | FieldBinding.scalar name U m => BoundContainer.scalar name U m (pre.map m.get)
        | FieldBinding.vector name U m => BoundContainer.vector name U m (pre.map m.get)
        | FieldBinding.string name m => BoundContainer.string name m (pre.map m.get)
        | FieldBinding.blob name m => BoundContainer.blob name m (pre.map m.get))) =
    fields.map (fun f => match f with
      | FieldBinding.scalar name U m =>
        BoundContainer.scalar name U m ((pre ++ rest).map m.get)
      | FieldBinding.vector name U m =>
        BoundContainer.vector name U m ((pre ++ rest).map m.get)
      | FieldBinding.string name m => BoundContainer.string name m ((pre ++ rest).map m.get)
      | FieldBinding.blob name m => BoundContainer.blob name m ((pre ++ rest).map m.get)) := by
  induction rest generalizing pre with
  | nil => simp
  | cons bean rest ih =>
    rw [List.foldl_cons]
    have hstep : (fields.map (fun f => match f with
        | FieldBinding.scalar name U m => BoundContainer.scalar name U m (pre.map m.get)
        | FieldBinding.vector name U m => BoundContainer.vector name U m (pre.map m.get)
        | FieldBinding.string name m => BoundContainer.string name m (pre.map m.get)
        | FieldBinding.blob name m => BoundContainer.blob name m (pre.map m.get))).map
          (BoundContainer.emplace_back bean) =
        fields.map (fun f => match f with
        | FieldBinding.scalar name U m =>
          BoundContainer.scalar name U m ((pre ++ [bean]).map m.get)
        | FieldBinding.vector name U m =>
          BoundContainer.vector name U m ((pre ++ [bean]).map m.get)
        | FieldBinding.string name m =>
          BoundContainer.string name m ((pre ++ [bean]).map m.get)
        | FieldBinding.blob name m =>
          BoundContainer.blob name m ((pre ++ [bean]).map m.get)) := by
      rw [List.map_map]
      apply List.map_congr_left
      intro f _
      cases f <;> simp [BoundContainer.emplace_back]
    rw [hstep, ih (pre ++ [bean])]
    simp

theorem data_tuple_eq (fields : List (FieldBinding B α)) (beans : List B) :
    TableSchema.RunInternal.data_tuple fields beans =
      fields.map (fun f => match f with
        | FieldBinding.scalar name U m =>
          AnyFieldData.scalar (FieldData.ofScalars U name (beans.map m.get) false false)
        | FieldBinding.vector name U m =>
          AnyFieldData.vector (FieldData.ofVectors U name (beans.map m.get) false false)
        | FieldBinding.string name m =>
          AnyFieldData.string (FieldData.ofStrings name (beans.map m.get) false false)
        | FieldBinding.blob name m =>
          AnyFieldData.blob (FieldData.ofBlobs name (beans.map m.get) false false)) := by
  have h := gather_foldl fields [] beans
  have h0 : fields.map BoundContainer.empty =
      fields.map (fun f => match f with
        | FieldBinding.scalar name U m => BoundContainer.scalar name U m (([] : List B).map m.get)
        | FieldBinding.vector name U m => BoundContainer.vector name U m (([] : List B).map m.get)
        | FieldBinding.string name m => BoundContainer.string name m (([] : List B).map m.get)
        | FieldBinding.blob name m => BoundContainer.blob name m (([] : List B).map m.get)) := by
    apply List.map_congr_left
    intro f _
    cases f <;> rfl
  unfold TableSchema.RunInternal.data_tuple TableSchema.RunInternal.gather
  rw [h0, h, List.map_map]
  apply List.map_congr_left
  intro f _
  cases f <;> simp [BoundContainer.toFieldData]

theorem ofVectors_name_data (U : NativeType) (name : String) (rows : List (List α))
    (nullable create_index : Bool) :
    (FieldData.ofVectors U name rows nullable create_index).GetName = name ∧
    (FieldData.ofVectors U name rows nullable create_index).GetData = rows := by
  cases rows with
  | nil => exact ⟨rfl, rfl⟩
  | cons row0 rest =>
    by_cases hu : ∀ r ∈ row0 :: rest, r.length = row0.length
    · rw [ofVectors_cons_uniform U name row0 rest nullable create_index hu]
      exact ⟨rfl, rfl⟩
    · rw [ofVectors_cons_mismatch U name row0 rest nullable create_index hu]
      exact ⟨rfl, rfl⟩

/-- C20: `Run` transposes the records into columns.  The columns given to
`CreateBatchInserter` are as many as the bound fields and in binding order; the column at
index `I` is the `FieldData` of the member type of binding `I`, it is named by
`FieldName<I>()`, it has as many rows as there are records, and its rows are the records'
`I`-th bound fields in record order (row `i` is the field of record `i`). -/
theorem C20_run_transposes_records (fields : List (FieldBinding B α)) (beans : List B) :
    (TableSchema.RunInternal.data_tuple fields beans).length = fields.length ∧
    (∀ (I : Nat) (name : String) (U : NativeType) (m : Member B α),
      fields[I]? = some (FieldBinding.scalar name U m) →
      ∃ fd, (TableSchema.RunInternal.data_tuple fields beans)[I]? =
          some (AnyFieldData.scalar fd) ∧
        fd.GetName = name ∧ fd.GetDataCount = beans.length ∧
        fd.GetData = beans.map m.get ∧
        ∀ i : Nat, fd.GetData[i]? = (beans[i]?).map m.get) ∧
    (∀ (I : Nat) (name : String) (U : NativeType) (m : Member B (List α)),
      fields[I]? = some (FieldBinding.vector name U m) →
      ∃ fd, (TableSchema.RunInternal.data_tuple fields beans)[I]? =
          some (AnyFieldData.vector fd) ∧
        fd.GetName = name ∧ fd.GetDataCount = beans.length ∧
        fd.GetData = beans.map m.get ∧
        ∀ i : Nat, fd.GetData[i]? = (beans[i]?).map m.get) ∧
    (∀ (I : Nat) (name : String) (m : Member B String),
      fields[I]? = some (FieldBinding.string name m) →
      ∃ fd, (TableSchema.RunInternal.data_tuple fields beans)[I]? =
          some (AnyFieldData.string fd) ∧
        fd.GetName = name ∧ fd.GetDataCount = beans.length ∧
        fd.GetData = beans.map m.get ∧
        ∀ i : Nat, fd.GetData[i]? = (beans[i]?).map m.get) ∧
    (∀ (I : Nat) (name : String) (m : Member B BinaryData),
      fields[I]? = some (FieldBinding.blob name m) →
      ∃ fd, (TableSchema.RunInternal.data_tuple fields beans)[I]? =
          some (AnyFieldData.blob fd) ∧
        fd.GetName = name ∧ fd.GetDataCount = beans.length ∧
        fd.GetData = beans.map m.get ∧
        ∀ i : Nat, fd.GetData[i]? = (beans[i]?).map m.get) := by
  rw [data_tuple_eq]
  refine ⟨by simp, ?_, ?_, ?_, ?_⟩
  · intro I name U m hI
    refine ⟨FieldData.ofScalars U name (beans.map m.get) false false, ?_, ?_, ?_, ?_, ?_⟩
    · rw [List.getElem?_map, hI]
      rfl
    · rfl
    · simp [ofScalars_eq, BaseFieldData.GetDataCount]
    · rfl
    · intro i
      simp [ofScalars_eq, BaseFieldData.GetData, List.getElem?_map]
  · intro I name U m hI
    have hv := ofVectors_name_data U name (beans.map m.get) false false
    refine ⟨FieldData.ofVectors U name (beans.map m.get) false false, ?_, hv.1, ?_, hv.2, ?_⟩
    · rw [List.getElem?_map, hI]
      rfl
    · have := hv.2
      simp only [BaseFieldData.GetData] at this
      simp [BaseFieldData.GetDataCount, this]
    · intro i
      rw [hv.2, List.getElem?_map]
  · intro I name m hI
    refine ⟨FieldData.ofStrings name (beans.map m.get) false false, ?_, ?_, ?_, ?_, ?_⟩
    · rw [List.getElem?_map, hI]
      rfl
    · rw [ofStrings_eq]
      rfl
    · simp [ofStrings_eq, BaseFieldData.GetDataCount]
    · rw [ofStrings_eq]
      rfl
    · intro i
      simp [ofStrings_eq, BaseFieldData.GetData, List.getElem?_map]
  · intro I name m hI
    refine ⟨FieldData.ofBlobs name (beans.map m.get) false false, ?_, ?_, ?_, ?_, ?_⟩
    · rw [List.getElem?_map, hI]
      rfl
    · rw [ofBlobs_eq]
      rfl
    · simp [ofBlobs_eq, BaseFieldData.GetDataCount]
    · rw [ofBlobs_eq]
      rfl
    · intro i
      simp [ofBlobs_eq, BaseFieldData.GetData, List.getElem?_map]

theorem CharPtr.text_of_no_nul (s : String) (h : Char.ofNat 0 ∉ s.data) :
    (CharPtr.mk s).text = s := by
  unfold CharPtr.text
  have hl : s.data.takeWhile (fun c => c != Char.ofNat 0) = s.data := by
    rw [List.takeWhile_eq_self_iff]
    intro c hc
    simp only [bne_iff_ne, ne_eq]
    intro hc0
    exact h (hc0 ▸ hc)
  simp only [hl]

theorem find?_map_of_nodup {X Y : Type} (key : X → String) (h : X → Y) (key' : Y → String)
    (hk : ∀ x, key' (h x) = key x) (l : List X) (hnd : (l.map key).Nodup) (x : X)
    (hx : x ∈ l) : (l.map h).find? (fun c => key' c == key x) = some (h x) := by
  induction l with
  | nil => simp at hx
  | cons a l ih =>
    rw [List.map_cons, List.nodup_cons] at hnd
    rw [List.map_cons, List.find?_cons]
    by_cases hka : key a = key x
    · have hax : x = a := by
        rcases List.mem_cons.1 hx with h1 | h1
        · exact h1
        · exfalso
          apply hnd.1
          rw [hka]
          exact List.mem_map_of_mem key h1
      simp [hk, hka, hax]
    · have hxl : x ∈ l := by
        rcases List.mem_cons.1 hx with h1 | h1
        · exact absurd (h1 ▸ rfl) hka
        · exact h1
      have hb : (key a == key x) = false := by simpa using hka
      simp only [hk, hb]
      exact ih hnd.2 hxl

theorem data_tuple_eq_column (fields : List (FieldBinding B α)) (beans : List B) :
    TableSchema.RunInternal.data_tuple fields beans =
      fields.map (fun f => TableSchema.RunInternal.column f beans) := by
  rw [data_tuple_eq]
  apply List.map_congr_left
  intro f _
  cases f <;> rfl

theorem column_name (f : FieldBinding B α) (beans : List B) :
    (GetCFieldData (TableSchema.RunInternal.column f beans)).name = f.name := by
  cases f with
  | scalar name U m => rfl
  | vector name U m =>
    have h := (ofVectors_name_data U name (beans.map m.get) false false).1
    simpa [TableSchema.RunInternal.column, GetCFieldData, GetCFieldData.fill,
      BaseFieldData.GetFieldInfo, BaseFieldData.GetName, FieldBinding.name] using h
  | string name m =>
    simp [TableSchema.RunInternal.column, GetCFieldData, GetCFieldData.fill, ofStrings_eq,
      BaseFieldData.GetFieldInfo, FieldBinding.name]
  | blob name m =>
    simp [TableSchema.RunInternal.column, GetCFieldData, GetCFieldData.fill, ofBlobs_eq,
      BaseFieldData.GetFieldInfo, FieldBinding.name]

theorem findField_run_batch (fields : List (FieldBinding B α)) (beans : List B)
    (hnames : (fields.map FieldBinding.name).Nodup) (f : FieldBinding B α) (hf : f ∈ fields) :
    TableSchema.findField
        (lancedb_data_t.mk ((TableSchema.RunInternal.data_tuple fields beans).map GetCFieldData))
        f.name =
      some (GetCFieldData (TableSchema.RunInternal.column f beans)) := by
  unfold TableSchema.findField
  rw [data_tuple_eq_column, List.map_map]
  exact find?_map_of_nodup FieldBinding.name
    (GetCFieldData ∘ fun f => TableSchema.RunInternal.column f beans)
    (fun c => c.name) (fun x => column_name x beans) fields hnames f hf

theorem FieldBinding.SameValue.refl (f : FieldBinding B α) (b : B) : f.SameValue b b := by
  cases f <;> rfl

theorem FieldBinding.SameValue.trans (f : FieldBinding B α) (a b c : B)
    (h1 : f.SameValue a b) (h2 : f.SameValue b c) : f.SameValue a c := by
  cases f <;> exact Eq.trans h1 h2

/-- One hydration step keeps the round-trip invariant: the step overwrites every record
`i` by `W i` of it, `W i` leaves the members hydrated so far as they are, and makes the
member of `f` read as in the original record. -/
theorem RoundTripInvariant_step [Inhabited B] (beans : List B) (hne : beans ≠ [])
    (done : List (FieldBinding B α)) (f : FieldBinding B α) (bs init out : List B)
    (hinit : init = if bs.isEmpty then List.replicate beans.length default else bs)
    (hinv : TableSchema.RoundTripInvariant beans done bs)
    (W : Nat → B → B) (hlen : out.length = init.length)
    (hget : ∀ (i : Nat) (h : i < init.length), out[i]? = some (W i init[i]))
    (hapart : ∀ g ∈ done, ∀ (i : Nat) (b : B), g.SameValue (W i b) b)
    (hself : f.isBlob = false →
      ∀ (i : Nat) (h : i < beans.length) (b : B), f.SameValue (W i b) beans[i]) :
    TableSchema.RoundTripInvariant beans (done ++ [f]) out := by
  have hpos : 0 < beans.length := List.length_pos.2 hne
  have hinitlen : init.length = beans.length := by
    rcases hinv with ⟨hbs, _⟩ | ⟨hbl, _⟩
    · simp [hinit, hbs]
    · have hnemp : bs.isEmpty = false := by
        cases bs with
        | nil => simp at hbl; omega
        | cons a l => rfl
      simp [hinit, hnemp, hbl]
  right
  refine ⟨by omega, ?_⟩
  intro g hg hgb i h1 h2
  have hi : i < init.length := by omega
  have hout : out[i] = W i init[i] := by
    have := hget i hi
    rw [List.getElem?_eq_getElem h1] at this
    exact Option.some.inj this
  rw [hout]
  rcases List.mem_append.1 hg with hgd | hgf
  · -- a member hydrated before
    refine FieldBinding.SameValue.trans g _ _ _ (hapart g hgd i init[i]) ?_
    rcases hinv with ⟨_, hdone⟩ | ⟨hbl, hall⟩
    · rw [hdone] at hgd
      simp at hgd
    · have hnemp : bs.isEmpty = false := by
        cases bs with
        | nil => simp at hbl; omega
        | cons a l => rfl
      have hib : init = bs := by simp [hinit, hnemp]
      subst hib
      exact hall g hgd hgb i hi h2
  · have hgf' : g = f := by simpa using hgf
    subst hgf'
    exact hself hgb i h2 init[i]

theorem RoundTripInvariant_init_length [Inhabited B] (beans : List B) (hne : beans ≠ [])
    (done : List (FieldBinding B α)) (bs : List B)
    (hinv : TableSchema.RoundTripInvariant beans done bs) :
    (if bs.isEmpty then List.replicate beans.length (default : B) else bs).length =
      beans.length := by
  have hpos : 0 < beans.length := List.length_pos.2 hne
  rcases hinv with ⟨hbs, _⟩ | ⟨hbl, _⟩
  · simp [hbs]
  · have hnemp : bs.isEmpty = false := by
      cases bs with
      | nil => simp at hbl; omega
      | cons a l => rfl
    simp [hnemp, hbl]

theorem column_scalar_cells [Inhabited α] (name : String) (U : NativeType) (m : Member B α)
    (beans : List B) :
    (GetCFieldData (TableSchema.RunInternal.column (FieldBinding.scalar name U m) beans)).data_count
      = beans.length ∧
    ∀ i, i < beans.length →
      (GetCFieldData
        (TableSchema.RunInternal.column (FieldBinding.scalar name U m) beans)).data[i]? =
        some (Cell.value ((beans.map m.get).getD i default)) := by
  constructor
  · simp [TableSchema.RunInternal.column, GetCFieldData, GetCFieldData.fill, ofScalars_eq,
      BaseFieldData.GetDataCount]
  · intro i hi
    have hi' : i < (beans.map m.get).length := by simpa using hi
    simp [TableSchema.RunInternal.column, GetCFieldData, GetCFieldData.fill, ofScalars_eq,
      FieldData.GetFlattenData, List.getElem?_map, List.getElem?_eq_getElem hi,
      List.getD_eq_getElem _ _ hi']

theorem column_string_cells (name : String) (m : Member B String) (beans : List B) :
    (GetCFieldData (TableSchema.RunInternal.column
      (FieldBinding.string name m : FieldBinding B α) beans)).data_count = beans.length ∧
    ∀ i, i < beans.length →
      (GetCFieldData (TableSchema.RunInternal.column
        (FieldBinding.string name m : FieldBinding B α) beans)).data[i]? =
        some (Cell.c_str (CharPtr.mk ((beans.map m.get).getD i ""))) := by
  constructor
  · simp [TableSchema.RunInternal.column, GetCFieldData, GetCFieldData.fill, ofStrings_eq,
      BaseFieldData.GetDataCount]
  · intro i hi
    have hi' : i < (beans.map m.get).length := by simpa using hi
    simp [TableSchema.RunInternal.column, GetCFieldData, GetCFieldData.fill, ofStrings_eq,
      FieldData.GetFlattenData, List.getElem?_map, List.getElem?_eq_getElem hi,
      List.getD_eq_getElem _ _ hi']

theorem column_blob_sizes (name : String) (m : Member B BinaryData) (beans : List B)
    (hne : beans ≠ []) :
    (GetCFieldData (TableSchema.RunInternal.column
      (FieldBinding.blob name m : FieldBinding B α) beans)).data_count = beans.length ∧
    (GetCFieldData (TableSchema.RunInternal.column
      (FieldBinding.blob name m : FieldBinding B α) beans)).binary_size.isSome = true := by
  constructor
  · simp [TableSchema.RunInternal.column, GetCFieldData, GetCFieldData.fill, ofBlobs_eq,
      BaseFieldData.GetDataCount]
  · simp [TableSchema.RunInternal.column, GetCFieldData, GetCFieldData.fill, ofBlobs_eq,
      FieldData.GetBinaryDataSize, vectorData, hne]

theorem column_vector_cells [Inhabited α] (name : String) (U : NativeType)
    (m : Member B (List α)) (beans : List B) (hne : beans ≠ []) (d : Nat)
    (huni : ∀ b ∈ beans, (m.get b).length = d) (hd : d < 2 ^ 31) :
    (GetCFieldData (TableSchema.RunInternal.column
      (FieldBinding.vector name U m) beans)).data_count = beans.length ∧
    (GetCFieldData (TableSchema.RunInternal.column
      (FieldBinding.vector name U m) beans)).dimension = d ∧
    ∀ k, k < beans.length * d →
      (GetCFieldData (TableSchema.RunInternal.column
        (FieldBinding.vector name U m) beans)).data[k]? =
        some (Cell.value (((beans.map m.get).flatten).getD k default)) := by
  have hrows : ∀ r ∈ beans.map m.get, r.length = d := by
    intro r hr
    obtain ⟨b, hb, hbr⟩ := List.mem_map.1 hr
    rw [← hbr]
    exact huni b hb
  obtain ⟨b0, rest, hbeans⟩ : ∃ b0 rest, beans = b0 :: rest := by
    cases beans with
    | nil => exact absurd rfl hne
    | cons b0 rest => exact ⟨b0, rest, rfl⟩
  subst hbeans
  have hd0 : (m.get b0).length = d := huni b0 (by simp)
  have hu : ∀ r ∈ m.get b0 :: rest.map m.get, r.length = (m.get b0).length := by
    intro r hr
    rw [hd0]
    apply hrows
    simpa using hr
  have hlen := flatten_length_of_uniform ((b0 :: rest).map m.get) d hrows
  rw [List.length_map] at hlen
  simp only [TableSchema.RunInternal.column, List.map_cons] at hlen ⊢
  rw [ofVectors_cons_uniform U name (m.get b0) (rest.map m.get) false false hu]
  refine ⟨?_, ?_, ?_⟩
  · simp [GetCFieldData, GetCFieldData.fill, BaseFieldData.GetDataCount]
  · simp only [GetCFieldData, GetCFieldData.fill, BaseFieldData.GetFieldInfo, hd0]
    rw [sizeTToInt_of_lt _ hd, intToSizeT_natCast]
  · intro k hk
    have hk' : k < ((m.get b0 :: rest.map m.get).flatten).length := by omega
    simp only [GetCFieldData, GetCFieldData.fill, FieldData.GetFlattenData,
      List.getElem?_map]
    rw [List.getElem?_eq_getElem hk', List.getD_eq_getElem _ _ hk']
    rfl

theorem row_of_flatten [Inhabited α] (rows : List (List α)) (d : Nat)
    (huni : ∀ r ∈ rows, r.length = d) (i : Nat) (hi : i < rows.length) :
    (List.range d).map (fun j => (rows.flatten).getD (i * d + j) default) = rows[i] := by
  have hri : rows[i].length = d := huni _ (List.getElem_mem hi)
  apply List.ext_getElem?
  intro j
  by_cases hj : j < d
  · obtain ⟨x, hx1, hx2⟩ := flatten_getElem_of_uniform rows d huni i j hi hj
    rw [List.getElem?_eq_getElem hi] at hx1
    simp only [Option.some_bind] at hx1
    rw [hx1, List.getElem?_map, List.getElem?_range hj, Option.map_some',
      List.getD_eq_getElem?_getD, hx2]
    rfl
  · rw [List.getElem?_eq_none (by simp; omega), List.getElem?_eq_none (by omega)]

theorem step_scalar [Inhabited B] [Inhabited α] (beans : List B) (hne : beans ≠ [])
    (done : List (FieldBinding B α)) (name : String) (U : NativeType) (m : Member B α)
    (bs : List B) (results : SearchResults α)
    (hfind : TableSchema.findField results.Get name =
      some (GetCFieldData (TableSchema.RunInternal.column (FieldBinding.scalar name U m) beans)))
    (hinv : TableSchema.RoundTripInvariant beans done bs)
    (hapart : ∀ g ∈ done, (FieldBinding.scalar name U m).Apart g) :
    ∃ r, TableSchema.FillBeanField (FieldBinding.scalar name U m) bs name results = some r ∧
      TableSchema.RoundTripInvariant beans (done ++ [FieldBinding.scalar name U m]) r.2 := by
  have hcol := column_scalar_cells name U m beans
  have hil := RoundTripInvariant_init_length beans hne done bs hinv
  obtain ⟨out, hout, hlen, hget⟩ :=
    FillBeanField_scalar_spec name U m bs name results _
      (fun i => (beans.map m.get).getD i default) hfind
      (by rw [hcol.1]; exact hcol.2)
      (if bs.isEmpty then List.replicate beans.length default else bs)
      (by rw [hcol.1]) (by rw [hcol.1, hil])
  refine ⟨(kLanceDBSuccess, out), hout, ?_⟩
  refine RoundTripInvariant_step beans hne done _ bs _ out rfl hinv
    (fun i b => m.set b ((beans.map m.get).getD i default)) hlen ?_ ?_ ?_
  · intro i h
    rw [hget i h, hcol.1, if_pos (by omega)]
  · intro g hg i b
    exact hapart g hg b _
  · intro _ i h b
    show m.get (m.set b _) = m.get beans[i]
    rw [m.get_set, List.getD_eq_getElem _ _ (by simpa using h), List.getElem_map]

theorem step_string [Inhabited B] (beans : List B) (hne : beans ≠ [])
    (done : List (FieldBinding B α)) (name : String) (m : Member B String)
    (bs : List B) (results : SearchResults α)
    (hfind : TableSchema.findField results.Get name =
      some (GetCFieldData (TableSchema.RunInternal.column
        (FieldBinding.string name m : FieldBinding B α) beans)))
    (hinv : TableSchema.RoundTripInvariant beans done bs)
    (hapart : ∀ g ∈ done, (FieldBinding.string name m : FieldBinding B α).Apart g)
    (hnul : ∀ b ∈ beans, Char.ofNat 0 ∉ (m.get b).data) :
    ∃ r, TableSchema.FillBeanField (FieldBinding.string name m) bs name results = some r ∧
      TableSchema.RoundTripInvariant beans (done ++ [FieldBinding.string name m]) r.2 := by
  have hcol := column_string_cells (α := α) name m beans
  have hil := RoundTripInvariant_init_length beans hne done bs hinv
  obtain ⟨out, hout, hlen, hget⟩ :=
    FillBeanField_string_spec name m bs name results _
      (fun i => CharPtr.mk ((beans.map m.get).getD i "")) hfind
      (by rw [hcol.1]; exact hcol.2)
      (if bs.isEmpty then List.replicate beans.length default else bs)
      (by rw [hcol.1]) (by rw [hcol.1, hil])
  refine ⟨(kLanceDBSuccess, out), hout, ?_⟩
  refine RoundTripInvariant_step beans hne done _ bs _ out rfl hinv
    (fun i b => m.set b (CharPtr.mk ((beans.map m.get).getD i "")).text) hlen ?_ ?_ ?_
  · intro i h
    rw [hget i h, hcol.1, if_pos (by omega)]
  · intro g hg i b
    exact hapart g hg b _
  · intro _ i h b
    show m.get (m.set b _) = m.get beans[i]
    rw [m.get_set, List.getD_eq_getElem _ _ (by simpa using h), List.getElem_map]
    exact CharPtr.text_of_no_nul _ (hnul _ (List.getElem_mem h))

theorem step_vector [Inhabited B] [Inhabited α] (beans : List B) (hne : beans ≠ [])
    (done : List (FieldBinding B α)) (name : String) (U : NativeType)
    (m : Member B (List α)) (bs : List B) (results : SearchResults α)
    (hfind : TableSchema.findField results.Get name =
      some (GetCFieldData (TableSchema.RunInternal.column (FieldBinding.vector name U m) beans)))
    (hinv : TableSchema.RoundTripInvariant beans done bs)
    (hapart : ∀ g ∈ done, (FieldBinding.vector name U m).Apart g)
    (d : Nat) (huni : ∀ b ∈ beans, (m.get b).length = d) (hd : d < 2 ^ 31) :
    ∃ r, TableSchema.FillBeanField (FieldBinding.vector name U m) bs name results = some r ∧
      TableSchema.RoundTripInvariant beans (done ++ [FieldBinding.vector name U m]) r.2 := by
  have hcol := column_vector_cells name U m beans hne d huni hd
  have hil := RoundTripInvariant_init_length beans hne done bs hinv
  have hrows : ∀ r ∈ beans.map m.get, r.length = d := by
    intro r hr
    obtain ⟨b, hb, hbr⟩ := List.mem_map.1 hr
    rw [← hbr]
    exact huni b hb
  obtain ⟨out, hout, hlen, hget⟩ :=
    FillBeanField_vector_spec name U m bs name results _
      (fun k => ((beans.map m.get).flatten).getD k default) hfind
      (by rw [hcol.1, hcol.2.1]; exact hcol.2.2)
      (if bs.isEmpty then List.replicate beans.length default else bs)
      (by rw [hcol.1]) (by rw [hcol.1, hil])
  refine ⟨(kLanceDBSuccess, out), hout, ?_⟩
  refine RoundTripInvariant_step beans hne done _ bs _ out rfl hinv
    (fun i b => m.set b ((List.range d).map
      (fun j => ((beans.map m.get).flatten).getD (i * d + j) default))) hlen ?_ ?_ ?_
  · intro i h
    rw [hget i h, hcol.1, hcol.2.1, if_pos (by omega)]
  · intro g hg i b
    exact hapart g hg b _
  · intro _ i h b
    show m.get (m.set b _) = m.get beans[i]
    rw [m.get_set, row_of_flatten (beans.map m.get) d hrows i (by simpa using h),
      List.getElem_map]

theorem step_blob [Inhabited B] (beans : List B) (hne : beans ≠ [])
    (done : List (FieldBinding B α)) (name : String) (m : Member B BinaryData)
    (bs : List B) (results : SearchResults α)
    (hfind : TableSchema.findField results.Get name =
      some (GetCFieldData (TableSchema.RunInternal.column
        (FieldBinding.blob name m : FieldBinding B α) beans)))
    (hinv : TableSchema.RoundTripInvariant beans done bs) :
    ∃ r, TableSchema.FillBeanField (FieldBinding.blob name m) bs name results = some r ∧
      TableSchema.RoundTripInvariant beans (done ++ [FieldBinding.blob name m]) r.2 := by
  have hcol := column_blob_sizes (α := α) name m beans hne
  have hil := RoundTripInvariant_init_length beans hne done bs hinv
  have hpos : 0 < beans.length := List.length_pos.2 hne
  obtain ⟨k, hk⟩ : ∃ k, beans.length = k + 1 := ⟨beans.length - 1, by omega⟩
  obtain ⟨b0, hb0⟩ : ∃ b0,
      (if bs.isEmpty then List.replicate beans.length (default : B) else bs)[0]? = some b0 :=
    ⟨_, List.getElem?_eq_getElem (by omega)⟩
  refine ⟨(kLanceDBInvalidData,
    if bs.isEmpty then List.replicate beans.length default else bs), ?_, ?_⟩
  · unfold TableSchema.FillBeanField
    simp only [hfind, hcol.1]
    rw [hk, List.range_succ_eq_map]
    rw [hk] at hb0
    simp only [TableSchema.FillBeanField.blobRows, hb0, hcol.2, if_true]
  · refine RoundTripInvariant_step beans hne done _ bs _ _ rfl hinv (fun _ b => b) rfl ?_ ?_ ?_
    · intro i h
      exact List.getElem?_eq_getElem h
    · intro g _ i b
      exact FieldBinding.SameValue.refl g b
    · intro hb
      simp [FieldBinding.isBlob] at hb

/-- The fold of `QueryInternal` over the bindings still to hydrate keeps the round-trip
invariant, when the batch is the one `RunInternal` built from `beans`. -/
theorem RoundTripInvariant_fold [Inhabited B] [Inhabited α] (beans : List B)
    (hne : beans ≠ []) (results : SearchResults α) (post : List (FieldBinding B α)) :
    ∀ (done : List (FieldBinding B α)) (bs : List B),
      TableSchema.RoundTripInvariant beans done bs →
      (∀ f ∈ post, TableSchema.findField results.Get f.name =
        some (GetCFieldData (TableSchema.RunInternal.column f beans))) →
      (done ++ post).Pairwise (fun f g => f.Apart g ∧ g.Apart f) →
      (∀ (name : String) (U : NativeType) (m : Member B (List α)),
        FieldBinding.vector name U m ∈ post →
        ∀ b ∈ beans, ∀ b' ∈ beans, (m.get b).length = (m.get b').length) →
      (∀ (name : String) (U : NativeType) (m : Member B (List α)),
        FieldBinding.vector name U m ∈ post → ∀ b ∈ beans, (m.get b).length < 2 ^ 31) →
      (∀ (name : String) (m : Member B String), FieldBinding.string name m ∈ post →
        ∀ b ∈ beans, Char.ofNat 0 ∉ (m.get b).data) →
      ∃ out, post.foldlM
          (fun bs f => (TableSchema.FillBeanField f bs f.name results).map (fun r => r.2)) bs =
          some out ∧
        TableSchema.RoundTripInvariant beans (done ++ post) out := by
  induction post with
  | nil =>
    intro done bs hinv _ _ _ _ _
    exact ⟨bs, rfl, by simpa using hinv⟩
  | cons f rest ih =>
    intro done bs hinv hfind hpw huni hshort hnul
    have hapart : ∀ g ∈ done, f.Apart g := by
      intro g hg
      have := (List.pairwise_append.1 hpw).2.2 g hg f (List.mem_cons_self _ _)
      exact this.2
    have hff := hfind f (List.mem_cons_self _ _)
    obtain ⟨b0, hb0⟩ : ∃ b0, b0 ∈ beans := by
      cases beans with
      | nil => exact absurd rfl hne
      | cons b0 _ => exact ⟨b0, List.mem_cons_self _ _⟩
    have hstep : ∃ r, TableSchema.FillBeanField f bs f.name results = some r ∧
        TableSchema.RoundTripInvariant beans (done ++ [f]) r.2 := by
      cases f with
      | scalar name U m => exact step_scalar beans hne done name U m bs results hff hinv hapart
      | vector name U m =>
        exact step_vector beans hne done name U m bs results hff hinv hapart
          (m.get b0).length
          (fun b hb => huni name U m (List.mem_cons_self _ _) b hb b0 hb0)
          (hshort name U m (List.mem_cons_self _ _) b0 hb0)
      | string name m =>
        exact step_string beans hne done name m bs results hff hinv hapart
          (hnul name m (List.mem_cons_self _ _))
      | blob name m => exact step_blob beans hne done name m bs results hff hinv
    obtain ⟨r, hr, hinv'⟩ := hstep
    obtain ⟨out, hout, hfinal⟩ := ih (done ++ [f]) r.2 hinv'
      (fun g hg => hfind g (List.mem_cons_of_mem _ hg))
      (by simpa using hpw)
      (fun name U m hm => huni name U m (List.mem_cons_of_mem _ hm))
      (fun name U m hm => hshort name U m (List.mem_cons_of_mem _ hm))
      (fun name m hm => hnul name m (List.mem_cons_of_mem _ hm))
    refine ⟨out, ?_, by simpa using hfinal⟩
    rw [List.foldlM_cons, hr]
    exact hout

/-- C19, as stated, fails for a string field that holds a NUL character: the one record
with `content = "a\x00b"` makes a non-empty list with vector fields of one length, and
hydrating the batch `Run` builds from it gives the record with `content = "a"`, because
a string crosses the boundary as a NUL-terminated `const char*`. -/
theorem C19_counterexample :
    ((TableSchema.mk TestTableAdapter (LanceDB.mk true (some 1)) false true).QueryInternal []
        (SearchResults.mk (lancedb_data_t.mk
          ((LanceDB.mk true (some 1)).CreateBatchInserter
            (TableSchema.RunInternal.data_tuple TestTableAdapter.fields
              [TestTable.mk 1 [1, 2] "a\x00b" 3 4 "title"])).cfd_) true)).map (fun r => r.2) =
      some [TestTable.mk 1 [1, 2] "a" 3 4 "title"] ∧
    TestTable.mk 1 [1, 2] "a" 3 4 "title" ≠ TestTable.mk 1 [1, 2] "a\x00b" 3 4 "title" := by
  decide

/-- C19, amended: let the adapter bind at least one field (`static_assert(N > 0)`), and
bind pairwise different data members under pairwise different names.  For every
non-empty record list in which each bound vector field has one length over all records,
below `2^31` (the dimension is stored in an `int`), and no bound string field holds a NUL
character, hydrating into an empty record list the batch whose columns are the ones `Run` hands to the
boundary for those records succeeds and yields a list of the same length in which record
`i` has the bound scalar, vector and string fields of the original record `i`. -/
theorem C19_round_trip [Inhabited B] [Inhabited α] (self : TableSchema B α)
    (beans : List B) (hne : beans ≠ []) (hN : 0 < self.adapter.N)
    (hnames : (self.adapter.fields.map FieldBinding.name).Nodup)
    (hmembers : self.adapter.fields.Pairwise (fun f g => f.Apart g ∧ g.Apart f))
    (huni : ∀ (name : String) (U : NativeType) (m : Member B (List α)),
      FieldBinding.vector name U m ∈ self.adapter.fields →
      ∀ b ∈ beans, ∀ b' ∈ beans, (m.get b).length = (m.get b').length)
    (hshort : ∀ (name : String) (U : NativeType) (m : Member B (List α)),
      FieldBinding.vector name U m ∈ self.adapter.fields →
      ∀ b ∈ beans, (m.get b).length < 2 ^ 31)
    (hnul : ∀ (name : String) (m : Member B String),
      FieldBinding.string name m ∈ self.adapter.fields →
      ∀ b ∈ beans, Char.ofNat 0 ∉ (m.get b).data) :
    ∃ out, self.QueryInternal []
        (SearchResults.mk (lancedb_data_t.mk
          (self.lancedb_conn_.CreateBatchInserter
            (TableSchema.RunInternal.data_tuple self.adapter.fields beans)).cfd_) true) =
        some (kLanceDBSuccess, out) ∧
      out.length = beans.length ∧
      ∀ (i : Nat) (h1 : i < out.length) (h2 : i < beans.length),
        (∀ (name : String) (U : NativeType) (m : Member B α),
          FieldBinding.scalar name U m ∈ self.adapter.fields →
          m.get out[i] = m.get beans[i]) ∧
        (∀ (name : String) (U : NativeType) (m : Member B (List α)),
          FieldBinding.vector name U m ∈ self.adapter.fields →
          m.get out[i] = m.get beans[i]) ∧
        (∀ (name : String) (m : Member B String),
          FieldBinding.string name m ∈ self.adapter.fields →
          m.get out[i] = m.get beans[i]) := by
  have hbatch : (self.lancedb_conn_.CreateBatchInserter
      (TableSchema.RunInternal.data_tuple self.adapter.fields beans)).cfd_ =
      (TableSchema.RunInternal.data_tuple self.adapter.fields beans).map GetCFieldData := by
    unfold LanceDB.CreateBatchInserter
    rw [BatchInserter.construct_eq]
  rw [hbatch]
  obtain ⟨out, hout, hinv⟩ :=
    RoundTripInvariant_fold beans hne
      (SearchResults.mk (lancedb_data_t.mk
        ((TableSchema.RunInternal.data_tuple self.adapter.fields beans).map GetCFieldData)) true)
      self.adapter.fields [] [] (Or.inl ⟨rfl, rfl⟩)
      (fun f hf => findField_run_batch self.adapter.fields beans hnames f hf)
      (by simpa using hmembers) huni hshort hnul
  have hpos : 0 < beans.length := List.length_pos.2 hne
  rcases hinv with ⟨_, hnil⟩ | ⟨hlen, hall⟩
  · have hf : self.adapter.fields = [] := by simpa using hnil
    unfold Adapter.N at hN
    rw [hf] at hN
    exact absurd hN (by simp)
  · refine ⟨out, ?_, hlen, ?_⟩
    · unfold TableSchema.QueryInternal
      rw [hout]
      rfl
    · intro i h1 h2
      refine ⟨?_, ?_, ?_⟩
      · intro name U m hm
        exact hall _ (by simpa using hm) (by rfl) i h1 h2
      · intro name U m hm
        exact hall _ (by simpa using hm) (by rfl) i h1 h2
      · intro name m hm
        exact hall _ (by simpa using hm) (by rfl) i h1 h2
/-- C19, amended, at the adapter of the unit test and two records. -/
theorem C19_round_trip_witness :
    ∃ out, (TableSchema.mk TestTableAdapter (LanceDB.mk true (some 1)) false true).QueryInternal
        []
        (SearchResults.mk (lancedb_data_t.mk
          ((LanceDB.mk true (some 1)).CreateBatchInserter
            (TableSchema.RunInternal.data_tuple TestTableAdapter.fields
              [TestTable.mk 55 [1, 2, 3] "page five" 5 0 "Chapter 0",
               TestTable.mk 56 [4, 5, 6] "page six" 6 1 "Chapter 1"])).cfd_) true) =
        some (kLanceDBSuccess, out) ∧
      out.length = 2 := by
  obtain ⟨out, h1, h2, _⟩ :=
    C19_round_trip (TableSchema.mk TestTableAdapter (LanceDB.mk true (some 1)) false true)
      [TestTable.mk 55 [1, 2, 3] "page five" 5 0 "Chapter 0",
       TestTable.mk 56 [4, 5, 6] "page six" 6 1 "Chapter 1"]
      (by decide) (by decide) (by decide)
      (by
        simp [TestTableAdapter, FieldBinding.Apart, FieldBinding.SameValue])
      (by
        intro name U m hm b hb b' hb'
        simp only [TestTableAdapter, List.mem_cons, List.mem_singleton, List.not_mem_nil,
          or_false, reduceCtorEq, false_or, FieldBinding.vector.injEq] at hm
        obtain ⟨_, _, hm⟩ := hm
        subst hm
        simp only [List.mem_cons, List.mem_singleton, List.not_mem_nil, or_false] at hb hb'
        rcases hb with rfl | rfl <;> rcases hb' with rfl | rfl <;> rfl)
      (by
        intro name U m hm b hb
        simp only [TestTableAdapter, List.mem_cons, List.mem_singleton, List.not_mem_nil,
          or_false, reduceCtorEq, false_or, FieldBinding.vector.injEq] at hm
        obtain ⟨_, _, hm⟩ := hm
        subst hm
        simp only [List.mem_cons, List.mem_singleton, List.not_mem_nil, or_false] at hb
        rcases hb with rfl | rfl <;> decide)
      (by
        intro name m hm b hb
        simp only [TestTableAdapter, List.mem_cons, List.mem_singleton, List.not_mem_nil,
          or_false, reduceCtorEq, false_or, FieldBinding.string.injEq] at hm
        simp only [List.mem_cons, List.mem_singleton, List.not_mem_nil, or_false] at hb
        rcases hm with ⟨_, rfl⟩ | ⟨_, rfl⟩ <;> rcases hb with rfl | rfl <;> decide)
  exact ⟨out, h1, h2⟩

/-! ## The boundary calls of `BatchInserter` and `LanceDB::Query` -/

/-- C22: for an inserter whose handle is not null and whose validity flag is set, and for
every engine, table name and trace of earlier calls, `CreateTable` makes exactly one
boundary call (`lancedb_create_table_with_schema`, appended to the trace) and returns
`kLanceDBSuccess` exactly when that call reports `true`, `kLanceDBInternalError`
otherwise; `Insert` makes exactly one boundary call (`lancedb_insert`) and returns
`kLanceDBSuccess` exactly when that call reports `true`, `kLanceDBInsertFailed`
otherwise. -/
theorem C22_connected_valid_inserter_calls_boundary_once (eng : Engine α)
    (ins : BatchInserter α) (table_name : String) (trace : List (BoundaryCall α))
    (hconn : ins.hnd_ ≠ none) (hvalid : ins.is_valid_ = true) :
    ((ins.CreateTable eng table_name trace).2 =
        trace ++ [BoundaryCall.create_table_with_schema ins.hnd_ table_name
          { fields := ins.fields_ }] ∧
      ((ins.CreateTable eng table_name trace).1 = kLanceDBSuccess ↔
        eng.lancedb_create_table_with_schema trace ins.hnd_ table_name
          { fields := ins.fields_ } = true) ∧
      (eng.lancedb_create_table_with_schema trace ins.hnd_ table_name
          { fields := ins.fields_ } = false →
        (ins.CreateTable eng table_name trace).1 = kLanceDBInternalError)) ∧
    ((ins.Insert eng table_name trace).2 =
        trace ++ [BoundaryCall.insert ins.hnd_ table_name { fields := ins.cfd_ }] ∧
      ((ins.Insert eng table_name trace).1 = kLanceDBSuccess ↔
        eng.lancedb_insert trace ins.hnd_ table_name { fields := ins.cfd_ } = true) ∧
      (eng.lancedb_insert trace ins.hnd_ table_name { fields := ins.cfd_ } = false →
        (ins.Insert eng table_name trace).1 = kLanceDBInsertFailed)) := by
  refine ⟨⟨?_, ?_, ?_⟩, ?_, ?_, ?_⟩
  · simp [BatchInserter.CreateTable, hconn, hvalid]
  · simp only [BatchInserter.CreateTable, hconn, hvalid]
    cases eng.lancedb_create_table_with_schema trace ins.hnd_ table_name
      { fields := ins.fields_ } <;> simp
  · intro hfalse
    simp [BatchInserter.CreateTable, hconn, hvalid, hfalse]
  · simp [BatchInserter.Insert, hconn, hvalid]
  · simp only [BatchInserter.Insert, hconn, hvalid]
    cases eng.lancedb_insert trace ins.hnd_ table_name { fields := ins.cfd_ } <;> simp
  · intro hfalse
    simp [BatchInserter.Insert, hconn, hvalid, hfalse]

/-- C22 at the inserter of one valid column of three rows, with an engine that creates
the table and refuses the insert. -/
theorem C22_connected_valid_inserter_calls_boundary_once_witness :
    ((LanceDB.mk true (some 1)).CreateBatchInserter
        [(AnyFieldData.scalar
          (FieldData.ofScalars NativeType.int32_t "idx" [1, 2, 3] false false) :
            AnyFieldData Nat)]).hnd_ ≠ none ∧
    ((LanceDB.mk true (some 1)).CreateBatchInserter
        [(AnyFieldData.scalar
          (FieldData.ofScalars NativeType.int32_t "idx" [1, 2, 3] false false) :
            AnyFieldData Nat)]).is_valid_ = true ∧
    (((LanceDB.mk true (some 1)).CreateBatchInserter
        [(AnyFieldData.scalar
          (FieldData.ofScalars NativeType.int32_t "idx" [1, 2, 3] false false) :
            AnyFieldData Nat)]
      |>.CreateTable (Engine.mk (fun _ _ _ _ => true) (fun _ _ _ _ => false) (fun _ _ _ _ _ _ => none))
        "test_table" []).1 = kLanceDBSuccess ↔ true = true) ∧
    ((LanceDB.mk true (some 1)).CreateBatchInserter
        [(AnyFieldData.scalar
          (FieldData.ofScalars NativeType.int32_t "idx" [1, 2, 3] false false) :
            AnyFieldData Nat)]
      |>.Insert (Engine.mk (fun _ _ _ _ => true) (fun _ _ _ _ => false) (fun _ _ _ _ _ _ => none))
        "test_table" []).1 = kLanceDBInsertFailed :=
  ⟨by decide, by decide,
   (C22_connected_valid_inserter_calls_boundary_once
      (Engine.mk (fun _ _ _ _ => true) (fun _ _ _ _ => false) (fun _ _ _ _ _ _ => none))
      ((LanceDB.mk true (some 1)).CreateBatchInserter
        [(AnyFieldData.scalar
          (FieldData.ofScalars NativeType.int32_t "idx" [1, 2, 3] false false) :
            AnyFieldData Nat)])
      "test_table" [] (by decide) (by decide)).1.2.1,
   (C22_connected_valid_inserter_calls_boundary_once
      (Engine.mk (fun _ _ _ _ => true) (fun _ _ _ _ => false) (fun _ _ _ _ _ _ => none))
      ((LanceDB.mk true (some 1)).CreateBatchInserter
        [(AnyFieldData.scalar
          (FieldData.ofScalars NativeType.int32_t "idx" [1, 2, 3] false false) :
            AnyFieldData Nat)])
      "test_table" [] (by decide) (by decide)).2.2.2 rfl⟩

/-- C27: for an inserter whose handle is null, whatever its validity flag, and for every
engine, table name and trace, `CreateTable` and `Insert` return `kLanceDBNotConnected`
and make no boundary call (the trace is returned as it was). -/
theorem C27_null_handle_precedes_validity (eng : Engine α) (ins : BatchInserter α)
    (table_name : String) (trace : List (BoundaryCall α)) (hnull : ins.hnd_ = none) :
    ins.CreateTable eng table_name trace = (kLanceDBNotConnected, trace) ∧
    ins.Insert eng table_name trace = (kLanceDBNotConnected, trace) := by
  constructor
  · unfold BatchInserter.CreateTable
    rw [if_pos hnull]
  · unfold BatchInserter.Insert
    rw [if_pos hnull]

/-- C27 at a valid inserter (one column of three rows) built on a null handle. -/
theorem C27_null_handle_precedes_validity_witness :
    ((LanceDB.mk false none).CreateBatchInserter
        [(AnyFieldData.scalar
          (FieldData.ofScalars NativeType.int32_t "idx" [1, 2, 3] false false) :
            AnyFieldData Nat)]).hnd_ = none ∧
    ((LanceDB.mk false none).CreateBatchInserter
        [(AnyFieldData.scalar
          (FieldData.ofScalars NativeType.int32_t "idx" [1, 2, 3] false false) :
            AnyFieldData Nat)]).is_valid_ = true ∧
    ((LanceDB.mk false none).CreateBatchInserter
        [(AnyFieldData.scalar
          (FieldData.ofScalars NativeType.int32_t "idx" [1, 2, 3] false false) :
            AnyFieldData Nat)]
      |>.CreateTable (Engine.mk (fun _ _ _ _ => true) (fun _ _ _ _ => true) (fun _ _ _ _ _ _ => none))
        "test_table" []) = (kLanceDBNotConnected, []) ∧
    ((LanceDB.mk false none).CreateBatchInserter
        [(AnyFieldData.scalar
          (FieldData.ofScalars NativeType.int32_t "idx" [1, 2, 3] false false) :
            AnyFieldData Nat)]
      |>.Insert (Engine.mk (fun _ _ _ _ => true) (fun _ _ _ _ => true) (fun _ _ _ _ _ _ => none))
        "test_table" []) = (kLanceDBNotConnected, []) :=
  ⟨by decide, by decide,
   C27_null_handle_precedes_validity
      (Engine.mk (fun _ _ _ _ => true) (fun _ _ _ _ => true) (fun _ _ _ _ _ _ => none))
      ((LanceDB.mk false none).CreateBatchInserter
        [(AnyFieldData.scalar
          (FieldData.ofScalars NativeType.int32_t "idx" [1, 2, 3] false false) :
            AnyFieldData Nat)])
      "test_table" [] (by decide)⟩

theorem LanceDB.Query_search (eng : Engine α) (db : LanceDB)
    (table_name column_name : String) (embeddings : List α) (sr : SearchResults α)
    (trace : List (BoundaryCall α)) (hconn : db.hnd_ ≠ none) (hne : embeddings ≠ []) :
    (db.Query eng table_name column_name embeddings sr trace).2.2 =
      trace ++ [BoundaryCall.search db.hnd_ table_name column_name embeddings
        (sizeTToInt embeddings.length)] := by
  have hemp : embeddings.isEmpty = false := by
    cases embeddings with
    | nil => exact absurd rfl hne
    | cons _ _ => rfl
  simp only [LanceDB.Query, hconn, hemp, if_false, Bool.false_eq_true]
  cases eng.lancedb_search trace db.hnd_ table_name column_name embeddings
    (sizeTToInt embeddings.length) <;> rfl

theorem replicate_two_pow_31_ne_nil (x : α) : List.replicate (2 ^ 31) x ≠ [] := by
  intro h
  have hlen := congrArg List.length h
  rw [List.length_replicate, List.length_nil] at hlen
  norm_num at hlen

/-- C28, as stated, fails for a query vector of `2^31` values: on a connected handle the
one search call carries `dimension = -2147483648`, the length narrowed to the `int`
parameter of `lancedb_search`, not the length of the query vector. -/
theorem C28_counterexample :
    ((LanceDB.mk true (some 1)).Query
        (Engine.mk (fun _ _ _ _ => true) (fun _ _ _ _ => true) (fun _ _ _ _ _ _ => none))
        "t" "embedding" (List.replicate (2 ^ 31) (0 : Int))
        (SearchResults.mk (lancedb_data_t.mk []) false) []).2.2 =
      [BoundaryCall.search (some 1) "t" "embedding" (List.replicate (2 ^ 31) (0 : Int))
        (-2147483648)] ∧
    ¬ (((LanceDB.mk true (some 1)).Query
        (Engine.mk (fun _ _ _ _ => true) (fun _ _ _ _ => true) (fun _ _ _ _ _ _ => none))
        "t" "embedding" (List.replicate (2 ^ 31) (0 : Int))
        (SearchResults.mk (lancedb_data_t.mk []) false) []).2.2 =
      [BoundaryCall.search (some 1) "t" "embedding" (List.replicate (2 ^ 31) (0 : Int))
        (((List.replicate (2 ^ 31) (0 : Int)).length : Nat) : Int)]) := by
  have hq := LanceDB.Query_search
    (Engine.mk (fun _ _ _ _ => true) (fun _ _ _ _ => true) (fun _ _ _ _ _ _ => none))
    (LanceDB.mk true (some 1)) "t" "embedding" (List.replicate (2 ^ 31) (0 : Int))
    (SearchResults.mk (lancedb_data_t.mk []) false) [] (by simp)
    (replicate_two_pow_31_ne_nil (0 : Int))
  rw [sizeTToInt_length_replicate_two_pow_31 (0 : Int), List.nil_append] at hq
  refine ⟨hq, ?_⟩
  intro h
  rw [hq, List.length_replicate] at h
  simp only [List.cons.injEq, BoundaryCall.search.injEq, and_true, true_and] at h
  norm_num at h

/-- C28, amended: `LanceDB::Query` checks its arguments before it searches.  With a null
handle it returns `kLanceDBNotConnected`; with a handle and an empty query vector it
returns `kLanceDBInvalidData`; in both cases the trace and the `SearchResults` argument
(batch and validity flag) are returned as they were.  With a handle and a non-empty query
vector it makes exactly one boundary call, `lancedb_search` with `dimension` the length
of the query vector narrowed to `int`, which is the length itself for a query vector of
fewer than `2^31` values; it sets the validity flag to the outcome of that call, stores
the batch of a successful search, and returns `kLanceDBSuccess` exactly when the search
succeeded, `kLanceDBInternalError` otherwise. -/
theorem C28_query_validates_before_search (eng : Engine α) (db : LanceDB)
    (table_name column_name : String) (embeddings : List α) (sr : SearchResults α)
    (trace : List (BoundaryCall α)) :
    (db.hnd_ = none →
      db.Query eng table_name column_name embeddings sr trace =
        (kLanceDBNotConnected, sr, trace)) ∧
    (db.hnd_ ≠ none → embeddings = [] →
      db.Query eng table_name column_name embeddings sr trace =
        (kLanceDBInvalidData, sr, trace)) ∧
    (db.hnd_ ≠ none → embeddings ≠ [] →
      (db.Query eng table_name column_name embeddings sr trace).2.2 =
        trace ++ [BoundaryCall.search db.hnd_ table_name column_name embeddings
          (sizeTToInt embeddings.length)] ∧
      (embeddings.length < 2 ^ 31 →
        (db.Query eng table_name column_name embeddings sr trace).2.2 =
          trace ++ [BoundaryCall.search db.hnd_ table_name column_name embeddings
            (embeddings.length : Int)]) ∧
      (db.Query eng table_name column_name embeddings sr trace).2.1.is_valid_ =
        (eng.lancedb_search trace db.hnd_ table_name column_name embeddings
          (sizeTToInt embeddings.length)).isSome ∧
      (∀ batch, eng.lancedb_search trace db.hnd_ table_name column_name embeddings
          (sizeTToInt embeddings.length) = some batch →
        (db.Query eng table_name column_name embeddings sr trace).2.1.data_ = batch) ∧
      ((db.Query eng table_name column_name embeddings sr trace).1 = kLanceDBSuccess ↔
        (eng.lancedb_search trace db.hnd_ table_name column_name embeddings
          (sizeTToInt embeddings.length)).isSome = true) ∧
      ((eng.lancedb_search trace db.hnd_ table_name column_name embeddings
          (sizeTToInt embeddings.length)).isSome = false →
        (db.Query eng table_name column_name embeddings sr trace).1 =
          kLanceDBInternalError)) := by
  refine ⟨?_, ?_, ?_⟩
  · intro hnull
    simp [LanceDB.Query, hnull]
  · intro hconn hempty
    simp [LanceDB.Query, hconn, hempty]
  · intro hconn hne
    have hemp : embeddings.isEmpty = false := by
      cases embeddings with
      | nil => exact absurd rfl hne
      | cons _ _ => rfl
    have hq := LanceDB.Query_search eng db table_name column_name embeddings sr trace
      hconn hne
    refine ⟨hq, fun hlt => ?_, ?_⟩
    · rw [hq, sizeTToInt_of_lt _ hlt]
    · simp only [LanceDB.Query, hconn, hemp, if_false, Bool.false_eq_true]
      cases eng.lancedb_search trace db.hnd_ table_name column_name embeddings
        (sizeTToInt embeddings.length) <;> simp

/-- C28, amended, at a null handle, at an empty query vector, and at a query vector of
two values with a failing engine search. -/
theorem C28_query_validates_before_search_witness :
    (LanceDB.mk false none).Query
        (Engine.mk (fun _ _ _ _ => true) (fun _ _ _ _ => true) (fun _ _ _ _ _ _ => none))
        "t" "embedding" [(1 : Int), 2] (SearchResults.mk (lancedb_data_t.mk []) false) [] =
      (kLanceDBNotConnected, SearchResults.mk (lancedb_data_t.mk []) false, []) ∧
    (LanceDB.mk true (some 1)).Query
        (Engine.mk (fun _ _ _ _ => true) (fun _ _ _ _ => true) (fun _ _ _ _ _ _ => none))
        "t" "embedding" ([] : List Int) (SearchResults.mk (lancedb_data_t.mk []) false) [] =
      (kLanceDBInvalidData, SearchResults.mk (lancedb_data_t.mk []) false, []) ∧
    ((LanceDB.mk true (some 1)).Query
        (Engine.mk (fun _ _ _ _ => true) (fun _ _ _ _ => true) (fun _ _ _ _ _ _ => none))
        "t" "embedding" [(1 : Int), 2] (SearchResults.mk (lancedb_data_t.mk []) false)
        []).2.2 = [] ++ [BoundaryCall.search (some 1) "t" "embedding" [(1 : Int), 2]
          (([(1 : Int), 2].length : Nat) : Int)] :=
  ⟨(C28_query_validates_before_search
      (Engine.mk (fun _ _ _ _ => true) (fun _ _ _ _ => true) (fun _ _ _ _ _ _ => none))
      (LanceDB.mk false none) "t" "embedding" [(1 : Int), 2]
      (SearchResults.mk (lancedb_data_t.mk []) false) []).1 rfl,
   (C28_query_validates_before_search
      (Engine.mk (fun _ _ _ _ => true) (fun _ _ _ _ => true) (fun _ _ _ _ _ _ => none))
      (LanceDB.mk true (some 1)) "t" "embedding" ([] : List Int)
      (SearchResults.mk (lancedb_data_t.mk []) false) []).2.1 (by decide) rfl,
   ((C28_query_validates_before_search
      (Engine.mk (fun _ _ _ _ => true) (fun _ _ _ _ => true) (fun _ _ _ _ _ _ => none))
      (LanceDB.mk true (some 1)) "t" "embedding" [(1 : Int), 2]
      (SearchResults.mk (lancedb_data_t.mk []) false) []).2.2 (by decide)
      (by decide)).2.1 (by decide)⟩

/-- C25: for a connected inserter built from valid columns, the one boundary call of
`CreateTable` carries a schema with one descriptor per column, in the order of the
columns; the descriptor at each position has the name, logical type, shape and dimension
of that column's field info, and its `nullable` and `create_index` are the field info's
flags as `int` (1 for `true`, 0 for `false`). -/
theorem C25_schema_is_projection_of_columns (eng : Engine α) (db : LanceDB)
    (field_data : List (AnyFieldData α)) (table_name : String)
    (trace : List (BoundaryCall α)) (hconn : db.hnd_ ≠ none)
    (hvalid : ∀ fd ∈ field_data, fd.IsDataValid = true) :
    ∃ schema : lancedb_schema_t,
      ((db.CreateBatchInserter field_data).CreateTable eng table_name trace).2 =
        trace ++ [BoundaryCall.create_table_with_schema db.hnd_ table_name schema] ∧
      schema.fields.length = field_data.length ∧
      ∀ (i : Nat) (fd : AnyFieldData α), field_data[i]? = some fd →
        ∃ d : lancedb_table_field_t, schema.fields[i]? = some d ∧
          d.name = fd.GetFieldInfo.name ∧
          d.data_type = fd.GetFieldInfo.data_type ∧
          d.field_type = fd.GetFieldInfo.field_type ∧
          d.dimension = fd.GetFieldInfo.dimension ∧
          d.nullable = (if fd.GetFieldInfo.nullable then 1 else 0) ∧
          d.create_index = (if fd.GetFieldInfo.create_index then 1 else 0) := by
  have hany : field_data.any (fun fd => !fd.IsDataValid) = false := by
    rw [List.any_eq_false]
    intro fd hfd
    simp [hvalid fd hfd]
  refine ⟨{ fields := field_data.map (fun fd => GetCField fd.GetFieldInfo) }, ?_, ?_, ?_⟩
  · unfold LanceDB.CreateBatchInserter
    rw [BatchInserter.construct_eq]
    simp [BatchInserter.CreateTable, hconn, hany]
  · simp
  · intro i fd hfd
    refine ⟨GetCField fd.GetFieldInfo, ?_, rfl, rfl, rfl, rfl, rfl, rfl⟩
    simp [List.getElem?_map, hfd]

/-- C25 at the inserter of a nullable scalar column and a vector column of dimension 2. -/
theorem C25_schema_is_projection_of_columns_witness :
    ∃ schema : lancedb_schema_t,
      (((LanceDB.mk true (some 1)).CreateBatchInserter
          [(AnyFieldData.scalar
              (FieldData.ofScalars NativeType.int32_t "idx" [1, 2] true false) :
              AnyFieldData Nat),
            AnyFieldData.vector
              (FieldData.ofVectors NativeType.int32_t "vec" [[1, 2], [3, 4]] false true)]
        |>.CreateTable
          (Engine.mk (fun _ _ _ _ => true) (fun _ _ _ _ => true) (fun _ _ _ _ _ _ => none))
          "test_table" []).2 =
        [] ++ [BoundaryCall.create_table_with_schema (some 1) "test_table" schema]) ∧
      schema.fields =
        [lancedb_table_field_t.mk "idx" kLanceDBFieldTypeInt32 kLanceDBFieldTypeScalar 0 1 1,
         lancedb_table_field_t.mk "vec" kLanceDBFieldTypeInt32 kLanceDBFieldTypeVector 1 2 0] := by
  obtain ⟨schema, hcall, -, -⟩ :=
    C25_schema_is_projection_of_columns
      (Engine.mk (fun _ _ _ _ => true) (fun _ _ _ _ => true) (fun _ _ _ _ _ _ => none))
      (LanceDB.mk true (some 1))
      [(AnyFieldData.scalar
          (FieldData.ofScalars NativeType.int32_t "idx" [1, 2] true false) :
          AnyFieldData Nat),
        AnyFieldData.vector
          (FieldData.ofVectors NativeType.int32_t "vec" [[1, 2], [3, 4]] false true)]
      "test_table" [] (by decide) (by decide)
  refine ⟨schema, hcall, ?_⟩
  have hdec : ((LanceDB.mk true (some 1)).CreateBatchInserter
          [(AnyFieldData.scalar
              (FieldData.ofScalars NativeType.int32_t "idx" [1, 2] true false) :
              AnyFieldData Nat),
            AnyFieldData.vector
              (FieldData.ofVectors NativeType.int32_t "vec" [[1, 2], [3, 4]] false true)]
        |>.CreateTable
          (Engine.mk (fun _ _ _ _ => true) (fun _ _ _ _ => true) (fun _ _ _ _ _ _ => none))
          "test_table" []).2 =
      [BoundaryCall.create_table_with_schema (some 1) "test_table"
        (lancedb_schema_t.mk
          [lancedb_table_field_t.mk "idx" kLanceDBFieldTypeInt32 kLanceDBFieldTypeScalar 0 1 1,
           lancedb_table_field_t.mk "vec" kLanceDBFieldTypeInt32 kLanceDBFieldTypeVector 1 2 0])] := by
    decide
  rw [hdec] at hcall
  simp only [List.nil_append, List.cons.injEq, BoundaryCall.create_table_with_schema.injEq,
    and_true, true_and] at hcall
  rw [← hcall]

/-! ## `FlatFieldData`: repeated flattening and validity -/

theorem FlatFieldData.GetFlattenData_string_again (s : FlatFieldData String CharPtr)
    (h : s.data_holder = s.data.map CharPtr.mk) :
    FlatFieldData.GetFlattenData_string s = (s, s.data_holder) := by
  unfold FlatFieldData.GetFlattenData_string
  by_cases he : s.data_holder.isEmpty = true
  · have hnil : s.data_holder = [] := List.isEmpty_iff.1 he
    have hdata : s.data = [] := by
      rw [hnil] at h
      exact List.map_eq_nil_iff.1 h.symm
    rw [if_neg (by simp [he])]
    simp [hdata]
  · rw [if_pos (by simpa using he)]

theorem FlatFieldData.GetFlattenData_blob_twice (s : FlatFieldData BinaryData BytePtr) :
    FlatFieldData.GetFlattenData_blob (FlatFieldData.GetFlattenData_blob s).1 =
      FlatFieldData.GetFlattenData_blob s := by
  by_cases he : s.data_holder.isEmpty = true
  · have hnil : s.data_holder = [] := List.isEmpty_iff.1 he
    rw [FlatFieldData.GetFlattenData_blob_first s hnil]
    exact FlatFieldData.GetFlattenData_blob_again _ rfl
  · have hfirst : FlatFieldData.GetFlattenData_blob s = (s, s.data_holder) := by
      unfold FlatFieldData.GetFlattenData_blob
      rw [if_pos (by simpa using he)]
    rw [hfirst, hfirst]

theorem FlatFieldData.GetFlattenData_string_twice (s : FlatFieldData String CharPtr) :
    FlatFieldData.GetFlattenData_string (FlatFieldData.GetFlattenData_string s).1 =
      FlatFieldData.GetFlattenData_string s := by
  by_cases he : s.data_holder.isEmpty = true
  · have hnil : s.data_holder = [] := List.isEmpty_iff.1 he
    rw [FlatFieldData.GetFlattenData_string_first s hnil]
    exact FlatFieldData.GetFlattenData_string_again _ rfl
  · have hfirst : FlatFieldData.GetFlattenData_string s = (s, s.data_holder) := by
      unfold FlatFieldData.GetFlattenData_string
      rw [if_pos (by simpa using he)]
    rw [hfirst, hfirst]

/-- C24: for every `FlatFieldData` object, of a plain element type, of `std::string` and
of `BinaryData`, a second call of `GetFlattenData()` returns the cell sequence the first
call returned and leaves `GetBinaryDataSize()` as the first call left it.  For a column
as its constructor builds it, the cell sequence after two calls has one entry per row,
and so has the size array of a blob column: no entry is appended twice. -/
theorem C24_flatten_is_idempotent {T : Type} (sp : FlatFieldData T T)
    (ss : FlatFieldData String CharPtr) (sb : FlatFieldData BinaryData BytePtr)
    (name : String) (strs : List String) (blobs : List BinaryData)
    (field_type : FieldType) (dimension : Int) (nullable create_index : Bool) :
    ((FlatFieldData.GetFlattenData_plain (FlatFieldData.GetFlattenData_plain sp).1).2 =
        (FlatFieldData.GetFlattenData_plain sp).2 ∧
      (FlatFieldData.GetFlattenData_plain (FlatFieldData.GetFlattenData_plain sp).1).1.GetBinaryDataSize =
        (FlatFieldData.GetFlattenData_plain sp).1.GetBinaryDataSize) ∧
    ((FlatFieldData.GetFlattenData_string (FlatFieldData.GetFlattenData_string ss).1).2 =
        (FlatFieldData.GetFlattenData_string ss).2 ∧
      (FlatFieldData.GetFlattenData_string (FlatFieldData.GetFlattenData_string ss).1).1.GetBinaryDataSize =
        (FlatFieldData.GetFlattenData_string ss).1.GetBinaryDataSize) ∧
    ((FlatFieldData.GetFlattenData_blob (FlatFieldData.GetFlattenData_blob sb).1).2 =
        (FlatFieldData.GetFlattenData_blob sb).2 ∧
      (FlatFieldData.GetFlattenData_blob (FlatFieldData.GetFlattenData_blob sb).1).1.GetBinaryDataSize =
        (FlatFieldData.GetFlattenData_blob sb).1.GetBinaryDataSize) ∧
    ((FlatFieldData.GetFlattenData_string (FlatFieldData.GetFlattenData_string
        (FlatFieldData.ofStrings name strs field_type dimension nullable create_index)).1).2
        = strs.map CharPtr.mk) ∧
    ((FlatFieldData.GetFlattenData_blob (FlatFieldData.GetFlattenData_blob
        (FlatFieldData.ofBlobs name blobs field_type dimension nullable create_index)).1).2
        = blobs.map (fun bin => BytePtr.mk bin.data) ∧
      (FlatFieldData.GetFlattenData_blob (FlatFieldData.GetFlattenData_blob
        (FlatFieldData.ofBlobs name blobs field_type dimension nullable create_index)).1).1.GetBinaryDataSize
        = blobs.map (fun bin => bin.data.length)) := by
  refine ⟨⟨rfl, rfl⟩, ⟨?_, ?_⟩, ⟨?_, ?_⟩, ?_, ?_, ?_⟩
  · rw [FlatFieldData.GetFlattenData_string_twice]
  · rw [FlatFieldData.GetFlattenData_string_twice]
  · rw [FlatFieldData.GetFlattenData_blob_twice]
  · rw [FlatFieldData.GetFlattenData_blob_twice]
  · rw [FlatFieldData.GetFlattenData_string_twice,
      FlatFieldData.GetFlattenData_string_first _ rfl]
    rfl
  · rw [FlatFieldData.GetFlattenData_blob_twice,
      FlatFieldData.GetFlattenData_blob_first _ rfl]
    rfl
  · rw [FlatFieldData.GetFlattenData_blob_twice,
      FlatFieldData.GetFlattenData_blob_first _ rfl]
    simp [FlatFieldData.GetBinaryDataSize, FlatFieldData.ofBlobs, FlatFieldData.construct]

theorem FlatFieldData.div_mul_ne_iff (sz d : Nat) :
    (sz / d * d != sz) = false ↔ ∃ k : Nat, sz = k * d := by
  constructor
  · intro h
    refine ⟨sz / d, ?_⟩
    have h2 : sz / d * d = sz := by simpa using h
    exact h2.symm
  · rintro ⟨k, hk⟩
    have hdvd : d ∣ sz := ⟨k, by rw [hk, Nat.mul_comm]⟩
    simp [Nat.div_mul_cancel hdvd]

/-- C26: a `FlatFieldData` column built by its constructor from a flat value sequence, a
shape and a dimension is valid if and only if the dimension is greater than 0, the
sequence is not empty and, when the shape is `Vector`, the length of the sequence is a
multiple of the dimension; `GetDimension()` is the dimension given to the constructor
in every case.  In particular 128 values with dimension 16 and shape `Vector` are valid
and 128 values with dimension 19 are not. -/
theorem C26_flat_column_validity {T InnerType : Type} (U : NativeType) (name : String)
    (data : List T) (field_type : FieldType) (dimension : Int)
    (nullable create_index : Bool) (x : T) :
    ((FlatFieldData.construct U name data field_type dimension nullable create_index :
        FlatFieldData T InnerType).IsDataValid = true ↔
      (0 < dimension ∧ data ≠ [] ∧
        (field_type = kLanceDBFieldTypeVector →
          ∃ k : Nat, (data.length : Int) = k * dimension))) ∧
    (FlatFieldData.construct U name data field_type dimension nullable create_index :
        FlatFieldData T InnerType).GetDimension = dimension ∧
    (FlatFieldData.construct U name (List.replicate 128 x) kLanceDBFieldTypeVector 16
        nullable create_index : FlatFieldData T InnerType).IsDataValid = true ∧
    (FlatFieldData.construct U name (List.replicate 128 x) kLanceDBFieldTypeVector 19
        nullable create_index : FlatFieldData T InnerType).IsDataValid = false := by
  have key : ∀ (data : List T) (field_type : FieldType) (dimension : Int),
      ((FlatFieldData.construct U name data field_type dimension nullable create_index :
        FlatFieldData T InnerType).IsDataValid = true ↔
      (0 < dimension ∧ data ≠ [] ∧
        (field_type = kLanceDBFieldTypeVector →
          ∃ k : Nat, (data.length : Int) = k * dimension))) := by
    intro data field_type dimension
    unfold FlatFieldData.construct BaseFieldData.IsDataValid FlatFieldData.CheckDataValid
    simp only []
    by_cases hdim : dimension ≤ 0
    · simp [hdim]
    · have hpos : 0 < dimension := by omega
      rw [if_neg hdim]
      cases data with
      | nil => cases field_type <;> simp
      | cons a l =>
        cases field_type with
        | kLanceDBFieldTypeScalar => simp [hpos]
        | kLanceDBFieldTypeVector =>
          have hiff := FlatFieldData.div_mul_ne_iff (a :: l).length dimension.toNat
          have hcast : (dimension.toNat : Int) = dimension := Int.toNat_of_nonneg hpos.le
          simp only [reduceCtorEq, if_false, List.isEmpty_cons, Bool.false_eq_true]
          by_cases hc : ((a :: l).length / dimension.toNat * dimension.toNat !=
              (a :: l).length) = false
          · obtain ⟨k, hk⟩ := hiff.1 hc
            simp only [hc, Bool.false_eq_true, if_false, true_iff]
            refine ⟨hpos, by simp, fun _ => ⟨k, ?_⟩⟩
            rw [← hcast, hk]
            push_cast
            rfl
          · have hc2 : ((a :: l).length / dimension.toNat * dimension.toNat !=
                (a :: l).length) = true := by simpa using hc
            simp only [hc2, if_true, Bool.false_eq_true, false_iff]
            rintro ⟨-, -, hk⟩
            obtain ⟨k, hk⟩ := hk trivial
            apply hc
            apply hiff.2
            refine ⟨k, ?_⟩
            have : ((a :: l).length : Int) = ((k * dimension.toNat : Nat) : Int) := by
              rw [hk]
              push_cast
              rw [hcast]
            exact_mod_cast this
  refine ⟨key data field_type dimension, rfl, ?_, ?_⟩
  · rw [key]
    refine ⟨by decide, by simp, fun _ => ⟨8, by simp⟩⟩
  · rw [Bool.eq_false_iff]
    intro h
    rw [key] at h
    obtain ⟨-, -, hk⟩ := h
    obtain ⟨k, hk⟩ := hk rfl
    simp at hk
    omega

/-! ## `TableSchema::Run`: the order of the two boundary operations -/

theorem BatchInserter.CreateTable_trace (eng : Engine α) (ins : BatchInserter α)
    (table_name : String) (trace : List (BoundaryCall α)) :
    (ins.CreateTable eng table_name trace).2 = trace ∨
    (ins.CreateTable eng table_name trace).2 =
      trace ++ [BoundaryCall.create_table_with_schema ins.hnd_ table_name
        { fields := ins.fields_ }] := by
  unfold BatchInserter.CreateTable
  by_cases h1 : ins.hnd_ = none
  · left
    simp [h1]
  · by_cases h2 : ins.is_valid_ = true
    · right
      simp [h1, h2]
    · left
      simp [h1, h2]

theorem empty_column_invalid (f : FieldBinding B α) :
    (BoundContainer.toFieldData (BoundContainer.empty f)).IsDataValid = false := by
  cases f <;> rfl

/-- C21: for an initialised `TableSchema` with the create_table flag set, every engine,
record list and trace.  If `CreateTable` of the inserter built from the records returns
a code other than `kLanceDBSuccess`, `Run` returns that code with the trace `CreateTable`
left, whatever the create_data flag, and every `lancedb_insert` call in that trace was
already in the trace before `Run`.  If `CreateTable` returns `kLanceDBSuccess` and the
create_data flag is set, `Run` returns what `Insert` returns when run after it. -/
theorem C21_run_stops_at_create_table_error (eng : Engine α) (self : TableSchema B α)
    (beans : List B) (trace : List (BoundaryCall α)) (hinit : self.IsInited = true)
    (hcreate : self.create_table_ = true) :
    (((self.lancedb_conn_.CreateBatchInserter
          (TableSchema.RunInternal.data_tuple self.adapter.fields beans)).CreateTable eng
          self.adapter.table_name trace).1 ≠ kLanceDBSuccess →
      self.Run eng beans trace =
        (self.lancedb_conn_.CreateBatchInserter
          (TableSchema.RunInternal.data_tuple self.adapter.fields beans)).CreateTable eng
          self.adapter.table_name trace ∧
      ∀ (handle : lancedb_handle_t) (table_name : String) (field_data : lancedb_data_t α),
        BoundaryCall.insert handle table_name field_data ∈ (self.Run eng beans trace).2 →
          BoundaryCall.insert handle table_name field_data ∈ trace) ∧
    (((self.lancedb_conn_.CreateBatchInserter
          (TableSchema.RunInternal.data_tuple self.adapter.fields beans)).CreateTable eng
          self.adapter.table_name trace).1 = kLanceDBSuccess →
      self.create_data_ = true →
      self.Run eng beans trace =
        (self.lancedb_conn_.CreateBatchInserter
          (TableSchema.RunInternal.data_tuple self.adapter.fields beans)).Insert eng
          self.adapter.table_name
          ((self.lancedb_conn_.CreateBatchInserter
            (TableSchema.RunInternal.data_tuple self.adapter.fields beans)).CreateTable eng
            self.adapter.table_name trace).2) := by
  constructor
  · intro herr
    have hrun : self.Run eng beans trace =
        (self.lancedb_conn_.CreateBatchInserter
          (TableSchema.RunInternal.data_tuple self.adapter.fields beans)).CreateTable eng
          self.adapter.table_name trace := by
      simp only [TableSchema.Run, hinit, TableSchema.RunInternal, hcreate]
      simp [herr]
    refine ⟨hrun, ?_⟩
    intro handle table_name field_data hmem
    rw [hrun] at hmem
    rcases BatchInserter.CreateTable_trace eng
        (self.lancedb_conn_.CreateBatchInserter
          (TableSchema.RunInternal.data_tuple self.adapter.fields beans))
        self.adapter.table_name trace with h | h
    · rw [h] at hmem
      exact hmem
    · rw [h] at hmem
      simpa using hmem
  · intro hok hdata
    simp only [TableSchema.Run, hinit, TableSchema.RunInternal, hcreate]
    simp [hok, hdata]

/-- C21 at the unit-test adapter with both flags set, one record, and an engine that
refuses to create the table: `Run` returns `kLanceDBInternalError` and the one boundary
call is the table creation. -/
theorem C21_run_stops_at_create_table_error_witness :
    (TableSchema.mk TestTableAdapter (LanceDB.mk true (some 1)) true true).IsInited = true ∧
    (TableSchema.mk TestTableAdapter (LanceDB.mk true (some 1)) true true).Run
        (Engine.mk (fun _ _ _ _ => false) (fun _ _ _ _ => true) (fun _ _ _ _ _ _ => none))
        [TestTable.mk 7 [1, 2] "text" 3 4 "title"] [] =
      ((TableSchema.mk TestTableAdapter (LanceDB.mk true (some 1)) true
            true).lancedb_conn_.CreateBatchInserter
          (TableSchema.RunInternal.data_tuple
            (TableSchema.mk TestTableAdapter (LanceDB.mk true (some 1)) true
              true).adapter.fields
            [TestTable.mk 7 [1, 2] "text" 3 4 "title"])).CreateTable
        (Engine.mk (fun _ _ _ _ => false) (fun _ _ _ _ => true) (fun _ _ _ _ _ _ => none))
        (TableSchema.mk TestTableAdapter (LanceDB.mk true (some 1)) true
          true).adapter.table_name [] ∧
    ((TableSchema.mk TestTableAdapter (LanceDB.mk true (some 1)) true true).Run
        (Engine.mk (fun _ _ _ _ => false) (fun _ _ _ _ => true) (fun _ _ _ _ _ _ => none))
        [TestTable.mk 7 [1, 2] "text" 3 4 "title"] []).1 = kLanceDBInternalError :=
  ⟨rfl,
   ((C21_run_stops_at_create_table_error
      (Engine.mk (fun _ _ _ _ => false) (fun _ _ _ _ => true) (fun _ _ _ _ _ _ => none))
      (TableSchema.mk TestTableAdapter (LanceDB.mk true (some 1)) true true)
      [TestTable.mk 7 [1, 2] "text" 3 4 "title"] [] rfl rfl).1 (by decide)).1,
   by decide⟩

/-- C29: for a `TableSchema` over an adapter with at least one bound field, whose
connection is initialised and holds a handle, and with the create_table or the
create_data flag set: `Run` on the empty record list returns `kLanceDBInvalidData` and
makes no boundary call (the trace is returned as it was); every column handed to the
inserter is empty and invalid. -/
theorem C29_run_on_no_records_is_invalid_data (eng : Engine α) (self : TableSchema B α)
    (trace : List (BoundaryCall α)) (hinit : self.IsInited = true)
    (hconn : self.lancedb_conn_.hnd_ ≠ none) (hN : 0 < self.adapter.N)
    (hflag : self.create_table_ = true ∨ self.create_data_ = true) :
    self.Run eng [] trace = (kLanceDBInvalidData, trace) ∧
    ∀ fd ∈ TableSchema.RunInternal.data_tuple self.adapter.fields ([] : List B),
      fd.GetDataCount = 0 ∧ fd.IsDataValid = false := by
  have hcols : ∀ fd ∈ TableSchema.RunInternal.data_tuple self.adapter.fields ([] : List B),
      fd.GetDataCount = 0 ∧ fd.IsDataValid = false := by
    intro fd hfd
    simp only [TableSchema.RunInternal.data_tuple, TableSchema.RunInternal.gather,
      List.foldl_nil, List.map_map, List.mem_map, Function.comp] at hfd
    obtain ⟨f, -, rfl⟩ := hfd
    cases f <;> exact ⟨rfl, rfl⟩
  refine ⟨?_, hcols⟩
  have hne : TableSchema.RunInternal.data_tuple self.adapter.fields ([] : List B) ≠ [] := by
    intro h
    have hlen : (TableSchema.RunInternal.data_tuple self.adapter.fields
        ([] : List B)).length = self.adapter.fields.length := by
      simp [TableSchema.RunInternal.data_tuple, TableSchema.RunInternal.gather]
    rw [h] at hlen
    unfold Adapter.N at hN
    simp at hlen
    omega
  obtain ⟨fd, hfd⟩ := List.exists_mem_of_ne_nil _ hne
  have hinv : (self.lancedb_conn_.CreateBatchInserter
      (TableSchema.RunInternal.data_tuple self.adapter.fields ([] : List B))).is_valid_
        = false :=
    (BatchInserter.construct_invalid_iff _ _).2 ⟨fd, hfd, (hcols fd hfd).2⟩
  have hhnd : (self.lancedb_conn_.CreateBatchInserter
      (TableSchema.RunInternal.data_tuple self.adapter.fields ([] : List B))).hnd_
        = self.lancedb_conn_.hnd_ := by
    unfold LanceDB.CreateBatchInserter
    rw [BatchInserter.construct_eq]
  have hct : (self.lancedb_conn_.CreateBatchInserter
      (TableSchema.RunInternal.data_tuple self.adapter.fields ([] : List B))).CreateTable
        eng self.adapter.table_name trace = (kLanceDBInvalidData, trace) := by
    simp [BatchInserter.CreateTable, hinv, hhnd, hconn]
  have hins : (self.lancedb_conn_.CreateBatchInserter
      (TableSchema.RunInternal.data_tuple self.adapter.fields ([] : List B))).Insert
        eng self.adapter.table_name trace = (kLanceDBInvalidData, trace) := by
    simp [BatchInserter.Insert, hinv, hhnd, hconn]
  simp only [TableSchema.Run, hinit, TableSchema.RunInternal, hct, hins]
  by_cases h1 : self.create_table_ = true
  · simp [h1]
  · rcases hflag with h | h
    · exact absurd h h1
    · simp [h1, h]

/-- C29 at the unit-test adapter on a connected handle, with each flag set alone. -/
theorem C29_run_on_no_records_is_invalid_data_witness :
    (TableSchema.mk TestTableAdapter (LanceDB.mk true (some 1)) true false).Run
        (Engine.mk (fun _ _ _ _ => true) (fun _ _ _ _ => true) (fun _ _ _ _ _ _ => none))
        [] [] = (kLanceDBInvalidData, []) ∧
    (TableSchema.mk TestTableAdapter (LanceDB.mk true (some 1)) false true).Run
        (Engine.mk (fun _ _ _ _ => true) (fun _ _ _ _ => true) (fun _ _ _ _ _ _ => none))
        [] [] = (kLanceDBInvalidData, []) :=
  ⟨(C29_run_on_no_records_is_invalid_data
      (Engine.mk (fun _ _ _ _ => true) (fun _ _ _ _ => true) (fun _ _ _ _ _ _ => none))
      (TableSchema.mk TestTableAdapter (LanceDB.mk true (some 1)) true false) [] rfl
      (by decide) (by decide) (Or.inl rfl)).1,
   (C29_run_on_no_records_is_invalid_data
      (Engine.mk (fun _ _ _ _ => true) (fun _ _ _ _ => true) (fun _ _ _ _ _ _ => none))
      (TableSchema.mk TestTableAdapter (LanceDB.mk true (some 1)) false true) [] rfl
      (by decide) (by decide) (Or.inr rfl)).1⟩

/-! ## Release of search results -/

theorem LanceDB.Query_frees (eng : Engine α) (db : LanceDB)
    (table_name column_name : String) (embeddings : List α) (sr : SearchResults α)
    (trace : List (BoundaryCall α)) :
    (db.Query eng table_name column_name embeddings sr trace).2.2.countP BoundaryCall.isFree =
      trace.countP BoundaryCall.isFree := by
  unfold LanceDB.Query
  by_cases h1 : db.hnd_ = none
  · simp [h1]
  · by_cases h2 : embeddings.isEmpty = true
    · simp [h1, h2]
    · simp only [h1, h2, if_false]
      cases eng.lancedb_search trace db.hnd_ table_name column_name embeddings
        (sizeTToInt embeddings.length) <;> simp [List.countP_append, BoundaryCall.isFree]

theorem SearchResults.scope_fold_frees (eng : Engine α) (db : LanceDB)
    (calls : List (String × String × List α))
    (st : List LanceDBError × SearchResults α × List (BoundaryCall α)) :
    (calls.foldl
      (fun st c =>
        ((st.1 ++ [(db.Query eng c.1 c.2.1 c.2.2 st.2.1 st.2.2).1],
          (db.Query eng c.1 c.2.1 c.2.2 st.2.1 st.2.2).2.1,
          (db.Query eng c.1 c.2.1 c.2.2 st.2.1 st.2.2).2.2) :
          List LanceDBError × SearchResults α × List (BoundaryCall α)))
      st).2.2.countP BoundaryCall.isFree = st.2.2.countP BoundaryCall.isFree := by
  induction calls generalizing st with
  | nil => rfl
  | cons c rest ih =>
    rw [List.foldl_cons, ih]
    exact LanceDB.Query_frees eng db c.1 c.2.1 c.2.2 st.2.1 st.2.2

/-- C23 on the code: `Query` never calls the free operation and the destructor calls it at
most once, so a block that passes one `SearchResults` object to any number of `Query`
calls adds at most one free to the trace, however many searches succeeded.  With an
engine whose every search succeeds, two `Query` calls on one object give two
`kLanceDBSuccess` and one free, of the second batch: the first batch is never released.
With an engine whose first search succeeds and whose second fails, they give one
`kLanceDBSuccess` and no free at all. -/
theorem C23_reused_search_results_leaks_batch :
    (∀ (eng : Engine Int) (db : LanceDB) (calls : List (String × String × List Int))
        (trace : List (BoundaryCall Int)),
      (SearchResults.scope eng db calls trace).2.countP BoundaryCall.isFree ≤
        trace.countP BoundaryCall.isFree + 1) ∧
    SearchResults.scope
        (Engine.mk (fun _ _ _ _ => true) (fun _ _ _ _ => true)
          (fun _ _ _ _ _ d => some (lancedb_data_t.mk
            [lancedb_field_data_t.mk "id" kLanceDBFieldTypeInt32 kLanceDBFieldTypeScalar 1 1
              [Cell.value d] none])))
        (LanceDB.mk true (some 1))
        [("t", "embedding", [(1 : Int)]), ("t", "embedding", [2, 3])] [] =
      ([kLanceDBSuccess, kLanceDBSuccess],
        [BoundaryCall.search (some 1) "t" "embedding" [1] 1,
         BoundaryCall.search (some 1) "t" "embedding" [2, 3] 2,
         BoundaryCall.free_search_results (lancedb_data_t.mk
            [lancedb_field_data_t.mk "id" kLanceDBFieldTypeInt32 kLanceDBFieldTypeScalar 1 1
              [Cell.value 2] none])]) ∧
    SearchResults.scope
        (Engine.mk (fun _ _ _ _ => true) (fun _ _ _ _ => true)
          (fun tr _ _ _ _ _ => if tr.isEmpty then some (lancedb_data_t.mk []) else none))
        (LanceDB.mk true (some 1))
        [("t", "embedding", [(1 : Int)]), ("t", "embedding", [2])] [] =
      ([kLanceDBSuccess, kLanceDBInternalError],
        [BoundaryCall.search (some 1) "t" "embedding" [1] 1,
         BoundaryCall.search (some 1) "t" "embedding" [2] 1]) := by
  refine ⟨?_, ?_, ?_⟩
  · intro eng db calls trace
    have hfold := SearchResults.scope_fold_frees eng db calls
      (([] : List LanceDBError), ({} : SearchResults Int), trace)
    simp only [SearchResults.scope, SearchResults.destroy]
    split
    · rw [hfold]
      exact Nat.le_succ _
    · rw [List.countP_append, hfold]
      simp [BoundaryCall.isFree]
  · decide
  · decide

/-! ## Hydration: the record indices stay in range -/

theorem forRange_length {X : Type} (n : Nat) (step : Nat → List X → Option (List X))
    (hstep : ∀ (i : Nat) (s s' : List X), step i s = some s' → s'.length = s.length)
    (init out : List X) (h : forRange n step init = some out) :
    out.length = init.length := by
  induction n generalizing out with
  | zero =>
    rw [forRange_zero] at h
    cases h
    rfl
  | succ n ih =>
    rw [forRange_succ] at h
    cases hm : forRange n step init with
    | none =>
      rw [hm] at h
      simp at h
    | some mid =>
      rw [hm] at h
      have hlen := hstep n mid out h
      rw [hlen, ih mid hm]

theorem blobRows_length (m : Member B BinaryData) (col : lancedb_field_data_t α)
    (l : List Nat) (beans : List B) (r : LanceDBError × List B)
    (h : TableSchema.FillBeanField.blobRows m col l beans = some r) :
    r.2.length = beans.length := by
  induction l generalizing beans with
  | nil =>
    simp only [TableSchema.FillBeanField.blobRows, Option.some.injEq] at h
    rw [← h]
  | cons i rest ih =>
    unfold TableSchema.FillBeanField.blobRows at h
    cases hb : beans[i]? with
    | none => simp [hb] at h
    | some bean =>
      simp only [hb] at h
      by_cases hs : col.binary_size.isSome = true
      · simp only [hs, if_true, Option.some.injEq] at h
        rw [← h]
      · have hnone : col.binary_size = none := by simpa using hs
        simp [hnone] at h

theorem FillBeanField_absent [Inhabited B] (f : FieldBinding B α) (beans : List B)
    (field_name : String) (results : SearchResults α)
    (hfind : TableSchema.findField results.Get field_name = none) :
    TableSchema.FillBeanField f beans field_name results = some (kLanceDBSuccess, beans) := by
  unfold TableSchema.FillBeanField
  simp only [hfind]

theorem FillBeanField_length [Inhabited B] (f : FieldBinding B α) (beans : List B)
    (field_name : String) (results : SearchResults α) (col : lancedb_field_data_t α)
    (hfind : TableSchema.findField results.Get field_name = some col)
    (r : LanceDBError × List B)
    (h : TableSchema.FillBeanField f beans field_name results = some r) :
    r.2.length =
      (if beans.isEmpty then List.replicate col.data_count default else beans).length := by
  unfold TableSchema.FillBeanField at h
  simp only [hfind] at h
  cases f with
  | scalar name U m =>
    simp only [Option.map_eq_some'] at h
    obtain ⟨out, hout, rfl⟩ := h
    refine forRange_length _ _ ?_ _ _ hout
    intro i s s' hs
    cases h1 : s[i]? with
    | none => simp [h1] at hs
    | some bean =>
      cases h2 : col.data[i]? with
      | none => simp [h1, h2] at hs
      | some cell =>
        cases h3 : cell.asValue with
        | none => simp [h1, h2, h3] at hs
        | some v =>
          simp [h1, h2, h3] at hs
          rw [← hs]
          simp
  | string name m =>
    simp only [Option.map_eq_some'] at h
    obtain ⟨out, hout, rfl⟩ := h
    refine forRange_length _ _ ?_ _ _ hout
    intro i s s' hs
    cases h1 : s[i]? with
    | none => simp [h1] at hs
    | some bean =>
      cases h2 : col.data[i]? with
      | none => simp [h1, h2] at hs
      | some cell =>
        cases h3 : cell.asCStr with
        | none => simp [h1, h2, h3] at hs
        | some v =>
          simp [h1, h2, h3] at hs
          rw [← hs]
          simp
  | vector name U m =>
    simp only [Option.map_eq_some'] at h
    obtain ⟨out, hout, rfl⟩ := h
    refine forRange_length _ _ ?_ _ _ hout
    intro i s s' hs
    cases h1 : s[i]? with
    | none => simp [h1] at hs
    | some bean =>
      cases h2 : readValues col.data (i * col.dimension) col.dimension with
      | none => simp [h1, h2] at hs
      | some vec =>
        simp [h1, h2] at hs
        rw [← hs]
        simp
  | blob name m =>
    exact blobRows_length m col _ _ r h

theorem hydrate_step_length [Inhabited B] (results : SearchResults α) (n : Nat)
    (f : FieldBinding B α) (bs out : List B)
    (huni : ∀ col, TableSchema.findField results.Get f.name = some col → col.data_count = n)
    (hbs : bs = [] ∨ bs.length = n)
    (h : (TableSchema.FillBeanField f bs f.name results).map (fun r => r.2) = some out) :
    (out = [] ∨ out.length = n) ∧ (bs.length = n → out.length = n) ∧
      ((TableSchema.findField results.Get f.name).isSome = true → out.length = n) := by
  rw [Option.map_eq_some'] at h
  obtain ⟨r, hr, rfl⟩ := h
  cases hfind : TableSchema.findField results.Get f.name with
  | none =>
    rw [FillBeanField_absent f bs f.name results hfind] at hr
    cases hr
    exact ⟨hbs, fun h => h, fun h => by simp at h⟩
  | some col =>
    have hlen := FillBeanField_length f bs f.name results col hfind r hr
    have hcount := huni col hfind
    have hn : r.2.length = n := by
      rw [hlen]
      rcases hbs with hnil | hl
      · simp [hnil, hcount]
      · by_cases he : bs.isEmpty = true
        · have hnil : bs = [] := List.isEmpty_iff.1 he
          simp [hnil, hcount]
        · simp [he, hl]
    exact ⟨Or.inr hn, fun _ => hn, fun _ => hn⟩

theorem hydrate_fold_length [Inhabited B] (results : SearchResults α) (n : Nat)
    (fields : List (FieldBinding B α))
    (huni : ∀ f ∈ fields, ∀ col,
      TableSchema.findField results.Get f.name = some col → col.data_count = n)
    (bs out : List B) (hbs : bs = [] ∨ bs.length = n)
    (h : fields.foldlM
      (fun bs f => (TableSchema.FillBeanField f bs f.name results).map (fun r => r.2)) bs =
        some out) :
    (out = [] ∨ out.length = n) ∧
      ((bs.length = n ∨
          ∃ f ∈ fields, (TableSchema.findField results.Get f.name).isSome = true) →
        out.length = n) := by
  induction fields generalizing bs with
  | nil =>
    simp only [List.foldlM_nil] at h
    cases h
    refine ⟨hbs, ?_⟩
    rintro (hl | ⟨f, hf, -⟩)
    · exact hl
    · simp at hf
  | cons f rest ih =>
    rw [List.foldlM_cons] at h
    cases hstep : (TableSchema.FillBeanField f bs f.name results).map (fun r => r.2) with
    | none =>
      rw [hstep] at h
      simp at h
    | some mid =>
      rw [hstep] at h
      have hmid := hydrate_step_length results n f bs mid
        (huni f (List.mem_cons_self _ _)) hbs hstep
      have hrest := ih (fun g hg => huni g (List.mem_cons_of_mem _ hg)) mid hmid.1 h
      refine ⟨hrest.1, ?_⟩
      rintro (hl | ⟨g, hg, hgs⟩)
      · exact hrest.2 (Or.inl (hmid.2.1 hl))
      · rcases List.mem_cons.1 hg with rfl | hg'
        · exact hrest.2 (Or.inl (hmid.2.2 hgs))
        · exact hrest.2 (Or.inr ⟨g, hg', hgs⟩)

theorem cell_value_of_isSome [Inhabited α] (data : List (Cell α)) (i : Nat)
    (h : ((data[i]?).bind Cell.asValue).isSome = true) :
    data[i]? = some (Cell.value (((data[i]?).bind Cell.asValue).getD default)) := by
  cases hc : data[i]? with
  | none => simp [hc] at h
  | some c =>
    cases c with
    | value v => simp [Cell.asValue]
    | c_str p => simp [hc, Cell.asValue] at h
    | bytes p => simp [hc, Cell.asValue] at h

theorem cell_c_str_of_isSome (data : List (Cell α)) (i : Nat)
    (h : ((data[i]?).bind Cell.asCStr).isSome = true) :
    data[i]? = some (Cell.c_str (((data[i]?).bind Cell.asCStr).getD (CharPtr.mk ""))) := by
  cases hc : data[i]? with
  | none => simp [hc] at h
  | some c =>
    cases c with
    | value v => simp [hc, Cell.asCStr] at h
    | c_str p => simp [Cell.asCStr]
    | bytes p => simp [hc, Cell.asCStr] at h

theorem hydrate_step_defined [Inhabited B] [Inhabited α] (results : SearchResults α)
    (f : FieldBinding B α) (bs : List B)
    (hrows : ∀ col, TableSchema.findField results.Get f.name = some col →
      col.data_count ≤
        (if bs.isEmpty then List.replicate col.data_count default else bs).length)
    (hcells : ∀ col, TableSchema.findField results.Get f.name = some col →
      f.CellsReadable col = true) :
    ∃ r, TableSchema.FillBeanField f bs f.name results = some r := by
  cases hfind : TableSchema.findField results.Get f.name with
  | none => exact ⟨_, FillBeanField_absent f bs f.name results hfind⟩
  | some col =>
    have hn := hrows col hfind
    have hc := hcells col hfind
    cases f with
    | scalar name U m =>
      simp only [FieldBinding.CellsReadable, List.all_eq_true, List.mem_range] at hc
      obtain ⟨out, hout, -, -⟩ := FillBeanField_scalar_spec name U m bs name results col
        (fun i => ((col.data[i]?).bind Cell.asValue).getD default) hfind
        (fun i hi => cell_value_of_isSome col.data i (hc i hi)) _ rfl hn
      exact ⟨_, hout⟩
    | string name m =>
      simp only [FieldBinding.CellsReadable, List.all_eq_true, List.mem_range] at hc
      obtain ⟨out, hout, -, -⟩ := FillBeanField_string_spec name m bs name results col
        (fun i => ((col.data[i]?).bind Cell.asCStr).getD (CharPtr.mk "")) hfind
        (fun i hi => cell_c_str_of_isSome col.data i (hc i hi)) _ rfl hn
      exact ⟨_, hout⟩
    | vector name U m =>
      simp only [FieldBinding.CellsReadable, List.all_eq_true, List.mem_range] at hc
      obtain ⟨out, hout, -, -⟩ := FillBeanField_vector_spec name U m bs name results col
        (fun i => ((col.data[i]?).bind Cell.asValue).getD default) hfind
        (fun i hi => cell_value_of_isSome col.data i (hc i hi)) _ rfl hn
      exact ⟨_, hout⟩
    | blob name m =>
      unfold TableSchema.FillBeanField
      simp only [hfind]
      by_cases h0 : col.data_count = 0
      · rw [h0]
        exact ⟨_, rfl⟩
      · obtain ⟨k, hk⟩ : ∃ k, col.data_count = k + 1 := ⟨col.data_count - 1, by omega⟩
        have hsome : col.binary_size.isSome = true := by
          simpa [FieldBinding.CellsReadable, h0] using hc
        have hpos : 0 < (if bs.isEmpty then List.replicate col.data_count default
            else bs).length := by omega
        rw [hk, List.range_succ_eq_map]
        rw [← hk]
        simp only [TableSchema.FillBeanField.blobRows, List.getElem?_eq_getElem hpos, hsome,
          if_true]
        exact ⟨_, rfl⟩

theorem hydrate_fold_defined [Inhabited B] [Inhabited α] (results : SearchResults α)
    (n : Nat) (fields : List (FieldBinding B α))
    (huni : ∀ f ∈ fields, ∀ col,
      TableSchema.findField results.Get f.name = some col → col.data_count = n)
    (hcells : ∀ f ∈ fields, ∀ col,
      TableSchema.findField results.Get f.name = some col → f.CellsReadable col = true)
    (bs : List B) (hbs : bs = [] ∨ bs.length = n) :
    ∃ out, fields.foldlM
      (fun bs f => (TableSchema.FillBeanField f bs f.name results).map (fun r => r.2)) bs =
        some out := by
  induction fields generalizing bs with
  | nil => exact ⟨bs, rfl⟩
  | cons f rest ih =>
    have hrows : ∀ col, TableSchema.findField results.Get f.name = some col →
        col.data_count ≤
          (if bs.isEmpty then List.replicate col.data_count default else bs).length := by
      intro col hfind
      have hcount := huni f (List.mem_cons_self _ _) col hfind
      rcases hbs with hnil | hl
      · simp [hnil]
      · by_cases he : bs.isEmpty = true
        · have hnil : bs = [] := List.isEmpty_iff.1 he
          simp [hnil]
        · simp [he, hl, hcount]
    obtain ⟨r, hr⟩ := hydrate_step_defined results f bs hrows
      (hcells f (List.mem_cons_self _ _))
    have hstep : (TableSchema.FillBeanField f bs f.name results).map (fun r => r.2) =
        some r.2 := by
      rw [hr]
      rfl
    have hmid := hydrate_step_length results n f bs r.2
      (huni f (List.mem_cons_self _ _)) hbs hstep
    obtain ⟨out, hout⟩ := ih (fun g hg => huni g (List.mem_cons_of_mem _ hg))
      (fun g hg => hcells g (List.mem_cons_of_mem _ hg)) r.2 hmid.1
    refine ⟨out, ?_⟩
    rw [List.foldlM_cons, hstep]
    exact hout

/-- C30: take a result batch in which every bound column that is present has `n` rows,
at least one bound column being present, and hydrate an empty record list.  At every
call of `FillBeanField` that hydration reaches, each row index `i` of the loop is below
the length of the record list the loop indexes (the list after the resize of an empty
list), and the call returns a list of that same length; whenever hydration returns, the
list has exactly `n` records.  If moreover every present bound column holds the cells
its row count announces, hydration does return, with `kLanceDBSuccess` and `n`
records. -/
theorem C30_hydration_stays_in_range [Inhabited B] [Inhabited α] (self : TableSchema B α)
    (results : SearchResults α) (n : Nat)
    (huniform : ∀ f ∈ self.adapter.fields, ∀ col,
      TableSchema.findField results.Get f.name = some col → col.data_count = n)
    (hpresent : ∃ f ∈ self.adapter.fields,
      (TableSchema.findField results.Get f.name).isSome = true) :
    (∀ (pre post : List (FieldBinding B α)) (f : FieldBinding B α) (bs : List B)
        (col : lancedb_field_data_t α),
      self.adapter.fields = pre ++ f :: post →
      pre.foldlM
        (fun bs f => (TableSchema.FillBeanField f bs f.name results).map (fun r => r.2))
        [] = some bs →
      TableSchema.findField results.Get f.name = some col →
      (∀ i, i < col.data_count →
        i < (if bs.isEmpty then List.replicate col.data_count default else bs).length) ∧
      ∀ r, TableSchema.FillBeanField f bs f.name results = some r →
        r.2.length =
          (if bs.isEmpty then List.replicate col.data_count default else bs).length) ∧
    (∀ r, self.QueryInternal [] results = some r → r.2.length = n) ∧
    ((∀ f ∈ self.adapter.fields, ∀ col,
        TableSchema.findField results.Get f.name = some col → f.CellsReadable col = true) →
      ∃ out, self.QueryInternal [] results = some (kLanceDBSuccess, out) ∧
        out.length = n) := by
  have hfinal : ∀ r, self.QueryInternal [] results = some r → r.2.length = n := by
    intro r hr
    unfold TableSchema.QueryInternal at hr
    rw [Option.map_eq_some'] at hr
    obtain ⟨out, hout, rfl⟩ := hr
    exact (hydrate_fold_length results n self.adapter.fields huniform [] out (Or.inl rfl)
      hout).2 (Or.inr hpresent)
  refine ⟨?_, hfinal, ?_⟩
  · intro pre post f bs col hsplit hpre hfind
    have hmem : ∀ g ∈ pre, g ∈ self.adapter.fields := by
      intro g hg
      rw [hsplit]
      exact List.mem_append_left _ hg
    have hf : f ∈ self.adapter.fields := by
      rw [hsplit]
      exact List.mem_append_right _ (List.mem_cons_self _ _)
    have hbs := (hydrate_fold_length results n pre
      (fun g hg => huniform g (hmem g hg)) [] bs (Or.inl rfl) hpre).1
    have hcount := huniform f hf col hfind
    refine ⟨?_, fun r hr => FillBeanField_length f bs f.name results col hfind r hr⟩
    intro i hi
    rcases hbs with hnil | hl
    · simpa [hnil] using hi
    · by_cases he : bs.isEmpty = true
      · have hnil : bs = [] := List.isEmpty_iff.1 he
        simpa [hnil] using hi
      · simp only [he, if_false, Bool.false_eq_true]
        omega
  · intro hcells
    obtain ⟨out, hout⟩ := hydrate_fold_defined results n self.adapter.fields huniform hcells
      [] (Or.inl rfl)
    have hq : self.QueryInternal [] results = some (kLanceDBSuccess, out) := by
      unfold TableSchema.QueryInternal
      rw [hout]
      rfl
    exact ⟨out, hq, hfinal _ hq⟩

/-- C30 at the unit-test adapter and a batch of two rows that has the columns `id`,
`embedding` (dimension 2) and `content`: hydration returns two records. -/
theorem C30_hydration_stays_in_range_witness :
    (∀ f ∈ (TableSchema.mk TestTableAdapter (LanceDB.mk true (some 1)) false
        true).adapter.fields,
      ∀ col ∈ TableSchema.findField (SearchResults.mk (lancedb_data_t.mk
        [lancedb_field_data_t.mk "id" kLanceDBFieldTypeInt32 kLanceDBFieldTypeScalar 2 1
          [Cell.value (55 : Int), Cell.value 66] none,
         lancedb_field_data_t.mk "embedding" kLanceDBFieldTypeFloat32
          kLanceDBFieldTypeVector 2 2
          [Cell.value 1, Cell.value 2, Cell.value 3, Cell.value 4] none,
         lancedb_field_data_t.mk "content" kLanceDBFieldTypeString kLanceDBFieldTypeScalar
          2 1 [Cell.c_str (CharPtr.mk "a"), Cell.c_str (CharPtr.mk "b")] none]) true).Get
        f.name, col.data_count = 2) ∧
    ∃ out, (TableSchema.mk TestTableAdapter (LanceDB.mk true (some 1)) false
        true).QueryInternal [] (SearchResults.mk (lancedb_data_t.mk
        [lancedb_field_data_t.mk "id" kLanceDBFieldTypeInt32 kLanceDBFieldTypeScalar 2 1
          [Cell.value (55 : Int), Cell.value 66] none,
         lancedb_field_data_t.mk "embedding" kLanceDBFieldTypeFloat32
          kLanceDBFieldTypeVector 2 2
          [Cell.value 1, Cell.value 2, Cell.value 3, Cell.value 4] none,
         lancedb_field_data_t.mk "content" kLanceDBFieldTypeString kLanceDBFieldTypeScalar
          2 1 [Cell.c_str (CharPtr.mk "a"), Cell.c_str (CharPtr.mk "b")] none]) true) =
        some (kLanceDBSuccess, out) ∧ out.length = 2 :=
  ⟨by decide,
   (C30_hydration_stays_in_range
      (TableSchema.mk TestTableAdapter (LanceDB.mk true (some 1)) false true)
      (SearchResults.mk (lancedb_data_t.mk
        [lancedb_field_data_t.mk "id" kLanceDBFieldTypeInt32 kLanceDBFieldTypeScalar 2 1
          [Cell.value (55 : Int), Cell.value 66] none,
         lancedb_field_data_t.mk "embedding" kLanceDBFieldTypeFloat32
          kLanceDBFieldTypeVector 2 2
          [Cell.value 1, Cell.value 2, Cell.value 3, Cell.value 4] none,
         lancedb_field_data_t.mk "content" kLanceDBFieldTypeString kLanceDBFieldTypeScalar
          2 1 [Cell.c_str (CharPtr.mk "a"), Cell.c_str (CharPtr.mk "b")] none]) true)
      2 (by decide) (by decide)).2.2 (by decide)⟩

end lancedb
